import Mathlib

/-!
# Event-Poster: seat accounting, admission control and the expiry sweep

A shallow embedding of the Go backend (`internal/models`, `internal/services`,
`internal/database`) of the Event-Poster repository.

* The SQLite database is a value of type `Store`: the three tables as lists of rows in
  rowid order, plus the `sqlite_sequence` counters of the `AUTOINCREMENT` keys.
* Each service method is a function from the store (and the clock reading, where the
  method calls `time.Now()`) to its Go result paired with the store after the call.
* `createTables` runs `PRAGMA foreign_keys = ON` once, on one connection of the pooled
  `sql.DB`, and the setting is per connection. A `DELETE FROM events` therefore takes the
  setting of the connection that serves it as an argument (`foreignKeys`): it cascades
  to the registrations only where the pragma is in force. Inserts are modelled on a
  connection with the pragma in force, where an insert whose foreign key has no parent
  row fails; that failure is the only store failure of an insert that is modelled.
* Store failures other than constraint violations (I/O errors, scan errors) are not
  modelled, except in the expiry sweep, whose per-event delete takes a failure oracle.
* `time.Time` is an instant in nanoseconds since the Unix epoch with a zone offset;
  `time.Format`/`time.Parse` with the `time.RFC3339` layout are modelled on text.
-/

namespace EventPoster

/-! ## `time.Time`, `time.RFC3339` -/

/-- Go `time.Time`: an instant (nanoseconds since the Unix epoch) and the offset, in
seconds east of UTC, of the location it is displayed in. -/
structure Time where
  unixNano : Int
  offset : Int
deriving DecidableEq, Repr

/-- Nanoseconds in one second. -/
def nsPerSec : Int := 1000000000

/-- Go `Time{}`: January 1, year 1, 00:00:00 UTC. -/
def zeroTime : Time := { unixNano := -62135596800 * nsPerSec, offset := 0 }

/-- Go `t.Before(u)`: the instant of `t` is strictly earlier than that of `u`. -/
def Time.Before (t u : Time) : Bool := decide (t.unixNano < u.unixNano)

/-- Go `t.Add(d)` for a duration `d` in nanoseconds. -/
def Time.Add (t : Time) (d : Int) : Time := { t with unixNano := t.unixNano + d }

/-- Go `time.Hour` in nanoseconds. -/
def hour : Int := 3600 * nsPerSec

/-- Proleptic Gregorian leap year. -/
def isLeap (y : Int) : Bool := (y % 4 == 0) && ((y % 100 != 0) || (y % 400 == 0))

/-- Number of days of month `m` (1..12) of year `y`. -/
def daysIn (m : Nat) (y : Int) : Nat :=
  if m == 2 then (if isLeap y then 29 else 28)
  else if m == 4 || m == 6 || m == 9 || m == 11 then 30 else 31

/-- Days from 1970-01-01 to the civil date `y-m-d`. -/
def daysFromCivil (y : Int) (m d : Nat) : Int :=
  let y1 : Int := if m ≤ 2 then y - 1 else y
  let era : Int := y1 / 400
  let yoe : Int := y1 - era * 400
  let mp : Int := if m > 2 then (m : Int) - 3 else (m : Int) + 9
  let doy : Int := (153 * mp + 2) / 5 + (d : Int) - 1
  let doe : Int := yoe * 365 + yoe / 4 - yoe / 100 + doy
  era * 146097 + doe - 719468

/-- Civil date `(year, month, day)` of the day `z` days after 1970-01-01. -/
def civilFromDays (z : Int) : Int × Nat × Nat :=
  let z1 : Int := z + 719468
  let era : Int := z1 / 146097
  let doe : Int := z1 - era * 146097
  let yoe : Int := (doe - doe / 1460 + doe / 36524 - doe / 146096) / 365
  let doy : Int := doe - (365 * yoe + yoe / 4 - yoe / 100)
  let mp : Int := (5 * doy + 2) / 153
  let d : Int := doy - (153 * mp + 2) / 5 + 1
  let m : Int := if mp < 10 then mp + 3 else mp - 9
  let y : Int := yoe + era * 400
  (if m ≤ 2 then y + 1 else y, m.toNat, d.toNat)

/-- Broken-down wall-clock reading of a `Time` in its own location. -/
structure Civil where
  year : Int
  month : Nat
  day : Nat
  hh : Nat
  mm : Nat
  ss : Nat
deriving DecidableEq, Repr

/-- Wall-clock fields of the instant `t` seen at `off` seconds east of UTC. -/
def civilAt (t : Time) (off : Int) : Civil :=
  let secs : Int := t.unixNano / nsPerSec + off
  let days : Int := secs / 86400
  let rem : Nat := (secs % 86400).toNat
  let ymd := civilFromDays days
  { year := ymd.1, month := ymd.2.1, day := ymd.2.2,
    hh := rem / 3600, mm := rem % 3600 / 60, ss := rem % 60 }

/-- Decimal digit as a character. -/
def digitChar (d : Nat) : Char := Char.ofNat (48 + d % 10)

/-- Decimal digits of `n`, most significant first, `fuel` bounding their number. -/
def natDigits : Nat → Nat → List Char
  | 0, _ => []
  | fuel + 1, n => if n < 10 then [digitChar n] else natDigits fuel (n / 10) ++ [digitChar n]

/-- Go `appendInt`: decimal text of `x`, zero-padded to `width`, with a leading `-`
when negative. -/
def appendInt (x : Int) (width : Nat) : List Char :=
  let ds := natDigits 20 x.natAbs
  let body := List.replicate (width - ds.length) '0' ++ ds
  if x < 0 then '-' :: body else body

/-- Zone suffix written for the layout element `Z07:00`: `Z` when the offset is zero,
else a sign and the offset in whole minutes as `hh:mm`. -/
def formatZone (off : Int) : List Char :=
  if off = 0 then ['Z']
  else
    let zone : Int := Int.tdiv off 60
    let sign : Char := if zone < 0 then '-' else '+'
    let z : Nat := zone.natAbs
    sign :: (appendInt (z / 60) 2 ++ [':'] ++ appendInt (z % 60) 2)

/-- Go `t.Format(time.RFC3339)`, layout `2006-01-02T15:04:05Z07:00`: whole seconds in
the time's own location; the sub-second part is dropped. -/
def formatRFC3339 (t : Time) : String :=
  let c := civilAt t t.offset
  String.mk (appendInt c.year 4 ++ ['-'] ++ appendInt c.month 2 ++ ['-'] ++ appendInt c.day 2
    ++ ['T'] ++ appendInt c.hh 2 ++ [':'] ++ appendInt c.mm 2 ++ [':'] ++ appendInt c.ss 2
    ++ formatZone t.offset)

/-- SQLite `CURRENT_TIMESTAMP`: `YYYY-MM-DD HH:MM:SS` in UTC. -/
def currentTimestamp (t : Time) : String :=
  let c := civilAt t 0
  String.mk (appendInt c.year 4 ++ ['-'] ++ appendInt c.month 2 ++ ['-'] ++ appendInt c.day 2
    ++ [' '] ++ appendInt c.hh 2 ++ [':'] ++ appendInt c.mm 2 ++ [':'] ++ appendInt c.ss 2)

/-- Value of a decimal digit character. -/
def digitVal (c : Char) : Option Nat :=
  if 48 ≤ c.toNat ∧ c.toNat ≤ 57 then some (c.toNat - 48) else none

/-- Go `getnum(s, fixed)`: one or two leading digits (exactly two when `fixed`). -/
def getnum (s : List Char) (fixed : Bool) : Option (Nat × List Char) :=
  match s with
  | [] => none
  | a :: rest =>
    match digitVal a with
    | none => none
    | some x =>
      match rest with
      | [] => if fixed then none else some (x, rest)
      | b :: rest2 =>
        match digitVal b with
        | none => if fixed then none else some (x, rest)
        | some y => some (x * 10 + y, rest2)

/-- Literal chunk of the layout: the value must start with `c`. -/
def expectChar (c : Char) (s : List Char) : Option (List Char) :=
  match s with
  | [] => none
  | a :: rest => if a = c then some rest else none

/-- The four-digit year of the layout element `2006`. -/
def getYear (s : List Char) : Option (Nat × List Char) :=
  match s with
  | a :: b :: c :: d :: rest =>
    match digitVal a, digitVal b, digitVal c, digitVal d with
    | some w, some x, some y, some z => some (w * 1000 + x * 100 + y * 10 + z, rest)
    | _, _, _, _ => none
  | _ => none

/-- Leading run of digits of `s` and the rest. -/
def spanDigits : List Char → List Nat × List Char
  | [] => ([], [])
  | a :: rest =>
    match digitVal a with
    | none => ([], a :: rest)
    | some x => let r := spanDigits rest; (x :: r.1, r.2)

/-- Go `parseNanoseconds` on the digits after the separator: at most nine digits count,
scaled to nanoseconds. -/
def fracNanos (ds : List Nat) : Nat :=
  let kept := ds.take 9
  kept.foldl (fun acc d => acc * 10 + d) 0 * 10 ^ (9 - kept.length)

/-- Fractional second accepted after the seconds field although the layout has none:
a period or comma followed by at least one digit. -/
def getFraction (s : List Char) : Nat × List Char :=
  match s with
  | sep :: a :: rest =>
    if (sep = '.' ∨ sep = ',') ∧ (digitVal a).isSome then
      let r := spanDigits (a :: rest)
      (fracNanos r.1, r.2)
    else (0, s)
  | _ => (0, s)

/-- Layout element `Z07:00`: `Z`, or a sign, two digits, a colon and two digits; the
hour may be at most 24 and the minute at most 60. Returns the offset in seconds. -/
def getZone (s : List Char) : Option (Int × List Char) :=
  match s with
  | 'Z' :: rest => some (0, rest)
  | sign :: h1 :: h2 :: colon :: m1 :: m2 :: rest =>
    if colon ≠ ':' then none
    else
      match getnum [h1, h2] true, getnum [m1, m2] true with
      | some (hr, _), some (mn, _) =>
        if hr > 24 ∨ mn > 60 then none
        else
          let off : Int := (((hr * 60 + mn) * 60 : Nat) : Int)
          if sign = '+' then some (off, rest)
          else if sign = '-' then some (-off, rest)
          else none
      | _, _ => none
  | _ => none

/-- Range test of a parsed field: `none` stands for Go's out-of-range error. -/
def inRange (ok : Bool) : Option Unit := if ok then some () else none

/-- Date part `2006-01-02` of the layout: year, month in 1..12, two-digit day. -/
def getDate (s : List Char) : Option (Nat × Nat × Nat × List Char) :=
  (getYear s).bind fun yr =>
  (expectChar '-' yr.2).bind fun r2 =>
  (getnum r2 true).bind fun mo =>
  (inRange (decide (1 ≤ mo.1 ∧ mo.1 ≤ 12))).bind fun _ =>
  (expectChar '-' mo.2).bind fun r4 =>
  (getnum r4 true).bind fun dy =>
  some (yr.1, mo.1, dy.1, dy.2)

/-- Clock part `15:04:05` of the layout: an hour of one or two digits below 24, a
two-digit minute and second below 60, and an optional fractional second. Returns the
second of the day, the nanoseconds and the rest. -/
def getClock (s : List Char) : Option (Nat × Nat × List Char) :=
  (getnum s false).bind fun h =>
  (inRange (decide (h.1 < 24))).bind fun _ =>
  (expectChar ':' h.2).bind fun r2 =>
  (getnum r2 true).bind fun m =>
  (inRange (decide (m.1 < 60))).bind fun _ =>
  (expectChar ':' m.2).bind fun r4 =>
  (getnum r4 true).bind fun sc =>
  (inRange (decide (sc.1 < 60))).bind fun _ =>
  let fr := getFraction sc.2
  some (h.1 * 3600 + m.1 * 60 + sc.1, fr.1, fr.2)

/-- Go `time.Parse(time.RFC3339, s)`; `none` stands for a parse error. The day of the
month is validated against the month and year, and nothing may follow the zone. -/
def parseRFC3339 (s : String) : Option Time :=
  (getDate s.data).bind fun d =>
  (expectChar 'T' d.2.2.2).bind fun r1 =>
  (getClock r1).bind fun c =>
  (getZone c.2.2).bind fun z =>
  (inRange (decide (z.2 = []))).bind fun _ =>
  (inRange (decide (1 ≤ d.2.2.1 ∧ d.2.2.1 ≤ daysIn d.2.1 d.1))).bind fun _ =>
  let secs : Int := daysFromCivil d.1 d.2.1 d.2.2.1 * 86400 + (c.1 : Int) - z.1
  some { unixNano := secs * nsPerSec + c.2.1, offset := z.1 }

/-- SQLite comparison of two TEXT values under the BINARY collation (`memcmp`, a proper
prefix sorting first), on the code points of the text. -/
def textLtChars : List Char → List Char → Bool
  | _, [] => false
  | [], _ :: _ => true
  | a :: as, b :: bs =>
    if a.toNat < b.toNat then true
    else if b.toNat < a.toNat then false
    else textLtChars as bs

/-- SQL `x < y` on TEXT values. -/
def textLt (x y : String) : Bool := textLtChars x.data y.data

/-! ## The database (`internal/database`) -/

deriving instance DecidableEq for Except

/-- Go `error` values returned by the services. -/
inductive Err where
  /-- An error made by `errors.New` with this message. -/
  | msg (text : String)
  /-- The sentinel `sql.ErrNoRows`. -/
  | noRows
  /-- A constraint violation reported by SQLite. -/
  | constraint (text : String)
deriving DecidableEq, Repr

/-- Row of table `users`. -/
structure UserRow where
  id : Int
  username : String
  password : String
  email : String
  role : String
  created_at : String
deriving DecidableEq, Repr

/-- Row of table `events`; `description`, `location` and `creator_id` are nullable. -/
structure EventRow where
  id : Int
  title : String
  description : Option String
  location : Option String
  event_type : String
  event_date : String
  seats : Int
  creator_id : Option Int
  created_at : String
deriving DecidableEq, Repr

/-- Row of table `registrations`; `user_id` is nullable. -/
structure RegistrationRow where
  id : Int
  event_id : Int
  user_id : Option Int
  first_name : String
  last_name : String
  created_at : String
deriving DecidableEq, Repr

/-- The database: the rows of each table in rowid order and the `sqlite_sequence`
entry of each `AUTOINCREMENT` key (the largest id ever given out). -/
structure Store where
  users : List UserRow
  events : List EventRow
  registrations : List RegistrationRow
  userSeq : Int
  eventSeq : Int
  registrationSeq : Int
deriving DecidableEq, Repr

/-- The database right after `createTables`: three empty tables. -/
def emptyStore : Store :=
  { users := [], events := [], registrations := [], userSeq := 0, eventSeq := 0,
    registrationSeq := 0 }

/-- Largest of the given ids, `0` when there is none. -/
def maxId (ids : List Int) : Int := ids.foldl max 0

/-- Key given by `INTEGER PRIMARY KEY AUTOINCREMENT` to a new row: one more than the
largest key the table has ever held. -/
def nextId (seq : Int) (ids : List Int) : Int := max seq (maxId ids) + 1

/-- SQLite's message for a failed foreign-key check. -/
def fkFailed : Err := Err.constraint "FOREIGN KEY constraint failed"

/-- Whether `users` has a row with this id. -/
def userExists (db : Store) (id : Int) : Bool := db.users.any (fun u => u.id == id)

/-- Foreign key `user_id REFERENCES users(id)`: a NULL reference passes, another must
have a row in `users`. -/
def accountKnown (db : Store) (userID : Option Int) : Bool :=
  match userID with
  | some u => userExists db u
  | none => true

/-- Whether `events` has a row with this id. -/
def eventExists (db : Store) (id : Int) : Bool := db.events.any (fun e => e.id == id)

/-- SQL `DELETE FROM events WHERE id = ?` served by a connection of the pool;
`foreignKeys` tells whether `PRAGMA foreign_keys = ON` is in force on that connection.
Only then does the foreign key `registrations.event_id REFERENCES events(id) ON DELETE
CASCADE` remove the registrations of the event; on any other connection they stay. -/
def deleteEventRows (foreignKeys : Bool) (db : Store) (id : Int) : Store :=
  { db with
    events := db.events.filter (fun e => e.id != id)
    registrations :=
      if foreignKeys then db.registrations.filter (fun r => r.event_id != id)
      else db.registrations }

/-- SQL `SELECT COUNT(*) FROM registrations WHERE event_id = ?`. -/
def countRegistrations (db : Store) (eventID : Int) : Int :=
  ((db.registrations.countP (fun r => r.event_id == eventID) : Nat) : Int)

/-- SQL `ORDER BY created_at` on registrations: ascending TEXT order, rows with equal
keys staying in rowid order. -/
def orderByCreatedAt (rows : List RegistrationRow) : List RegistrationRow :=
  rows.insertionSort (fun a b => textLt b.created_at a.created_at = false)

/-! ## Models (`internal/models`) -/

/-- Go `models.Event`. -/
structure Event where
  ID : Int
  Title : String
  Description : String
  Location : String
  EventType : String
  EventDate : Time
  Seats : Int
  CreatorID : Int
  CreatedAt : Time
deriving DecidableEq, Repr

/-- Go `models.EventRequest`. -/
structure EventRequest where
  Title : String
  Description : String
  Location : String
  EventType : String
  EventDate : Time
  Seats : Int
deriving DecidableEq, Repr

/-- Go `EventRequest.Validate` at clock reading `now`; `none` is Go's `nil`. -/
def EventRequest.Validate (r : EventRequest) (now : Time) : Option Err :=
  if r.Title = "" then some (.msg "title is required")
  else if r.EventType = "" then some (.msg "event type is required")
  else if r.EventDate.Before (now.Add (-24 * hour)) then
    some (.msg "event date must be no more than one day in the past")
  else if r.Seats ≤ 0 then some (.msg "number of seats must be greater than zero")
  else none

/-- A mathematical integer brought into the range of Go's 64-bit `int` by two's
complement wrap-around. -/
def wrapInt64 (x : Int) : Int := (x + 2 ^ 63) % 2 ^ 64 - 2 ^ 63

/-- Go `Event.AvailableSeats`: the subtraction is on 64-bit `int`s. -/
def Event.AvailableSeats (e : Event) (registrationsCount : Int) : Int :=
  wrapInt64 (e.Seats - registrationsCount)

/-- Go `models.Registration`. -/
structure Registration where
  ID : Int
  EventID : Int
  UserID : Int
  FirstName : String
  LastName : String
  CreatedAt : Time
deriving DecidableEq, Repr

/-- Go `models.RegistrationRequest`. -/
structure RegistrationRequest where
  EventID : Int
  FirstName : String
  LastName : String
  Notes : String
deriving DecidableEq, Repr

/-- Go `RegistrationRequest.Validate`; `none` is Go's `nil`. -/
def RegistrationRequest.Validate (r : RegistrationRequest) : Option Err :=
  if r.EventID ≤ 0 then some (.msg "event ID is required") else none

/-- Go `models.UserRequest`. -/
structure UserRequest where
  Username : String
  Password : String
  Email : String
deriving DecidableEq, Repr

/-- Go `UserRequest.Validate`; `none` is Go's `nil`. -/
def UserRequest.Validate (r : UserRequest) : Option Err :=
  if r.Username = "" then some (.msg "username is required")
  else if r.Password = "" then some (.msg "password is required")
  else if r.Email = "" then some (.msg "email is required")
  else none

/-! ## `EventService` (`internal/services/event_service.go`) -/

/-- Scan of one `events` row into a `models.Event`: a date text that does not parse
leaves the zero `Time`, a NULL column leaves the field's zero value. -/
def scanEvent (r : EventRow) : Event :=
  { ID := r.id
    Title := r.title
    Description := r.description.getD ""
    Location := r.location.getD ""
    EventType := r.event_type
    EventDate := (parseRFC3339 r.event_date).getD zeroTime
    Seats := r.seats
    CreatorID := r.creator_id.getD 0
    CreatedAt := (parseRFC3339 r.created_at).getD zeroTime }

/-- Go `EventService.GetEventByID`. -/
def GetEventByID (db : Store) (id : Int) : Except Err Event :=
  match db.events.find? (fun r => r.id == id) with
  | none => .error .noRows
  | some r => .ok (scanEvent r)

/-- Go `EventService.CreateEvent`. -/
def CreateEvent (db : Store) (now : Time) (req : EventRequest) (userID : Int) :
    Except Err Int × Store :=
  match req.Validate now with
  | some err => (.error err, db)
  | none =>
    if userExists db userID then
      let id := nextId db.eventSeq (db.events.map (fun e => e.id))
      let row : EventRow :=
        { id := id
          title := req.Title
          description := some req.Description
          location := some req.Location
          event_type := req.EventType
          event_date := formatRFC3339 req.EventDate
          seats := req.Seats
          creator_id := some userID
          created_at := currentTimestamp now }
      (.ok id, { db with events := db.events ++ [row], eventSeq := id })
    else (.error fkFailed, db)

/-- SQL `UPDATE events SET title = ?, ... , seats = ? WHERE id = ?`. -/
def updateEventRows (db : Store) (id : Int) (req : EventRequest) : Store :=
  { db with
    events := db.events.map (fun e =>
      if e.id == id then
        { e with
          title := req.Title
          description := some req.Description
          location := some req.Location
          event_type := req.EventType
          event_date := formatRFC3339 req.EventDate
          seats := req.Seats }
      else e) }

/-- Go `EventService.UpdateEvent`; `none` is Go's `nil`. -/
def UpdateEvent (db : Store) (now : Time) (id : Int) (req : EventRequest) (userID : Int) :
    Option Err × Store :=
  match req.Validate now with
  | some err => (some err, db)
  | none =>
    match GetEventByID db id with
    | .error err => (some err, db)
    | .ok event =>
      if event.CreatorID != userID then
        (some (.msg "you don't have permission to update this event"), db)
      else
        let registrationsCount := countRegistrations db id
        if req.Seats < registrationsCount then
          (some (.msg "cannot reduce seats below the number of existing registrations"), db)
        else
          let rowsAffected := db.events.countP (fun e => e.id == id)
          if rowsAffected = 0 then (some (.msg "event not found"), updateEventRows db id req)
          else (none, updateEventRows db id req)

/-- Go `EventService.DeleteEvent`; `none` is Go's `nil`. `foreignKeys` is the setting
of the connection that serves the `DELETE`. -/
def DeleteEvent (foreignKeys : Bool) (db : Store) (id : Int) (userID : Int) :
    Option Err × Store :=
  match GetEventByID db id with
  | .error err => (some err, db)
  | .ok event =>
    if event.CreatorID != userID then
      (some (.msg "you don't have permission to delete this event"), db)
    else
      let rowsAffected := db.events.countP (fun e => e.id == id)
      if rowsAffected = 0 then
        (some (.msg "event not found"), deleteEventRows foreignKeys db id)
      else (none, deleteEventRows foreignKeys db id)

/-- Rows returned by `SELECT id, title, event_date FROM events WHERE event_date < ?`
bound to `now.Format(time.RFC3339)`: the comparison is on the stored text. -/
def selectExpired (db : Store) (now : Time) : List EventRow :=
  db.events.filter (fun e => textLt e.event_date (formatRFC3339 now))

/-- The loop of `DeleteExpiredEvents` over the selected rows: a row whose date does not
parse is skipped, one whose parsed date is before `now` has its id collected. -/
def confirmExpired (rows : List EventRow) (now : Time) : List Int :=
  rows.filterMap (fun e =>
    match parseRFC3339 e.event_date with
    | none => none
    | some eventDate => if eventDate.Before now then some e.id else none)

/-- Go `EventService.DeleteExpiredEvents` at clock reading `now`; `deleteFails id` tells
whether the `DELETE` of event `id` returns an error, which is logged and skipped, and
`foreignKeys id` the setting of the connection that serves that `DELETE`. The result
is always `nil` (`none`). -/
def DeleteExpiredEventsWith (foreignKeys : Int → Bool) (deleteFails : Int → Bool)
    (db : Store) (now : Time) : Option Err × Store :=
  let expiredEvents := confirmExpired (selectExpired db now) now
  if expiredEvents.length = 0 then (none, db)
  else
    (none, expiredEvents.foldl
      (fun s id => if deleteFails id then s else deleteEventRows (foreignKeys id) s id) db)

/-- Go `EventService.DeleteExpiredEvents` when no `DELETE` fails. -/
def DeleteExpiredEvents (foreignKeys : Int → Bool) (db : Store) (now : Time) :
    Option Err × Store :=
  DeleteExpiredEventsWith foreignKeys (fun _ => false) db now

/-- Go `EventService.GetRegistrationsCountForEvent`. -/
def GetRegistrationsCountForEvent (db : Store) (eventID : Int) : Int :=
  countRegistrations db eventID

/-- Go `EventService.HasAvailableSeats`. -/
def HasAvailableSeats (db : Store) (eventID : Int) : Except Err Bool :=
  match GetEventByID db eventID with
  | .error err => .error err
  | .ok event =>
    let registrationsCount := GetRegistrationsCountForEvent db eventID
    .ok (decide (event.Seats > registrationsCount))

/-! ## `RegistrationService` (`internal/services/registration_service.go`) -/

/-- Scan of one `registrations` row into a `models.Registration`. -/
def scanRegistration (r : RegistrationRow) : Registration :=
  { ID := r.id
    EventID := r.event_id
    UserID := r.user_id.getD 0
    FirstName := r.first_name
    LastName := r.last_name
    CreatedAt := (parseRFC3339 r.created_at).getD zeroTime }

/-- Go `RegistrationService.GetAllRegistrations`; `eventID = none` is Go's `nil`. -/
def GetAllRegistrations (db : Store) (eventID : Option Int) : List Registration :=
  match eventID with
  | some eid =>
    (orderByCreatedAt (db.registrations.filter (fun r => r.event_id == eid))).map scanRegistration
  | none => (orderByCreatedAt db.registrations).map scanRegistration

/-- Go `RegistrationService.GetRegistrationByID`. -/
def GetRegistrationByID (db : Store) (id : Int) : Except Err Registration :=
  match db.registrations.find? (fun r => r.id == id) with
  | none => .error .noRows
  | some r => .ok (scanRegistration r)

/-- Go `RegistrationService.CheckExistingRegistration`. -/
def CheckExistingRegistration (db : Store) (eventID userID : Int) : Bool :=
  let count := db.registrations.countP (fun r => r.event_id == eventID && r.user_id == some userID)
  decide (count > 0)

/-- SQL `INSERT INTO registrations (event_id, [user_id,] first_name, last_name,
created_at) VALUES (...)` followed by `LastInsertId`. -/
def insertRegistration (db : Store) (eventID : Int) (userID : Option Int)
    (firstName lastName createdAt : String) : Except Err Int × Store :=
  if eventExists db eventID && accountKnown db userID then
    let id := nextId db.registrationSeq (db.registrations.map (fun r => r.id))
    let row : RegistrationRow :=
      { id := id, event_id := eventID, user_id := userID, first_name := firstName,
        last_name := lastName, created_at := createdAt }
    (.ok id, { db with registrations := db.registrations ++ [row], registrationSeq := id })
  else (.error fkFailed, db)

/-- Go `RegistrationService.CreateRegistration` at clock reading `now`;
`userID = none` is Go's `nil`. -/
def CreateRegistration (db : Store) (now : Time) (req : RegistrationRequest)
    (userID : Option Int) : Except Err Int × Store :=
  match req.Validate with
  | some err => (.error err, db)
  | none =>
    match GetEventByID db req.EventID with
    | .error .noRows => (.error (.msg "event not found"), db)
    | .error err => (.error err, db)
    | .ok event =>
      match HasAvailableSeats db req.EventID with
      | .error err => (.error err, db)
      | .ok hasSeats =>
        if !hasSeats then (.error (.msg "event is fully booked"), db)
        else if event.EventDate.Before now then
          (.error (.msg "cannot register for a past event"), db)
        else
          let alreadyRegistered := match userID with
            | some u => CheckExistingRegistration db req.EventID u
            | none => false
          if alreadyRegistered then
            (.error (.msg "you have already registered for this event"), db)
          else
            insertRegistration db req.EventID userID req.FirstName req.LastName
              (formatRFC3339 now)

/-- SQL `UPDATE registrations SET event_id = ?, first_name = ?, last_name = ?
WHERE id = ?`. -/
def updateRegistrationRows (db : Store) (id : Int) (req : RegistrationRequest) : Store :=
  { db with
    registrations := db.registrations.map (fun r =>
      if r.id == id then
        { r with event_id := req.EventID, first_name := req.FirstName, last_name := req.LastName }
      else r) }

/-- Go `RegistrationService.UpdateRegistration`; `none` is Go's `nil`. -/
def UpdateRegistration (db : Store) (id : Int) (req : RegistrationRequest) (userID : Int) :
    Option Err × Store :=
  match req.Validate with
  | some err => (some err, db)
  | none =>
    match GetRegistrationByID db id with
    | .error err => (some err, db)
    | .ok registration =>
      if registration.UserID != userID then
        (some (.msg "you don't have permission to update this registration"), db)
      else
        match GetEventByID db req.EventID with
        | .error .noRows => (some (.msg "event not found"), db)
        | .error err => (some err, db)
        | .ok _ =>
          let rowsAffected := db.registrations.countP (fun r => r.id == id)
          if rowsAffected = 0 then
            (some (.msg "registration not found"), updateRegistrationRows db id req)
          else (none, updateRegistrationRows db id req)

/-- SQL `DELETE FROM registrations WHERE id = ?`. -/
def deleteRegistrationRows (db : Store) (id : Int) : Store :=
  { db with registrations := db.registrations.filter (fun r => r.id != id) }

/-- Go `RegistrationService.DeleteRegistration`; `none` is Go's `nil`. -/
def DeleteRegistration (db : Store) (id : Int) (userID : Int) : Option Err × Store :=
  match GetRegistrationByID db id with
  | .error err => (some err, db)
  | .ok registration =>
    if registration.UserID != userID then
      (some (.msg "you don't have permission to delete this registration"), db)
    else
      let rowsAffected := db.registrations.countP (fun r => r.id == id)
      if rowsAffected = 0 then
        (some (.msg "registration not found"), deleteRegistrationRows db id)
      else (none, deleteRegistrationRows db id)

/-! ## `UserService.Register` (`internal/services/user_service.go`) -/

/-- Go `UserService.Register` at clock reading `now`; `hashed` is the bcrypt hash that
`HashPassword` produced for the request's password. -/
def Register (db : Store) (now : Time) (req : UserRequest) (hashed : String) :
    Except Err Int × Store :=
  match req.Validate with
  | some err => (.error err, db)
  | none =>
    if db.users.countP (fun u => u.username == req.Username) > 0 then
      (.error (.msg "username already exists"), db)
    else if db.users.countP (fun u => u.email == req.Email) > 0 then
      (.error (.msg "email already exists"), db)
    else
      let id := nextId db.userSeq (db.users.map (fun u => u.id))
      let row : UserRow :=
        { id := id, username := req.Username, password := hashed, email := req.Email,
          role := "user", created_at := currentTimestamp now }
      (.ok id, { db with users := db.users ++ [row], userSeq := id })

/-! ## Sequences of service calls -/

/-- One call of a service method, with its arguments, the clock reading it sees and, for
the calls that delete events, the setting of the connection serving each `DELETE`. -/
inductive Op where
  | register (now : Time) (req : UserRequest) (hashed : String)
  | createEvent (now : Time) (req : EventRequest) (userID : Int)
  | updateEvent (now : Time) (id : Int) (req : EventRequest) (userID : Int)
  | deleteEvent (foreignKeys : Bool) (id : Int) (userID : Int)
  | deleteExpiredEvents (foreignKeys : Int → Bool) (now : Time)
  | createRegistration (now : Time) (req : RegistrationRequest) (userID : Option Int)
  | updateRegistration (id : Int) (req : RegistrationRequest) (userID : Int)
  | deleteRegistration (id : Int) (userID : Int)

/-- Whether the call is `UpdateRegistration`. -/
def Op.isUpdateRegistration : Op → Bool
  | .updateRegistration _ _ _ => true
  | _ => false

/-- The store after one call. -/
def step (db : Store) : Op → Store
  | .register now req hashed => (Register db now req hashed).2
  | .createEvent now req userID => (CreateEvent db now req userID).2
  | .updateEvent now id req userID => (UpdateEvent db now id req userID).2
  | .deleteEvent foreignKeys id userID => (DeleteEvent foreignKeys db id userID).2
  | .deleteExpiredEvents foreignKeys now => (DeleteExpiredEvents foreignKeys db now).2
  | .createRegistration now req userID => (CreateRegistration db now req userID).2
  | .updateRegistration id req userID => (UpdateRegistration db id req userID).2
  | .deleteRegistration id userID => (DeleteRegistration db id userID).2

/-- The store after a sequence of calls, made one after the other. -/
def run (db : Store) (ops : List Op) : Store := ops.foldl step db

/-! ## The admission procedure as the specification words it -/

/-- Check 1 of the specification: the event reference is present. -/
def specEventReferencePresent (req : RegistrationRequest) : Bool := decide (0 < req.EventID)

/-- Check 2 of the specification: the target event exists. -/
def specEventExists (db : Store) (req : RegistrationRequest) : Bool :=
  db.events.any (fun e => e.id == req.EventID)

/-- Check 3 of the specification: `availableSeats = capacity - currentRegistrationCount`
is positive for the target event. -/
def specSeatsAvailable (db : Store) (req : RegistrationRequest) : Bool :=
  match db.events.find? (fun e => e.id == req.EventID) with
  | some e => decide (0 < e.seats - countRegistrations db req.EventID)
  | none => false

/-- Check 4 of the specification: the scheduled date of the target event, as read from
the store, is not before the current time. -/
def specDateNotPast (db : Store) (now : Time) (req : RegistrationRequest) : Bool :=
  match db.events.find? (fun e => e.id == req.EventID) with
  | some e => decide (now.unixNano ≤ (scanEvent e).EventDate.unixNano)
  | none => false

/-- Check 5 of the specification: when an account is given, no registration exists for
the pair of the target event and that account. -/
def specNotRegistered (db : Store) (req : RegistrationRequest) (userID : Option Int) : Bool :=
  match userID with
  | some u => db.registrations.all (fun r => !(r.event_id == req.EventID && r.user_id == some u))
  | none => true

/-- The five checks of the specification in its order, each with the error it fails
with. -/
def specChecks (db : Store) (now : Time) (req : RegistrationRequest) (userID : Option Int) :
    List (Bool × Err) :=
  [ (specEventReferencePresent req, .msg "event ID is required"),
    (specEventExists db req, .msg "event not found"),
    (specSeatsAvailable db req, .msg "event is fully booked"),
    (specDateNotPast db now req, .msg "cannot register for a past event"),
    (specNotRegistered db req userID, .msg "you have already registered for this event") ]

/-- Error of the first check that fails, `none` when every check passes. -/
def firstFailure (checks : List (Bool × Err)) : Option Err :=
  (checks.find? (fun c => !c.1)).map (fun c => c.2)

/-- Whether a registration is stored for the pair (event, account). -/
def hasRegistration (db : Store) (eventID userID : Int) : Bool :=
  db.registrations.any (fun r => r.event_id == eventID && r.user_id == some userID)

/-! ## Invariants of the store -/

/-- Seat-capacity invariant: every stored event has at most as many registrations as
seats. -/
def SeatsRespected (db : Store) : Prop :=
  ∀ e ∈ db.events, countRegistrations db e.id ≤ e.seats

/-- Primary key of `events`: no two rows share an id. -/
def UniqueEventIds (db : Store) : Prop := (db.events.map (fun e => e.id)).Nodup

/-- Every stored event has an id the `AUTOINCREMENT` key has given out: none exceeds
the counter. -/
def EventIdsIssued (db : Store) : Prop := ∀ e ∈ db.events, e.id ≤ db.eventSeq

/-- Every registration refers to an event id that has been given out. The event may
have been deleted since, by a connection without foreign keys, but its id is never
given out again. -/
def RegistrationsReferIssued (db : Store) : Prop :=
  ∀ r ∈ db.registrations, r.event_id ≤ db.eventSeq

/-- The inductive invariant behind the seat-capacity invariant. -/
structure SeatInvariant (db : Store) : Prop where
  pk : UniqueEventIds db
  issued : EventIdsIssued db
  refs : RegistrationsReferIssued db
  cap : SeatsRespected db

/-- Every `DELETE` is served by a connection on which foreign keys are enabled. -/
def pragmaOn : Int → Bool := fun _ => true

/-- No `DELETE` is served by a connection on which foreign keys are enabled. -/
def pragmaOff : Int → Bool := fun _ => false

/-- Uniqueness invariant of the specification: two stored registrations that carry
an account reference and agree on the pair (event, account) are the same row. -/
def OnePerAccount (db : Store) : Prop :=
  ∀ r1 ∈ db.registrations, ∀ r2 ∈ db.registrations,
    r1.user_id.isSome = true → r1.event_id = r2.event_id → r1.user_id = r2.user_id →
      r1 = r2

/-! ## Concrete stores used by the examples -/

/-- Clock reading at `s` seconds after the Unix epoch, in UTC. -/
def utc (s : Int) : Time := { unixNano := s * nsPerSec, offset := 0 }

/-- The instant 2026-01-01T06:00:00Z. -/
def newYearMorning : Time := utc 1767247200

/-- The instant 2026-01-01T07:00:00Z, one hour later. -/
def oneHourLater : Time := utc 1767250800

/-- The instant 2026-01-01T05:00:00Z, one hour earlier. -/
def oneHourEarlier : Time := utc 1767243600

/-- Account request of the user who becomes account 1. -/
def aliceRequest : UserRequest := { Username := "alice", Password := "pw", Email := "alice@example.org" }

/-- Account request of the user who becomes account 2. -/
def bobRequest : UserRequest := { Username := "bob", Password := "pw", Email := "bob@example.org" }

/-- Request for a talk on `date` with `seats` seats. -/
def talkRequest (date : Time) (seats : Int) : EventRequest :=
  { Title := "talk", Description := "", Location := "", EventType := "meetup",
    EventDate := date, Seats := seats }

/-- Registration request for event `eventID`. -/
def joinRequest (eventID : Int) : RegistrationRequest :=
  { EventID := eventID, FirstName := "alice", LastName := "alice", Notes := "" }

/-- Two accounts and event 1 with a single seat, scheduled one hour after
`newYearMorning`. -/
def oneSeatStore : Store :=
  run emptyStore
    [ .register newYearMorning aliceRequest "hash-a",
      .register newYearMorning bobRequest "hash-b",
      .createEvent newYearMorning (talkRequest oneHourLater 1) 1 ]

/-- The store `oneSeatStore` after account 1 has taken the only seat of event 1. -/
def soldOutStore : Store :=
  run oneSeatStore [ .createRegistration newYearMorning (joinRequest 1) (some 1) ]

/-- Two accounts and event 1 with five seats, scheduled one hour before
`newYearMorning` (a date `CreateEvent` accepts: it is within the last 24 hours). -/
def pastEventStore : Store :=
  run emptyStore
    [ .register newYearMorning aliceRequest "hash-a",
      .register newYearMorning bobRequest "hash-b",
      .createEvent newYearMorning (talkRequest oneHourEarlier 5) 1 ]

/-- The instant 2026-01-01T08:00:00Z, two hours after `newYearMorning`. -/
def twoHoursLater : Time := utc 1767254400

/-- Two accounts, event 1 with five seats scheduled one hour after `newYearMorning`,
and one registration for it, by account 1. -/
def registeredStore : Store :=
  run emptyStore
    [ .register newYearMorning aliceRequest "hash-a",
      .register newYearMorning bobRequest "hash-b",
      .createEvent newYearMorning (talkRequest oneHourLater 5) 1,
      .createRegistration newYearMorning (joinRequest 1) (some 1) ]

/-- Calls that fill the single seat of event 1, are refused a second seat, free the
seat and fill it again. -/
def fillAndFreeCalls : List Op :=
  [ .register newYearMorning aliceRequest "hash-a",
    .register newYearMorning bobRequest "hash-b",
    .createEvent newYearMorning (talkRequest oneHourLater 1) 1,
    .createRegistration newYearMorning (joinRequest 1) (some 1),
    .createRegistration newYearMorning (joinRequest 1) (some 2),
    .deleteRegistration 1 1,
    .createRegistration newYearMorning (joinRequest 1) (some 2) ]

/-- The row of event 1 in the store that `fillAndFreeCalls` leaves. -/
def singleSeatRow : EventRow :=
  { id := 1, title := "talk", description := some "", location := some "",
    event_type := "meetup", event_date := "2026-01-01T07:00:00Z", seats := 1,
    creator_id := some 1, created_at := "2026-01-01 06:00:00" }

/-- One account, events 1 and 2 with five seats each, and a registration of account 1
for each of them (registration 1 for event 1, registration 2 for event 2). -/
def twoEventsStore : Store :=
  run emptyStore
    [ .register newYearMorning aliceRequest "hash-a",
      .createEvent newYearMorning (talkRequest oneHourLater 5) 1,
      .createEvent newYearMorning (talkRequest oneHourLater 5) 1,
      .createRegistration newYearMorning (joinRequest 1) (some 1),
      .createRegistration newYearMorning (joinRequest 2) (some 1) ]

/-- Two accounts, event 1 with five seats created by account 1, and a registration for
it by each account. -/
def twoBookedStore : Store :=
  run registeredStore [ .createRegistration newYearMorning (joinRequest 1) (some 2) ]

/-- The instant 2026-01-01T00:00:00Z. -/
def newYearMidnight : Time := utc 1767225600

/-- The instant 2026-01-01T05:00:00Z, shown at five hours east of UTC: the wall clock
reads 10:00:00 at offset `+05:00`. -/
def tenOClockPlusFive : Time := { unixNano := 1767243600 * nsPerSec, offset := 18000 }

/-- One account and event 1, created at midnight UTC by a client that wrote its date
at offset `+05:00`; the date is stored as `2026-01-01T10:00:00+05:00`. -/
def offsetEventStore : Store :=
  run emptyStore
    [ .register newYearMidnight aliceRequest "hash-a",
      .createEvent newYearMidnight (talkRequest tenOClockPlusFive 5) 1 ]

/-- Half a second after `newYearMorning`. -/
def newYearMorningAndAHalf : Time :=
  { unixNano := 1767247200 * nsPerSec + 500000000, offset := 0 }

/-- One account and event 1, scheduled at `newYearMorning` sharp. -/
def sharpEventStore : Store :=
  run emptyStore
    [ .register newYearMidnight aliceRequest "hash-a",
      .createEvent newYearMidnight (talkRequest newYearMorning 5) 1 ]

/-- The scenario of the specification at the clock reading `oneHourLater`: event 1 is
scheduled one second before it, event 2 one hour after it; account 1 is registered for
event 1 and account 2 for event 2. -/
def sweepScenarioStore : Store :=
  run emptyStore
    [ .register newYearMorning aliceRequest "hash-a",
      .register newYearMorning bobRequest "hash-b",
      .createEvent newYearMorning (talkRequest (utc 1767250799) 5) 1,
      .createEvent newYearMorning (talkRequest twoHoursLater 5) 1,
      .createRegistration newYearMorning (joinRequest 1) (some 1),
      .createRegistration newYearMorning (joinRequest 2) (some 2) ]

/-- The row of event 2 in `sweepScenarioStore`. -/
def laterEventRow : EventRow :=
  { id := 2, title := "talk", description := some "", location := some "",
    event_type := "meetup", event_date := "2026-01-01T08:00:00Z", seats := 5,
    creator_id := some 1, created_at := "2026-01-01 06:00:00" }

/-! ## Reads of the catalogue and the ledger -/

/-- SQL `ORDER BY event_date` on events: ascending TEXT order of the stored date, rows
with equal keys staying in rowid order. -/
def orderByEventDate (rows : List EventRow) : List EventRow :=
  rows.insertionSort (fun a b => textLt b.event_date a.event_date = false)

/-- Go `EventService.GetAllEvents` at clock reading `now`: the expiry sweep runs first
and its result is ignored, then all events are read in the order of their date text.
`foreignKeys` gives the setting of the connection serving each `DELETE` of the sweep. -/
def GetAllEvents (foreignKeys : Int → Bool) (db : Store) (now : Time) : List Event × Store :=
  let swept := (DeleteExpiredEvents foreignKeys db now).2
  ((orderByEventDate swept.events).map scanEvent, swept)

/-- Go `EventService.GetEventsByUser` at clock reading `now`: as `GetAllEvents`, with
`WHERE creator_id = ?`. -/
def GetEventsByUser (foreignKeys : Int → Bool) (db : Store) (now : Time) (userID : Int) :
    List Event × Store :=
  let swept := (DeleteExpiredEvents foreignKeys db now).2
  ((orderByEventDate (swept.events.filter (fun e => e.creator_id == some userID))).map scanEvent,
    swept)

/-- Go `models.RegistrationResponse`: a `Registration` with details of its event. -/
structure RegistrationResponse where
  Registration : Registration
  EventTitle : String
  EventDescription : String
  EventLocation : String
  EventDate : Time
  EventType : String
deriving DecidableEq, Repr

/-- Go `RegistrationService.GetRegistrationWithEventDetails`: the response is built from
the registration and the event's title, date and type; the description and location
fields of the response are not assigned and keep Go's zero value, the empty string. -/
def GetRegistrationWithEventDetails (db : Store) (id : Int) : Except Err RegistrationResponse :=
  match GetRegistrationByID db id with
  | .error err => .error err
  | .ok registration =>
    match GetEventByID db registration.EventID with
    | .error err => .error err
    | .ok event =>
      .ok { Registration := registration
            EventTitle := event.Title
            EventDescription := ""
            EventLocation := ""
            EventDate := event.EventDate
            EventType := event.EventType }

/-- Go `models.User`. -/
structure User where
  ID : Int
  Username : String
  Password : String
  Email : String
  Role : String
  CreatedAt : Time
deriving DecidableEq, Repr

/-- Go `UserService.GetUserByID`. -/
def GetUserByID (db : Store) (id : Int) : Except Err User :=
  match db.users.find? (fun u => u.id == id) with
  | none => .error .noRows
  | some u =>
    .ok { ID := u.id, Username := u.username, Password := u.password, Email := u.email,
          Role := u.role, CreatedAt := (parseRFC3339 u.created_at).getD zeroTime }

/-! ## Controllers (`internal/controllers`) -/

/-- Go `err.Error()`. -/
def Err.Error : Err → String
  | .msg text => text
  | .noRows => "sql: no rows in result set"
  | .constraint text => text

/-- What a handler writes with `c.JSON`: a status with a body, or a status with an
`error` message. -/
inductive Reply (α : Type) where
  | json (status : Nat) (body : α)
  | fail (status : Nat) (error : String)
deriving DecidableEq, Repr

/-- Go `strings.Split(s, sep)` for a one-character separator, on the characters of
`s`: the pieces between the separators, a single piece when there is none. -/
def stringsSplit (s : List Char) (sep : Char) : List (List Char) :=
  match s with
  | [] => [[]]
  | c :: rest =>
    if c = sep then [] :: stringsSplit rest sep
    else
      match stringsSplit rest sep with
      | [] => [[c]]
      | piece :: pieces => (c :: piece) :: pieces

/-- Go `strings.Join(parts, sep)` for a one-character separator. -/
def stringsJoin (parts : List (List Char)) (sep : Char) : List Char :=
  match parts with
  | [] => []
  | [piece] => piece
  | piece :: rest => piece ++ sep :: stringsJoin rest sep

/-- The name assignment of the `CreateRegistration` handler: the request's first name
becomes the username up to its first space, its last name the rest after that space,
or the whole username when it has no space. -/
def useAccountName (req : RegistrationRequest) (username : String) : RegistrationRequest :=
  let nameParts := stringsSplit username.data ' '
  let firstName := String.mk (nameParts.headD [])
  if nameParts.length > 1 then
    { req with FirstName := firstName, LastName := String.mk (stringsJoin (nameParts.drop 1) ' ') }
  else
    { req with FirstName := firstName, LastName := username }

/-- Go `controllers.CreateRegistration` at clock reading `now`: `userID` is the context
value `user_id` (`none` when the middleware set none) and `req` the bound JSON body, whose
binding fails when the required `event_id` is zero. -/
def Controllers.CreateRegistration (db : Store) (now : Time) (userID : Option Int)
    (req : RegistrationRequest) : Reply Int × Store :=
  match userID with
  | none => (.fail 401 "User not authenticated", db)
  | some idValue =>
    match GetUserByID db idValue with
    | .error _ => (.fail 500 "Failed to get user information", db)
    | .ok user =>
      if req.EventID = 0 then
        (.fail 400
          "Key: 'RegistrationRequest.EventID' Error:Field validation for 'EventID' failed on the 'required' tag",
          db)
      else
        match EventPoster.CreateRegistration db now (useAccountName req user.Username)
            (some idValue) with
        | (.error err, db2) =>
          if err.Error = "event is fully booked" then (.fail 400 err.Error, db2)
          else if err.Error = "event not found" then (.fail 404 err.Error, db2)
          else if err.Error = "cannot register for a past event" then (.fail 400 err.Error, db2)
          else if err.Error = "you have already registered for this event" then
            (.fail 400 err.Error, db2)
          else (.fail 500 err.Error, db2)
        | (.ok id, db2) => (.json 201 id, db2)

/-- The JSON object the event handlers write for one event. -/
structure EventView where
  id : Int
  title : String
  description : String
  location : String
  event_type : String
  event_date : Time
  seats : Int
  created_at : Time
  creator_id : Int
  available_seats : Int
  registrations : Int
deriving DecidableEq, Repr

/-- The object written for `event` with the registration count just read: the
available seats are the Go `int` difference of seats and count. -/
def eventView (event : Event) (registrationsCount : Int) : EventView :=
  { id := event.ID
    title := event.Title
    description := event.Description
    location := event.Location
    event_type := event.EventType
    event_date := event.EventDate
    seats := event.Seats
    created_at := event.CreatedAt
    creator_id := event.CreatorID
    available_seats := wrapInt64 (event.Seats - registrationsCount)
    registrations := registrationsCount }

/-- Go `controllers.GetEvent` for the parsed path parameter `eventID`. -/
def Controllers.GetEvent (db : Store) (eventID : Int) : Reply EventView :=
  match EventPoster.GetEventByID db eventID with
  | .error .noRows => .fail 404 "Event not found"
  | .error _ => .fail 500 "Failed to get event"
  | .ok event => .json 200 (eventView event (GetRegistrationsCountForEvent db eventID))

/-- Go `controllers.GetEvents` at clock reading `now`: the count of each listed event is
read after the listing, from the store the listing's sweep has left. -/
def Controllers.GetEvents (foreignKeys : Int → Bool) (db : Store) (now : Time) :
    Reply (List EventView) × Store :=
  let listed := GetAllEvents foreignKeys db now
  (.json 200 (listed.1.map (fun event =>
      eventView event (GetRegistrationsCountForEvent listed.2 event.ID))), listed.2)

/-! ## Definitions for the statements on reads, handlers and series of calls -/

/-- Whether the call is `CreateRegistration` or `DeleteRegistration`. -/
def Op.isRegistrationCreateOrDelete : Op → Bool
  | .createRegistration _ _ _ => true
  | .deleteRegistration _ _ => true
  | _ => false

/-- The seats of every stored event and the number of stored registrations are values
of Go's 64-bit `int`, and the seats are positive, as `EventRequest.Validate` demands of
every event written. -/
def SeatsFitInt64 (db : Store) : Prop :=
  (∀ e ∈ db.events, 0 < e.seats ∧ e.seats < 2 ^ 63)
    ∧ ((db.registrations.length : Nat) : Int) < 2 ^ 63

/-- One `CreateRegistration` call of a series: its clock reading, request and account. -/
structure JoinCall where
  now : Time
  req : RegistrationRequest
  account : Int
deriving DecidableEq, Repr

/-- The calls of a series made one after the other: their results in order and the
store after the last. -/
def registerEach (db : Store) : List JoinCall → List (Except Err Int) × Store
  | [] => ([], db)
  | c :: rest =>
    let first := CreateRegistration db c.now c.req (some c.account)
    let others := registerEach first.2 rest
    (first.1 :: others.1, others.2)

/-- Primary key of `registrations`: no two rows share an id. -/
def UniqueRegistrationIds (db : Store) : Prop := (db.registrations.map (fun r => r.id)).Nodup

/-- Request for a described workshop in a named room, on `date` with `seats` seats. -/
def workshopRequest (date : Time) (seats : Int) : EventRequest :=
  { Title := "workshop", Description := "Proofs by hand", Location := "Room 1",
    EventType := "course", EventDate := date, Seats := seats }

/-- One account, the described workshop as event 1, and registration 1 of account 1
for it. -/
def workshopStore : Store :=
  run emptyStore
    [ .register newYearMorning aliceRequest "hash-a",
      .createEvent newYearMorning (workshopRequest oneHourLater 5) 1,
      .createRegistration newYearMorning (joinRequest 1) (some 1) ]

/-- The instant 2026-01-01T08:00:00Z, written in UTC. -/
def eightOClockUtc : Time := utc 1767254400

/-- One account and two coming events created at midnight UTC: event 1 at 08:00 UTC,
stored as `2026-01-01T08:00:00Z`, and event 2 at 05:00 UTC, stored by a client at
offset `+05:00` as `2026-01-01T10:00:00+05:00`. -/
def mixedOffsetStore : Store :=
  run emptyStore
    [ .register newYearMidnight aliceRequest "hash-a",
      .createEvent newYearMidnight (talkRequest eightOClockUtc 5) 1,
      .createEvent newYearMidnight (talkRequest tenOClockPlusFive 5) 1 ]

/-- The call by which account 1 asks for a seat of event 1 at `newYearMorning`. -/
def aliceJoins : JoinCall := { now := newYearMorning, req := joinRequest 1, account := 1 }

/-- The call by which account 2 asks for a seat of event 1 at `newYearMorning`. -/
def bobJoins : JoinCall := { now := newYearMorning, req := joinRequest 1, account := 2 }

/-- Two accounts and three events created by account 1: events 1 and 2 have a single
seat and are scheduled at `oneHourLater`, event 3 has five seats and is scheduled a day
later. Account 1 holds registration 1 for event 1, registration 2 for event 2 and
registration 3 for event 3, so events 1 and 2 are fully booked. -/
def crowdedStore : Store :=
  run emptyStore
    [ .register newYearMorning aliceRequest "hash-a",
      .register newYearMorning bobRequest "hash-b",
      .createEvent newYearMorning (talkRequest oneHourLater 1) 1,
      .createEvent newYearMorning (talkRequest oneHourLater 1) 1,
      .createEvent newYearMorning (talkRequest (utc 1767340800) 5) 1,
      .createRegistration newYearMorning (joinRequest 1) (some 1),
      .createRegistration newYearMorning (joinRequest 2) (some 1),
      .createRegistration newYearMorning (joinRequest 3) (some 1) ]

/-- Registration calls on event 1: account 1 takes the seat, account 2 is refused,
account 1 gives the seat back and account 2 takes it. -/
def seatTradeCalls : List Op :=
  [ .createRegistration newYearMorning (joinRequest 1) (some 1),
    .createRegistration newYearMorning (joinRequest 1) (some 2),
    .deleteRegistration 1 1,
    .createRegistration newYearMorning (joinRequest 1) (some 2) ]

/-- A valid event request used by the permission examples. -/
def renameRequest : EventRequest := talkRequest oneHourLater 5

/-- A registration request whose event reference is negative: it passes the JSON
binding of the handlers (the field is present and not zero) and fails `Validate`. -/
def negativeJoinRequest : RegistrationRequest :=
  { EventID := -1, FirstName := "bob", LastName := "bob", Notes := "" }

/-- The row of registration 1 in `registeredStore`, held by account 1. -/
def aliceRegistrationRow : RegistrationRow :=
  { id := 1, event_id := 1, user_id := some 1, first_name := "alice", last_name := "alice",
    created_at := "2026-01-01T06:00:00Z" }

/-! ## `GetUserRegistrations` and the stores of the last examples -/

/-- SQL `FROM registrations r JOIN events e ON r.event_id = e.id WHERE r.user_id = ?
ORDER BY r.created_at DESC`: each registration of the account paired with its event,
in descending TEXT order of the creation time, pairs with equal keys staying in rowid
order. -/
def joinUserRegistrations (db : Store) (userID : Int) :
    List (RegistrationRow × EventRow) :=
  ((db.registrations.filter (fun r => r.user_id == some userID)).flatMap (fun r =>
      (db.events.filter (fun e => e.id == r.event_id)).map (fun e => (r, e)))).insertionSort
    (fun a b => textLt a.1.created_at b.1.created_at = false)

/-- Go `RegistrationService.GetUserRegistrations` at clock reading `now`: a creation
time that does not parse is replaced by the current time; an event date that does not
parse leaves the zero `Time`. -/
def GetUserRegistrations (db : Store) (now : Time) (userID : Int) : List RegistrationResponse :=
  (joinUserRegistrations db userID).map (fun p =>
    { Registration :=
        { ID := p.1.id
          EventID := p.1.event_id
          UserID := p.1.user_id.getD 0
          FirstName := p.1.first_name
          LastName := p.1.last_name
          CreatedAt := (parseRFC3339 p.1.created_at).getD now }
      EventTitle := p.2.title
      EventDescription := p.2.description.getD ""
      EventLocation := p.2.location.getD ""
      EventDate := (parseRFC3339 p.2.event_date).getD zeroTime
      EventType := p.2.event_type })

/-- The store `registeredStore` with the creation time of registration 1 written as
SQLite writes `CURRENT_TIMESTAMP`, `2026-01-01 06:00:00`, which is not RFC 3339. -/
def legacyStampStore : Store :=
  { registeredStore with
    registrations := [{ aliceRegistrationRow with created_at := "2026-01-01 06:00:00" }] }

/-- The smallest Go `int`, -2^63. -/
def minInt64 : Int := -9223372036854775808

/-- A store whose event 1 has `minInt64` seats and one registration. -/
def overdrawnStore : Store :=
  { emptyStore with
    events := [{ singleSeatRow with seats := minInt64 }]
    registrations := [aliceRegistrationRow]
    eventSeq := 1
    registrationSeq := 1 }

/-- Two accounts and no event. -/
def accountsStore : Store :=
  run emptyStore
    [ .register newYearMorning aliceRequest "hash-a",
      .register newYearMorning bobRequest "hash-b" ]

/-- The instant 2025-12-30T18:00:00Z, 36 hours before `newYearMorning`. -/
def thirtySixHoursEarlier : Time := utc 1767117600

/-- Two accounts, event 1 with five seats scheduled one hour after `newYearMorning`, and
registration 1 for it made without an account. -/
def anonymousStore : Store :=
  run emptyStore
    [ .register newYearMorning aliceRequest "hash-a",
      .register newYearMorning bobRequest "hash-b",
      .createEvent newYearMorning (talkRequest oneHourLater 5) 1,
      .createRegistration newYearMorning (joinRequest 1) none ]

/-- The row of registration 1 in `anonymousStore`: its account reference is NULL. -/
def anonymousRow : RegistrationRow :=
  { id := 1, event_id := 1, user_id := none, first_name := "alice", last_name := "alice",
    created_at := "2026-01-01T06:00:00Z" }

/-- A sweep in which the delete of event 1 fails and every other delete goes through. -/
def firstDeleteFails (id : Int) : Bool := id == 1

/-- The row of event 1 in `pastEventStore`. -/
def pastEventRow : EventRow :=
  { id := 1, title := "talk", description := some "", location := some "",
    event_type := "meetup", event_date := "2026-01-01T05:00:00Z", seats := 5,
    creator_id := some 1, created_at := "2026-01-01 06:00:00" }

/-! ## Lemmas on keys and lookups -/

theorem le_foldl_max (ids : List Int) (init : Int) :
    init ≤ ids.foldl max init ∧ ∀ x ∈ ids, x ≤ ids.foldl max init := by
  induction ids generalizing init with
  | nil => simp
  | cons a t ih =>
    simp only [List.foldl_cons, List.mem_cons]
    obtain ⟨h1, h2⟩ := ih (max init a)
    refine ⟨le_trans (le_max_left _ _) h1, ?_⟩
    rintro x (rfl | hx)
    · exact le_trans (le_max_right _ _) h1
    · exact h2 x hx

theorem lt_nextId (seq : Int) (ids : List Int) (x : Int) (hx : x ∈ ids) :
    x < nextId seq ids := by
  have h := (le_foldl_max ids 0).2 x hx
  unfold nextId maxId
  have := le_max_right seq (ids.foldl max 0)
  omega

theorem find_some_of_any (db : Store) (id : Int) (h : eventExists db id = true) :
    ∃ e, db.events.find? (fun r => r.id == id) = some e := by
  unfold eventExists at h
  rw [List.any_eq_true] at h
  obtain ⟨x, hx, hp⟩ := h
  cases hf : db.events.find? (fun r => r.id == id) with
  | none =>
    rw [List.find?_eq_none] at hf
    exact absurd hp (hf x hx)
  | some e => exact ⟨e, rfl⟩

theorem getEventByID_ok (db : Store) (id : Int) (event : Event)
    (h : GetEventByID db id = .ok event) :
    ∃ e, db.events.find? (fun r => r.id == id) = some e ∧ event = scanEvent e ∧ e ∈ db.events
      ∧ e.id = id := by
  unfold GetEventByID at h
  cases hf : db.events.find? (fun r => r.id == id) with
  | none => rw [hf] at h; cases h
  | some e =>
    rw [hf] at h
    refine ⟨e, rfl, ?_, List.mem_of_find?_eq_some hf, ?_⟩
    · cases h; rfl
    · have := List.find?_some hf
      simpa using this

/-! ## Admission control: `CreateRegistration` -/

/-- C1: when the request is valid, the target event exists and its registration count
is at least its seats, `CreateRegistration` returns "event is fully booked" and the
store after the call is the store before it (no row is inserted). -/
theorem createRegistration_fully_booked (db : Store) (now : Time) (req : RegistrationRequest)
    (userID : Option Int) (event : Event)
    (hvalid : req.Validate = none)
    (hevent : GetEventByID db req.EventID = .ok event)
    (hfull : event.Seats ≤ countRegistrations db req.EventID) :
    (CreateRegistration db now req userID).1 = .error (.msg "event is fully booked")
      ∧ (CreateRegistration db now req userID).2 = db
      ∧ (CreateRegistration db now req userID).2.registrations = db.registrations := by
  have hseats : ¬ (event.Seats > countRegistrations db req.EventID) := by omega
  simp [CreateRegistration, hvalid, hevent, HasAvailableSeats, GetRegistrationsCountForEvent,
    hseats]

/-- Witness of C1: in `soldOutStore` event 1 has one seat and one registration, and a
further registration by account 2 is refused as fully booked. -/
theorem createRegistration_fully_booked_witness :
    (CreateRegistration soldOutStore newYearMorning (joinRequest 1) (some 2)).1
        = .error (.msg "event is fully booked")
      ∧ (CreateRegistration soldOutStore newYearMorning (joinRequest 1) (some 2)).2 = soldOutStore
      ∧ (CreateRegistration soldOutStore newYearMorning (joinRequest 1) (some 2)).2.registrations
        = soldOutStore.registrations :=
  createRegistration_fully_booked soldOutStore newYearMorning (joinRequest 1) (some 2)
    (scanEvent
      { id := 1, title := "talk", description := some "", location := some "",
        event_type := "meetup", event_date := "2026-01-01T07:00:00Z", seats := 1,
        creator_id := some 1, created_at := "2026-01-01 06:00:00" })
    (by decide) (by decide) (by decide)

/-- The account check of `CreateRegistration` agrees with check 5 of the specification. -/
theorem checkExisting_eq_not_spec (db : Store) (req : RegistrationRequest) (u : Int) :
    CheckExistingRegistration db req.EventID u = !specNotRegistered db req (some u) := by
  unfold CheckExistingRegistration specNotRegistered
  dsimp only
  by_cases h : db.registrations.all
      (fun r => !(r.event_id == req.EventID && r.user_id == some u)) = true
  · rw [h]
    have h0 : db.registrations.countP
        (fun r => r.event_id == req.EventID && r.user_id == some u) = 0 := by
      rw [List.countP_eq_zero]
      intro r hr
      have := (List.all_eq_true.mp h) r hr
      simp only [Bool.not_eq_true, Bool.not_eq_eq_eq_not, Bool.not_true] at this ⊢
      exact this
    simp [h0]
  · have hf : db.registrations.all
        (fun r => !(r.event_id == req.EventID && r.user_id == some u)) = false := by
      simpa using h
    rw [hf]
    have hpos : 0 < db.registrations.countP
        (fun r => r.event_id == req.EventID && r.user_id == some u) := by
      rw [List.countP_pos_iff]
      rw [List.all_eq_false] at hf
      obtain ⟨r, hr, hp⟩ := hf
      exact ⟨r, hr, by simpa using hp⟩
    simp [hpos]

/-- The code of `CreateRegistration` follows the specification's procedure: it returns
the error of the first failing check and leaves the store alone, and when every check
passes it performs the insert. -/
theorem createRegistration_eq_spec (db : Store) (now : Time) (req : RegistrationRequest)
    (userID : Option Int) :
    CreateRegistration db now req userID =
      match firstFailure (specChecks db now req userID) with
      | some err => (.error err, db)
      | none =>
        insertRegistration db req.EventID userID req.FirstName req.LastName
          (formatRFC3339 now) := by
  unfold CreateRegistration RegistrationRequest.Validate firstFailure specChecks
    specEventReferencePresent
  by_cases h1 : req.EventID ≤ 0
  · have h1' : ¬ (0 < req.EventID) := by omega
    simp [h1, h1']
  · have h1' : 0 < req.EventID := by omega
    simp only [h1, h1', if_false, decide_True]
    unfold GetEventByID specEventExists specSeatsAvailable specDateNotPast HasAvailableSeats
      GetEventByID GetRegistrationsCountForEvent
    cases hf : db.events.find? (fun r => r.id == req.EventID) with
    | none =>
      have hany : db.events.any (fun e => e.id == req.EventID) = false := by
        rw [List.find?_eq_none] at hf
        rw [List.any_eq_false]
        exact hf
      simp [hany]
    | some e =>
      have hany : db.events.any (fun e => e.id == req.EventID) = true := by
        rw [List.any_eq_true]
        exact ⟨e, List.mem_of_find?_eq_some hf, by simpa using List.find?_some hf⟩
      by_cases h3 : (scanEvent e).Seats > countRegistrations db req.EventID
      · have h3' : 0 < e.seats - countRegistrations db req.EventID := by
          have : (scanEvent e).Seats = e.seats := rfl
          omega
        by_cases h4 : (scanEvent e).EventDate.unixNano < now.unixNano
        · have h4' : ¬ (now.unixNano ≤ (scanEvent e).EventDate.unixNano) := by omega
          simp [hany, h3, h3', Time.Before, h4, h4']
        · have h4' : now.unixNano ≤ (scanEvent e).EventDate.unixNano := by omega
          cases userID with
          | none => simp [hany, h3, h3', Time.Before, h4, h4', specNotRegistered]
          | some u =>
            have hc := checkExisting_eq_not_spec db req u
            cases h5 : specNotRegistered db req (some u) <;>
              simp [hany, h3, h3', Time.Before, h4, h4', hc, h5]
      · have h3' : ¬ (0 < e.seats - countRegistrations db req.EventID) := by
          have : (scanEvent e).Seats = e.seats := rfl
          omega
        simp [hany, h3, h3']

/-- C2: `CreateRegistration` evaluates the five checks in the specification's order
(request validation, event exists, seats available, date not past, not yet registered):
it returns the error of the first check that fails and leaves the store unchanged; it
returns an id exactly when every check passes and the insert is accepted by the store
(the account, when given, has a row in `users`); and a returned id is new. -/
theorem createRegistration_check_order (db : Store) (now : Time) (req : RegistrationRequest)
    (userID : Option Int) :
    (∀ err, firstFailure (specChecks db now req userID) = some err →
        CreateRegistration db now req userID = (.error err, db))
      ∧ ((∃ id, (CreateRegistration db now req userID).1 = .ok id) ↔
          (firstFailure (specChecks db now req userID) = none ∧ accountKnown db userID = true))
      ∧ (∀ id, (CreateRegistration db now req userID).1 = .ok id →
          ∀ r ∈ db.registrations, r.id ≠ id) := by
  have hspec := createRegistration_eq_spec db now req userID
  cases hff : firstFailure (specChecks db now req userID) with
  | some err =>
    rw [hff] at hspec
    simp [hspec]
  | none =>
    rw [hff] at hspec
    simp only [hspec]
    have hex : eventExists db req.EventID = true := by
      unfold firstFailure specChecks at hff
      unfold eventExists
      by_cases h1 : specEventReferencePresent req = true
      · by_cases h2 : specEventExists db req = true
        · exact h2
        · simp [h1, h2] at hff
      · simp [h1] at hff
    unfold insertRegistration
    rw [hex]
    cases hk : accountKnown db userID
    · simp
    · simp only [Bool.and_self, if_true, true_and]
      refine ⟨by simp, ⟨fun _ => trivial, fun _ => ⟨_, rfl⟩⟩, ?_⟩
      intro id hid r hr heq
      have hlt := lt_nextId db.registrationSeq (db.registrations.map (fun r => r.id)) r.id
        (List.mem_map_of_mem _ hr)
      cases hid
      omega

/-- C3, counterexample: in `soldOutStore`, two hours after `newYearMorning`, event 1 is
in the past and has no seat left; a valid registration request for it fails with "event
is fully booked", not with "cannot register for a past event". -/
theorem createRegistration_past_event_sold_out :
    (joinRequest 1).Validate = none
      ∧ (∃ event, GetEventByID soldOutStore (joinRequest 1).EventID = .ok event
          ∧ event.EventDate.Before twoHoursLater = true)
      ∧ (CreateRegistration soldOutStore twoHoursLater (joinRequest 1) (some 2)).1
          = .error (.msg "event is fully booked")
      ∧ (CreateRegistration soldOutStore twoHoursLater (joinRequest 1) (some 2)).1
          ≠ .error (.msg "cannot register for a past event") := by
  refine ⟨by decide, ⟨_, rfl, by decide⟩, by decide, by decide⟩

/-- C3, amended: when the request is valid, the target event exists, has a seat left
and its scheduled date is before the current time, `CreateRegistration` fails with
"cannot register for a past event" and leaves the store unchanged. -/
theorem createRegistration_past_event (db : Store) (now : Time) (req : RegistrationRequest)
    (userID : Option Int) (event : Event)
    (hvalid : req.Validate = none)
    (hevent : GetEventByID db req.EventID = .ok event)
    (hseats : countRegistrations db req.EventID < event.Seats)
    (hpast : event.EventDate.Before now = true) :
    CreateRegistration db now req userID
      = (.error (.msg "cannot register for a past event"), db) := by
  have hs : event.Seats > countRegistrations db req.EventID := by omega
  simp [CreateRegistration, hvalid, hevent, HasAvailableSeats, GetRegistrationsCountForEvent,
    hs, hpast]

/-- Witness of C3 as amended: event 1 of `pastEventStore` has five free seats and was
scheduled an hour before `newYearMorning`. -/
theorem createRegistration_past_event_witness :
    CreateRegistration pastEventStore newYearMorning (joinRequest 1) (some 2)
      = (.error (.msg "cannot register for a past event"), pastEventStore) :=
  createRegistration_past_event pastEventStore newYearMorning (joinRequest 1) (some 2)
    (scanEvent
      { id := 1, title := "talk", description := some "", location := some "",
        event_type := "meetup", event_date := "2026-01-01T05:00:00Z", seats := 5,
        creator_id := some 1, created_at := "2026-01-01 06:00:00" })
    (by decide) (by decide) (by decide) (by decide)

/-- C4, counterexample: in `soldOutStore` account 1 holds a registration for event 1,
and a second `CreateRegistration` for event 1 by account 1 fails with "event is fully
booked", not with "you have already registered for this event". -/
theorem createRegistration_duplicate_sold_out :
    hasRegistration soldOutStore 1 1 = true
      ∧ (CreateRegistration soldOutStore newYearMorning (joinRequest 1) (some 1)).1
          = .error (.msg "event is fully booked")
      ∧ (CreateRegistration soldOutStore newYearMorning (joinRequest 1) (some 1)).1
          ≠ .error (.msg "you have already registered for this event") := by
  refine ⟨by decide, by decide, by decide⟩

/-- C4, amended: when a registration exists for the pair (event, account),
`CreateRegistration` for that event and account always fails and leaves the store
unchanged; the error is that of the first failing check, which is "you have already
registered for this event" when the request is valid, the event exists, has a seat left
and is not in the past. -/
theorem createRegistration_duplicate (db : Store) (now : Time) (req : RegistrationRequest)
    (u : Int) (hdup : hasRegistration db req.EventID u = true) :
    (∃ err, firstFailure (specChecks db now req (some u)) = some err
        ∧ CreateRegistration db now req (some u) = (.error err, db))
      ∧ (specEventReferencePresent req = true → specEventExists db req = true →
          specSeatsAvailable db req = true → specDateNotPast db now req = true →
          CreateRegistration db now req (some u)
            = (.error (.msg "you have already registered for this event"), db)) := by
  have h5 : specNotRegistered db req (some u) = false := by
    unfold hasRegistration at hdup
    unfold specNotRegistered
    rw [List.any_eq_true] at hdup
    obtain ⟨r, hr, hp⟩ := hdup
    rw [List.all_eq_false]
    exact ⟨r, hr, by simp [hp]⟩
  have hspec := createRegistration_eq_spec db now req (some u)
  have hff : ∀ err, firstFailure (specChecks db now req (some u)) = some err →
      CreateRegistration db now req (some u) = (.error err, db) := by
    intro err he
    rw [he] at hspec
    exact hspec
  constructor
  · cases hf : firstFailure (specChecks db now req (some u)) with
    | some err => exact ⟨err, rfl, hff err hf⟩
    | none =>
      exfalso
      unfold firstFailure specChecks at hf
      cases h1 : specEventReferencePresent req <;> cases h2 : specEventExists db req <;>
        cases h3 : specSeatsAvailable db req <;> cases h4 : specDateNotPast db now req <;>
        simp [h1, h2, h3, h4, h5] at hf
  · intro h1 h2 h3 h4
    apply hff
    simp [firstFailure, specChecks, h1, h2, h3, h4, h5]

/-- Witness of C4 as amended: in `registeredStore` account 1 holds one of the five seats
of the coming event 1, and asking again is refused as a duplicate. -/
theorem createRegistration_duplicate_witness :
    hasRegistration registeredStore (joinRequest 1).EventID 1 = true
      ∧ CreateRegistration registeredStore newYearMorning (joinRequest 1) (some 1)
        = (.error (.msg "you have already registered for this event"), registeredStore) :=
  ⟨by decide,
    (createRegistration_duplicate registeredStore newYearMorning (joinRequest 1) 1
      (by decide)).2 (by decide) (by decide) (by decide) (by decide)⟩

/-! ## The seat-capacity invariant -/

theorem seatInvariant_empty : SeatInvariant emptyStore :=
  ⟨by simp [UniqueEventIds, emptyStore], by simp [EventIdsIssued, emptyStore],
    by simp [RegistrationsReferIssued, emptyStore], by simp [SeatsRespected, emptyStore]⟩

theorem seatInvariant_congr (db db2 : Store) (he : db2.events = db.events)
    (hr : db2.registrations = db.registrations) (hs : db2.eventSeq = db.eventSeq)
    (h : SeatInvariant db) : SeatInvariant db2 := by
  obtain ⟨pk, issued, refs, cap⟩ := h
  refine ⟨?_, ?_, ?_, ?_⟩
  · unfold UniqueEventIds; rw [he]; exact pk
  · unfold EventIdsIssued; rw [he, hs]; exact issued
  · unfold RegistrationsReferIssued; rw [hr, hs]; exact refs
  · unfold SeatsRespected countRegistrations; rw [he, hr]; exact cap

theorem deleteEventRows_registrations_sublist (foreignKeys : Bool) (db : Store) (id : Int) :
    (deleteEventRows foreignKeys db id).registrations.Sublist db.registrations := by
  cases foreignKeys
  · exact List.Sublist.refl _
  · exact List.filter_sublist _

theorem seatInvariant_deleteEventRows (foreignKeys : Bool) (db : Store) (id : Int)
    (h : SeatInvariant db) : SeatInvariant (deleteEventRows foreignKeys db id) := by
  obtain ⟨pk, issued, refs, cap⟩ := h
  refine ⟨?_, ?_, ?_, ?_⟩
  · unfold UniqueEventIds deleteEventRows
    exact List.Nodup.sublist (List.Sublist.map _ (List.filter_sublist _)) pk
  · intro e he
    simp only [deleteEventRows, List.mem_filter] at he
    exact issued e he.1
  · intro r hr
    exact refs r ((deleteEventRows_registrations_sublist foreignKeys db id).subset hr)
  · intro e he
    simp only [deleteEventRows, List.mem_filter] at he
    have hle : (deleteEventRows foreignKeys db id).registrations.countP
        (fun r => r.event_id == e.id)
        ≤ db.registrations.countP (fun r => r.event_id == e.id) :=
      List.Sublist.countP_le _ (deleteEventRows_registrations_sublist foreignKeys db id)
    have := cap e he.1
    unfold countRegistrations at this ⊢
    omega

theorem seatInvariant_sweep (foreignKeys : Int → Bool) (deleteFails : Int → Bool)
    (ids : List Int) (db : Store) (h : SeatInvariant db) :
    SeatInvariant (ids.foldl
      (fun s id => if deleteFails id then s else deleteEventRows (foreignKeys id) s id) db) := by
  induction ids generalizing db with
  | nil => exact h
  | cons a t ih =>
    simp only [List.foldl_cons]
    apply ih
    cases deleteFails a
    · simpa using seatInvariant_deleteEventRows (foreignKeys a) db a h
    · simpa using h

theorem seatInvariant_updateEventRows (db : Store) (id : Int) (req : EventRequest)
    (hseats : countRegistrations db id ≤ req.Seats) (h : SeatInvariant db) :
    SeatInvariant (updateEventRows db id req) := by
  obtain ⟨pk, issued, refs, cap⟩ := h
  have hid : ∀ e : EventRow,
      (if (e.id == id) = true then
        { e with
          title := req.Title
          description := some req.Description
          location := some req.Location
          event_type := req.EventType
          event_date := formatRFC3339 req.EventDate
          seats := req.Seats }
      else e).id = e.id := by
    intro e
    split <;> rfl
  refine ⟨?_, ?_, refs, ?_⟩
  · unfold UniqueEventIds updateEventRows
    simp only [List.map_map]
    have : ((fun e : EventRow => e.id) ∘ fun e : EventRow =>
        if (e.id == id) = true then
          { e with
            title := req.Title
            description := some req.Description
            location := some req.Location
            event_type := req.EventType
            event_date := formatRFC3339 req.EventDate
            seats := req.Seats }
        else e) = fun e => e.id := by
      funext e
      exact hid e
    rw [this]
    exact pk
  · intro e2 he2
    simp only [updateEventRows, List.mem_map] at he2
    obtain ⟨e, he, rfl⟩ := he2
    rw [hid e]
    exact issued e he
  · intro e2 he2
    simp only [updateEventRows, List.mem_map] at he2
    obtain ⟨e, he, rfl⟩ := he2
    have hc := cap e he
    show countRegistrations db _ ≤ _
    rw [hid e]
    by_cases hi : (e.id == id) = true
    · rw [if_pos hi]
      have : e.id = id := by simpa using hi
      rw [this]
      exact hseats
    · rw [if_neg hi]
      exact hc

theorem seq_lt_nextId (seq : Int) (ids : List Int) : seq < nextId seq ids := by
  unfold nextId
  have := le_max_left seq (maxId ids)
  omega

theorem count_zero_of_fresh (db : Store) (h : RegistrationsReferIssued db) :
    countRegistrations db (nextId db.eventSeq (db.events.map (fun e => e.id))) = 0 := by
  unfold countRegistrations
  have : db.registrations.countP
      (fun r => r.event_id == nextId db.eventSeq (db.events.map (fun e => e.id))) = 0 := by
    rw [List.countP_eq_zero]
    intro r hr
    have h1 := h r hr
    have h2 := seq_lt_nextId db.eventSeq (db.events.map (fun e => e.id))
    simp only [beq_iff_eq]
    omega
  rw [this]
  rfl

theorem seatInvariant_createEvent (db : Store) (now : Time) (req : EventRequest) (userID : Int)
    (h : SeatInvariant db) : SeatInvariant (CreateEvent db now req userID).2 := by
  unfold CreateEvent
  cases hv : req.Validate now with
  | some err => exact h
  | none =>
    cases hu : userExists db userID
    · simpa using h
    · have hpos : 0 < req.Seats := by
        unfold EventRequest.Validate at hv
        by_cases hs : req.Seats ≤ 0
        · split_ifs at hv
        · omega
      obtain ⟨pk, issued, refs, cap⟩ := h
      have hseq := seq_lt_nextId db.eventSeq (db.events.map (fun e => e.id))
      simp only [if_true]
      refine ⟨?_, ?_, ?_, ?_⟩
      · unfold UniqueEventIds at pk ⊢
        simp only [List.map_append, List.map_cons, List.map_nil]
        rw [List.nodup_append]
        refine ⟨pk, List.nodup_singleton _, ?_⟩
        intro x hx hx2
        have := lt_nextId db.eventSeq (db.events.map (fun e => e.id)) x hx
        simp only [List.mem_singleton] at hx2
        omega
      · intro e he
        simp only [List.mem_append, List.mem_singleton] at he
        show e.id ≤ nextId db.eventSeq (db.events.map (fun e => e.id))
        rcases he with he | rfl
        · have := issued e he
          omega
        · exact le_refl _
      · intro r hr
        show r.event_id ≤ nextId db.eventSeq (db.events.map (fun e => e.id))
        have := refs r hr
        omega
      · intro e he
        simp only [List.mem_append, List.mem_singleton] at he
        show countRegistrations db e.id ≤ e.seats
        rcases he with he | rfl
        · exact cap e he
        · show countRegistrations db (nextId db.eventSeq (db.events.map (fun e => e.id)))
            ≤ req.Seats
          rw [count_zero_of_fresh db refs]
          omega

theorem seatInvariant_updateEvent (db : Store) (now : Time) (id : Int) (req : EventRequest)
    (userID : Int) (h : SeatInvariant db) : SeatInvariant (UpdateEvent db now id req userID).2 := by
  unfold UpdateEvent
  cases req.Validate now with
  | some err => exact h
  | none =>
    cases GetEventByID db id with
    | error err => exact h
    | ok event =>
      dsimp only
      by_cases hperm : (event.CreatorID != userID) = true
      · rw [if_pos hperm]; exact h
      · rw [if_neg hperm]
        by_cases hs : req.Seats < countRegistrations db id
        · rw [if_pos hs]; exact h
        · rw [if_neg hs]
          have := seatInvariant_updateEventRows db id req (by omega) h
          split <;> exact this

theorem seatInvariant_deleteEvent (foreignKeys : Bool) (db : Store) (id : Int) (userID : Int)
    (h : SeatInvariant db) : SeatInvariant (DeleteEvent foreignKeys db id userID).2 := by
  unfold DeleteEvent
  cases GetEventByID db id with
  | error err => exact h
  | ok event =>
    dsimp only
    by_cases hperm : (event.CreatorID != userID) = true
    · rw [if_pos hperm]; exact h
    · rw [if_neg hperm]
      have := seatInvariant_deleteEventRows foreignKeys db id h
      split <;> exact this

theorem seatInvariant_deleteExpiredEvents (foreignKeys : Int → Bool) (deleteFails : Int → Bool)
    (db : Store) (now : Time) (h : SeatInvariant db) :
    SeatInvariant (DeleteExpiredEventsWith foreignKeys deleteFails db now).2 := by
  unfold DeleteExpiredEventsWith
  dsimp only
  split
  · exact h
  · exact seatInvariant_sweep foreignKeys deleteFails _ db h

theorem eq_of_same_id (db : Store) (pk : UniqueEventIds db) (a b : EventRow)
    (ha : a ∈ db.events) (hb : b ∈ db.events) (hid : a.id = b.id) : a = b :=
  List.inj_on_of_nodup_map pk ha hb hid

theorem seatInvariant_createRegistration (db : Store) (now : Time) (req : RegistrationRequest)
    (userID : Option Int) (h : SeatInvariant db) :
    SeatInvariant (CreateRegistration db now req userID).2 := by
  rw [createRegistration_eq_spec]
  cases hff : firstFailure (specChecks db now req userID) with
  | some err => exact h
  | none =>
    dsimp only
    have h3 : specSeatsAvailable db req = true := by
      unfold firstFailure specChecks at hff
      cases h1 : specEventReferencePresent req <;> cases h2 : specEventExists db req <;>
        cases h3 : specSeatsAvailable db req <;> simp [h1, h2, h3] at hff
      rfl
    unfold specSeatsAvailable at h3
    unfold insertRegistration
    split
    · obtain ⟨pk, issued, refs, cap⟩ := h
      cases hf : db.events.find? (fun e => e.id == req.EventID) with
      | none => rw [hf] at h3; cases h3
      | some e0 =>
        rw [hf] at h3
        have h0mem : e0 ∈ db.events := List.mem_of_find?_eq_some hf
        have h0id : e0.id = req.EventID := by simpa using List.find?_some hf
        have h0seats : 0 < e0.seats - countRegistrations db req.EventID := by simpa using h3
        refine ⟨pk, issued, ?_, ?_⟩
        · intro r hr
          simp only [List.mem_append, List.mem_singleton] at hr
          rcases hr with hr | rfl
          · exact refs r hr
          · show req.EventID ≤ db.eventSeq
            rw [← h0id]
            exact issued e0 h0mem
        · intro e he
          have hc := cap e he
          unfold countRegistrations at hc h0seats ⊢
          simp only [List.countP_append, List.countP_cons, List.countP_nil]
          by_cases hid : e.id = req.EventID
          · have : e = e0 := eq_of_same_id db pk e e0 he h0mem (by rw [hid, h0id])
            subst this
            rw [hid] at hc ⊢
            simp only [beq_self_eq_true, if_true]
            push_cast
            omega
          · have hne : (req.EventID == e.id) = false := by
              simp only [beq_eq_false_iff_ne, ne_eq]
              exact fun hh => hid hh.symm
            simp only [hne]
            simpa using hc
    · exact h

theorem seatInvariant_deleteRegistrationRows (db : Store) (id : Int) (h : SeatInvariant db) :
    SeatInvariant (deleteRegistrationRows db id) := by
  obtain ⟨pk, issued, refs, cap⟩ := h
  refine ⟨pk, issued, ?_, ?_⟩
  · intro r hr
    simp only [deleteRegistrationRows, List.mem_filter] at hr
    exact refs r hr.1
  · intro e he
    have hle : (deleteRegistrationRows db id).registrations.countP (fun r => r.event_id == e.id)
        ≤ db.registrations.countP (fun r => r.event_id == e.id) :=
      List.Sublist.countP_le _ (List.filter_sublist _)
    have := cap e he
    unfold countRegistrations at this ⊢
    omega

theorem seatInvariant_deleteRegistration (db : Store) (id : Int) (userID : Int)
    (h : SeatInvariant db) : SeatInvariant (DeleteRegistration db id userID).2 := by
  unfold DeleteRegistration
  cases GetRegistrationByID db id with
  | error err => exact h
  | ok registration =>
    dsimp only
    by_cases hperm : (registration.UserID != userID) = true
    · rw [if_pos hperm]; exact h
    · rw [if_neg hperm]
      have := seatInvariant_deleteRegistrationRows db id h
      split <;> exact this

theorem seatInvariant_register (db : Store) (now : Time) (req : UserRequest) (hashed : String)
    (h : SeatInvariant db) : SeatInvariant (Register db now req hashed).2 := by
  apply seatInvariant_congr db _ _ _ _ h
  · unfold Register
    repeat' split
    all_goals rfl
  · unfold Register
    repeat' split
    all_goals rfl
  · unfold Register
    repeat' split
    all_goals rfl

theorem seatInvariant_step (db : Store) (op : Op) (hop : op.isUpdateRegistration = false)
    (h : SeatInvariant db) : SeatInvariant (step db op) := by
  cases op with
  | register now req hashed => exact seatInvariant_register db now req hashed h
  | createEvent now req userID => exact seatInvariant_createEvent db now req userID h
  | updateEvent now id req userID => exact seatInvariant_updateEvent db now id req userID h
  | deleteEvent foreignKeys id userID => exact seatInvariant_deleteEvent foreignKeys db id userID h
  | deleteExpiredEvents foreignKeys now =>
    exact seatInvariant_deleteExpiredEvents foreignKeys _ db now h
  | createRegistration now req userID => exact seatInvariant_createRegistration db now req userID h
  | updateRegistration id req userID => cases hop
  | deleteRegistration id userID => exact seatInvariant_deleteRegistration db id userID h

theorem seatInvariant_run (ops : List Op) (db : Store)
    (hops : ∀ op ∈ ops, op.isUpdateRegistration = false) (h : SeatInvariant db) :
    SeatInvariant (run db ops) := by
  induction ops generalizing db with
  | nil => exact h
  | cons op rest ih =>
    unfold run
    simp only [List.foldl_cons]
    exact ih (step db op) (fun o ho => hops o (List.mem_cons_of_mem _ ho))
      (seatInvariant_step db op (hops op (List.mem_cons_self _ _)) h)

/-- C5: in every store reached from the empty store by a sequence of `Register`,
`CreateEvent`, `UpdateEvent`, `DeleteEvent`, `DeleteExpiredEvents`, `CreateRegistration`
and `DeleteRegistration` calls (no `UpdateRegistration`), whichever connections serve
the deletes of events, every stored event has a registration count at most its seats,
so its available seats are not negative. -/
theorem seats_never_oversold (ops : List Op)
    (hops : ∀ op ∈ ops, op.isUpdateRegistration = false) :
    ∀ e ∈ (run emptyStore ops).events,
      countRegistrations (run emptyStore ops) e.id ≤ e.seats
        ∧ 0 ≤ e.seats - countRegistrations (run emptyStore ops) e.id := by
  intro e he
  have h := (seatInvariant_run ops emptyStore hops seatInvariant_empty).cap e he
  exact ⟨h, by omega⟩

/-- Witness of C5: the calls of `fillAndFreeCalls` contain no `UpdateRegistration`, and
the single-seat event they leave has one registration, no more than its seats. -/
theorem seats_never_oversold_witness :
    countRegistrations (run emptyStore fillAndFreeCalls) singleSeatRow.id ≤ singleSeatRow.seats
      ∧ 0 ≤ singleSeatRow.seats
          - countRegistrations (run emptyStore fillAndFreeCalls) singleSeatRow.id :=
  seats_never_oversold fillAndFreeCalls (by decide) singleSeatRow (by decide)

/-! ## The uniqueness invariant -/

/-- C6, the code at the failing input: in `twoEventsStore` account 1 holds registration 1
for event 1 and registration 2 for event 2; `UpdateRegistration` of registration 2 onto
event 1 returns no error and leaves two distinct registrations of account 1 for event 1,
so the uniqueness invariant holds before the call and fails after it. -/
theorem updateRegistration_duplicates_pair :
    OnePerAccount twoEventsStore
      ∧ (UpdateRegistration twoEventsStore 2 (joinRequest 1) 1).1 = none
      ∧ (UpdateRegistration twoEventsStore 2 (joinRequest 1) 1).2.registrations.map
          (fun r => (r.id, r.event_id, r.user_id)) = [(1, 1, some 1), (2, 1, some 1)]
      ∧ ¬ OnePerAccount (UpdateRegistration twoEventsStore 2 (joinRequest 1) 1).2 := by
  refine ⟨?_, by decide, by decide, ?_⟩
  · unfold OnePerAccount
    decide
  · unfold OnePerAccount
    decide

theorem onePerAccount_sublist (db db2 : Store)
    (hsub : ∀ r ∈ db2.registrations, r ∈ db.registrations) (h : OnePerAccount db) :
    OnePerAccount db2 :=
  fun r1 h1 r2 h2 => h r1 (hsub r1 h1) r2 (hsub r2 h2)

theorem registrations_deleteEventRows (foreignKeys : Bool) (db : Store) (id : Int) :
    ∀ r ∈ (deleteEventRows foreignKeys db id).registrations, r ∈ db.registrations :=
  fun _ hr => (deleteEventRows_registrations_sublist foreignKeys db id).subset hr

theorem registrations_sweep (foreignKeys : Int → Bool) (deleteFails : Int → Bool)
    (ids : List Int) (db : Store) :
    ∀ r ∈ (ids.foldl
      (fun s id => if deleteFails id then s else deleteEventRows (foreignKeys id) s id)
      db).registrations, r ∈ db.registrations := by
  induction ids generalizing db with
  | nil => exact fun r hr => hr
  | cons a t ih =>
    intro r hr
    simp only [List.foldl_cons] at hr
    have h1 := ih _ r hr
    cases hf : deleteFails a
    · rw [hf] at h1
      exact registrations_deleteEventRows (foreignKeys a) db a r (by simpa using h1)
    · rw [hf] at h1
      simpa using h1

theorem onePerAccount_createRegistration (db : Store) (now : Time) (req : RegistrationRequest)
    (userID : Option Int) (h : OnePerAccount db) :
    OnePerAccount (CreateRegistration db now req userID).2 := by
  rw [createRegistration_eq_spec]
  cases hff : firstFailure (specChecks db now req userID) with
  | some err => exact h
  | none =>
    dsimp only
    have h5 : specNotRegistered db req userID = true := by
      unfold firstFailure specChecks at hff
      cases h1 : specEventReferencePresent req <;> cases h2 : specEventExists db req <;>
        cases h3 : specSeatsAvailable db req <;> cases h4 : specDateNotPast db now req <;>
        cases h5 : specNotRegistered db req userID <;> simp [h1, h2, h3, h4, h5] at hff
      rfl
    unfold insertRegistration
    split
    · intro r1 hr1 r2 hr2 hsome hev hus
      simp only [List.mem_append, List.mem_singleton] at hr1 hr2
      have hfresh : ∀ r ∈ db.registrations, ∀ u, userID = some u →
          ¬ (r.event_id = req.EventID ∧ r.user_id = some u) := by
        intro r hr u hu
        rw [hu] at h5
        unfold specNotRegistered at h5
        have := (List.all_eq_true.mp h5) r hr
        simp only [Bool.not_eq_true, Bool.not_eq_eq_eq_not, Bool.not_true, Bool.and_eq_false_imp,
          beq_iff_eq, beq_eq_false_iff_ne, ne_eq] at this
        exact fun hh => this hh.1 hh.2
      rcases hr1 with hr1 | rfl
      · rcases hr2 with hr2 | rfl
        · exact h r1 hr1 r2 hr2 hsome hev hus
        · exfalso
          dsimp only at hev hus
          cases hu : userID with
          | none => rw [hu] at hus; rw [hus] at hsome; cases hsome
          | some u => exact hfresh r1 hr1 u hu ⟨hev, by rw [hus, hu]⟩
      · rcases hr2 with hr2 | rfl
        · exfalso
          dsimp only at hev hus hsome
          cases hu : userID with
          | none => rw [hu] at hsome; cases hsome
          | some u => exact hfresh r2 hr2 u hu ⟨hev.symm, by rw [← hus, hu]⟩
        · rfl
    · exact h

theorem updateEvent_store (db : Store) (now : Time) (id : Int) (req : EventRequest)
    (userID : Int) :
    (UpdateEvent db now id req userID).2 = db
      ∨ (UpdateEvent db now id req userID).2 = updateEventRows db id req := by
  unfold UpdateEvent
  cases req.Validate now with
  | some err => exact Or.inl rfl
  | none =>
    cases GetEventByID db id with
    | error err => exact Or.inl rfl
    | ok event =>
      dsimp only
      by_cases hperm : (event.CreatorID != userID) = true
      · rw [if_pos hperm]; exact Or.inl rfl
      · rw [if_neg hperm]
        by_cases hs : req.Seats < countRegistrations db id
        · rw [if_pos hs]; exact Or.inl rfl
        · rw [if_neg hs]
          split <;> exact Or.inr rfl

theorem deleteEvent_store (foreignKeys : Bool) (db : Store) (id : Int) (userID : Int) :
    (DeleteEvent foreignKeys db id userID).2 = db
      ∨ (DeleteEvent foreignKeys db id userID).2 = deleteEventRows foreignKeys db id := by
  unfold DeleteEvent
  cases GetEventByID db id with
  | error err => exact Or.inl rfl
  | ok event =>
    dsimp only
    by_cases hperm : (event.CreatorID != userID) = true
    · rw [if_pos hperm]; exact Or.inl rfl
    · rw [if_neg hperm]
      split <;> exact Or.inr rfl

theorem deleteRegistration_store (db : Store) (id : Int) (userID : Int) :
    (DeleteRegistration db id userID).2 = db
      ∨ (DeleteRegistration db id userID).2 = deleteRegistrationRows db id := by
  unfold DeleteRegistration
  cases GetRegistrationByID db id with
  | error err => exact Or.inl rfl
  | ok registration =>
    dsimp only
    by_cases hperm : (registration.UserID != userID) = true
    · rw [if_pos hperm]; exact Or.inl rfl
    · rw [if_neg hperm]
      split <;> exact Or.inr rfl

theorem createEvent_registrations (db : Store) (now : Time) (req : EventRequest) (userID : Int) :
    (CreateEvent db now req userID).2.registrations = db.registrations := by
  unfold CreateEvent
  cases req.Validate now with
  | some err => rfl
  | none =>
    dsimp only
    split <;> rfl

theorem register_tables (db : Store) (now : Time) (req : UserRequest) (hashed : String) :
    (Register db now req hashed).2.events = db.events
      ∧ (Register db now req hashed).2.registrations = db.registrations := by
  unfold Register
  cases req.Validate with
  | some err => exact ⟨rfl, rfl⟩
  | none =>
    dsimp only
    split
    · exact ⟨rfl, rfl⟩
    · split <;> exact ⟨rfl, rfl⟩

theorem onePerAccount_step (db : Store) (op : Op) (hop : op.isUpdateRegistration = false)
    (h : OnePerAccount db) : OnePerAccount (step db op) := by
  cases op with
  | register now req hashed =>
    apply onePerAccount_sublist db _ _ h
    intro r hr
    simp only [step, (register_tables db now req hashed).2] at hr
    exact hr
  | createEvent now req userID =>
    apply onePerAccount_sublist db _ _ h
    intro r hr
    simp only [step, createEvent_registrations] at hr
    exact hr
  | updateEvent now id req userID =>
    apply onePerAccount_sublist db _ _ h
    intro r hr
    simp only [step] at hr
    rcases updateEvent_store db now id req userID with hs | hs <;> rw [hs] at hr <;> exact hr
  | deleteEvent foreignKeys id userID =>
    apply onePerAccount_sublist db _ _ h
    intro r hr
    simp only [step] at hr
    rcases deleteEvent_store foreignKeys db id userID with hs | hs <;> rw [hs] at hr
    · exact hr
    · exact registrations_deleteEventRows foreignKeys db id r hr
  | deleteExpiredEvents foreignKeys now =>
    apply onePerAccount_sublist db _ _ h
    intro r hr
    simp only [step, DeleteExpiredEvents, DeleteExpiredEventsWith] at hr
    split at hr
    · exact hr
    · exact registrations_sweep _ _ _ db r hr
  | createRegistration now req userID => exact onePerAccount_createRegistration db now req userID h
  | updateRegistration id req userID => cases hop
  | deleteRegistration id userID =>
    apply onePerAccount_sublist db _ _ h
    intro r hr
    simp only [step] at hr
    rcases deleteRegistration_store db id userID with hs | hs <;> rw [hs] at hr
    · exact hr
    · simp only [deleteRegistrationRows, List.mem_filter] at hr
      exact hr.1

/-- Every call other than `UpdateRegistration` keeps the uniqueness invariant: from the
empty store, sequences without `UpdateRegistration` never store two registrations of
one account for one event. -/
theorem one_per_account_without_update (ops : List Op) (db : Store)
    (hops : ∀ op ∈ ops, op.isUpdateRegistration = false) (h : OnePerAccount db) :
    OnePerAccount (run db ops) := by
  induction ops generalizing db with
  | nil => exact h
  | cons op rest ih =>
    unfold run
    simp only [List.foldl_cons]
    exact ih (step db op) (fun o ho => hops o (List.mem_cons_of_mem _ ho))
      (onePerAccount_step db op (hops op (List.mem_cons_self _ _)) h)

/-! ## `UpdateEvent` and `DeleteEvent` -/

/-- C7: for an existing event owned by the caller and a request that passes `Validate`
but whose seats are fewer than the event's registration count, `UpdateEvent` fails with
"cannot reduce seats below the number of existing registrations" and the store, hence
the stored event with its seats and every other field, is unchanged. -/
theorem updateEvent_below_registrations (db : Store) (now : Time) (id : Int)
    (req : EventRequest) (userID : Int) (event : Event)
    (hvalid : req.Validate now = none)
    (hevent : GetEventByID db id = .ok event)
    (howner : event.CreatorID = userID)
    (hless : req.Seats < countRegistrations db id) :
    (UpdateEvent db now id req userID).1
        = some (.msg "cannot reduce seats below the number of existing registrations")
      ∧ (UpdateEvent db now id req userID).2 = db
      ∧ GetEventByID (UpdateEvent db now id req userID).2 id = .ok event := by
  have h : UpdateEvent db now id req userID
      = (some (.msg "cannot reduce seats below the number of existing registrations"), db) := by
    simp [UpdateEvent, hvalid, hevent, howner, hless]
  rw [h]
  exact ⟨rfl, rfl, hevent⟩

/-- Witness of C7: event 1 of `twoBookedStore` has two registrations, and its creator
asks for a single seat. -/
theorem updateEvent_below_registrations_witness :
    (UpdateEvent twoBookedStore newYearMorning 1 (talkRequest oneHourLater 1) 1).1
        = some (.msg "cannot reduce seats below the number of existing registrations")
      ∧ (UpdateEvent twoBookedStore newYearMorning 1 (talkRequest oneHourLater 1) 1).2
        = twoBookedStore
      ∧ GetEventByID (UpdateEvent twoBookedStore newYearMorning 1 (talkRequest oneHourLater 1) 1).2 1
        = .ok (scanEvent
            { id := 1, title := "talk", description := some "", location := some "",
              event_type := "meetup", event_date := "2026-01-01T07:00:00Z", seats := 5,
              creator_id := some 1, created_at := "2026-01-01 06:00:00" }) :=
  updateEvent_below_registrations twoBookedStore newYearMorning 1 (talkRequest oneHourLater 1) 1 _
    (by decide) (by decide) (by decide) (by decide)

/-- On every connection, whatever its `foreign_keys` setting, `DeleteEvent` on an existing
event owned by the caller succeeds and the event is absent afterwards. -/
theorem deleteEvent_removes_event (foreignKeys : Bool) (db : Store) (id : Int) (userID : Int)
    (event : Event)
    (hevent : GetEventByID db id = .ok event)
    (howner : event.CreatorID = userID) :
    DeleteEvent foreignKeys db id userID = (none, deleteEventRows foreignKeys db id)
      ∧ GetEventByID (DeleteEvent foreignKeys db id userID).2 id = .error .noRows := by
  obtain ⟨e, _, _, hmem, hid⟩ := getEventByID_ok db id event hevent
  have hpos : 0 < db.events.countP (fun e => e.id == id) := by
    rw [List.countP_pos_iff]
    exact ⟨e, hmem, by simp [hid]⟩
  have hne : db.events.countP (fun e => e.id == id) ≠ 0 := by omega
  have h : DeleteEvent foreignKeys db id userID = (none, deleteEventRows foreignKeys db id) := by
    simp [DeleteEvent, hevent, howner, hne]
  rw [h]
  refine ⟨rfl, ?_⟩
  unfold GetEventByID deleteEventRows
  have : (db.events.filter (fun e => e.id != id)).find? (fun r => r.id == id) = none := by
    rw [List.find?_eq_none]
    intro x hx
    rw [List.mem_filter] at hx
    simpa using hx.2
  simp only [this]

/-- The cascade where it is in force: on a connection on which `PRAGMA foreign_keys = ON`
was run, `DeleteEvent` on an existing event owned by the caller succeeds, the event is
absent afterwards and `GetAllRegistrations` filtered to its id returns the empty
sequence. -/
theorem deleteEvent_cascade (db : Store) (id : Int) (userID : Int) (event : Event)
    (hevent : GetEventByID db id = .ok event)
    (howner : event.CreatorID = userID) :
    (DeleteEvent true db id userID).1 = none
      ∧ GetEventByID (DeleteEvent true db id userID).2 id = .error .noRows
      ∧ GetAllRegistrations (DeleteEvent true db id userID).2 (some id) = [] := by
  have h := deleteEvent_removes_event true db id userID event hevent howner
  refine ⟨by rw [h.1], h.2, ?_⟩
  rw [h.1]
  unfold GetAllRegistrations deleteEventRows
  have : (db.registrations.filter (fun r => r.event_id != id)).filter
      (fun r => r.event_id == id) = [] := by
    rw [List.filter_eq_nil_iff]
    intro r hr
    rw [List.mem_filter] at hr
    simpa using hr.2
  simp only [if_true, this]
  rfl

/-- The cascade in force, on an example: account 1 deletes its event 1 of
`twoBookedStore`, which has two registrations, on a connection with the pragma. -/
theorem deleteEvent_cascade_example :
    (DeleteEvent true twoBookedStore 1 1).1 = none
      ∧ GetEventByID (DeleteEvent true twoBookedStore 1 1).2 1 = .error .noRows
      ∧ GetAllRegistrations (DeleteEvent true twoBookedStore 1 1).2 (some 1) = [] :=
  deleteEvent_cascade twoBookedStore 1 1
    (scanEvent
      { id := 1, title := "talk", description := some "", location := some "",
        event_type := "meetup", event_date := "2026-01-01T07:00:00Z", seats := 5,
        creator_id := some 1, created_at := "2026-01-01 06:00:00" })
    (by decide) (by decide)

/-- Without the pragma nothing cascades: on a connection on which
`PRAGMA foreign_keys = ON` was not run, a successful `DeleteEvent` leaves the
`registrations` table as it was, so `GetAllRegistrations` filtered to the deleted id
returns what it returned before the delete. -/
theorem deleteEvent_without_pragma (db : Store) (id : Int) (userID : Int) (event : Event)
    (hevent : GetEventByID db id = .ok event)
    (howner : event.CreatorID = userID) :
    (DeleteEvent false db id userID).1 = none
      ∧ GetEventByID (DeleteEvent false db id userID).2 id = .error .noRows
      ∧ (DeleteEvent false db id userID).2.registrations = db.registrations
      ∧ GetAllRegistrations (DeleteEvent false db id userID).2 (some id)
          = GetAllRegistrations db (some id) := by
  have h := deleteEvent_removes_event false db id userID event hevent howner
  refine ⟨by rw [h.1], h.2, by rw [h.1]; rfl, ?_⟩
  rw [h.1]
  rfl

/-- C8, the code at the failing input: account 1 deletes its event 1 of `twoBookedStore`,
which has the registrations 1 and 2, and the delete is served by a connection of the
pool on which `PRAGMA foreign_keys = ON` was not run. `DeleteEvent` returns nil and the
event is absent, but nothing cascades: `GetAllRegistrations` filtered to event 1 still
returns both registrations. -/
theorem deleteEvent_leaves_registrations :
    (DeleteEvent false twoBookedStore 1 1).1 = none
      ∧ GetEventByID (DeleteEvent false twoBookedStore 1 1).2 1 = .error .noRows
      ∧ (GetAllRegistrations (DeleteEvent false twoBookedStore 1 1).2 (some 1)).map
          (fun r => (r.ID, r.EventID, r.UserID)) = [(1, 1, 1), (2, 1, 2)]
      ∧ (GetAllRegistrations (DeleteEvent true twoBookedStore 1 1).2 (some 1)) = [] := by
  refine ⟨by decide, by decide, by decide, by decide⟩

/-! ## The expiry sweep: `DeleteExpiredEvents` -/

/-- C9, the code at the failing input: event 1 of `offsetEventStore` is stored as
`2026-01-01T10:00:00+05:00`, the instant 05:00 UTC. At 06:00 UTC the sweep compares that
text with `2026-01-01T06:00:00Z`, does not select the event and deletes nothing,
although the event's scheduled instant is strictly before the current time. -/
theorem sweep_misses_other_offset (foreignKeys : Int → Bool) :
    offsetEventStore.events.map (fun e => e.event_date) = ["2026-01-01T10:00:00+05:00"]
      ∧ formatRFC3339 newYearMorning = "2026-01-01T06:00:00Z"
      ∧ selectExpired offsetEventStore newYearMorning = []
      ∧ DeleteExpiredEvents foreignKeys offsetEventStore newYearMorning
          = (none, offsetEventStore)
      ∧ (∃ e ∈ (DeleteExpiredEvents foreignKeys offsetEventStore newYearMorning).2.events,
          ∃ d, parseRFC3339 e.event_date = some d ∧ d.Before newYearMorning = true) := by
  have hsel : selectExpired offsetEventStore newYearMorning = [] := by decide
  have h : DeleteExpiredEvents foreignKeys offsetEventStore newYearMorning
      = (none, offsetEventStore) := by
    unfold DeleteExpiredEvents DeleteExpiredEventsWith
    rw [hsel]
    rfl
  refine ⟨by decide, by decide, hsel, h, ?_⟩
  rw [h]
  exact ⟨_, List.mem_singleton.mpr rfl, tenOClockPlusFive, by decide, by decide⟩

/-- The sweep also misses an event of the running second: event 1 of `sharpEventStore`
is scheduled at 06:00:00 UTC, and half a second later the current time formats to the
same text, so the event is not selected although it is strictly in the past. -/
theorem sweep_misses_running_second (foreignKeys : Int → Bool) :
    formatRFC3339 newYearMorningAndAHalf = "2026-01-01T06:00:00Z"
      ∧ DeleteExpiredEvents foreignKeys sharpEventStore newYearMorningAndAHalf
          = (none, sharpEventStore)
      ∧ (∃ e ∈ sharpEventStore.events,
          ∃ d, parseRFC3339 e.event_date = some d ∧ d.Before newYearMorningAndAHalf = true) := by
  have hsel : selectExpired sharpEventStore newYearMorningAndAHalf = [] := by decide
  refine ⟨by decide, ?_, ?_⟩
  · unfold DeleteExpiredEvents DeleteExpiredEventsWith
    rw [hsel]
    rfl
  · exact ⟨_, List.mem_singleton.mpr rfl, newYearMorning, by decide, by decide⟩

theorem mem_confirmExpired (rows : List EventRow) (now : Time) (id : Int) :
    id ∈ confirmExpired rows now ↔
      ∃ e ∈ rows, ∃ d, parseRFC3339 e.event_date = some d ∧ d.Before now = true ∧ e.id = id := by
  unfold confirmExpired
  rw [List.mem_filterMap]
  constructor
  · rintro ⟨e, he, h⟩
    cases hp : parseRFC3339 e.event_date with
    | none => rw [hp] at h; cases h
    | some d =>
      rw [hp] at h
      dsimp only at h
      by_cases hb : d.Before now = true
      · rw [if_pos hb] at h
        exact ⟨e, he, d, hp, hb, by simpa using h⟩
      · rw [if_neg hb] at h
        cases h
  · rintro ⟨e, he, d, hp, hb, hid⟩
    refine ⟨e, he, ?_⟩
    rw [hp]
    dsimp only
    rw [if_pos hb, hid]

theorem deleteEventRows_keeps (foreignKeys : Bool) (db : Store) (id : Int) (e : EventRow)
    (hne : e.id ≠ id) (he : e ∈ db.events) :
    e ∈ (deleteEventRows foreignKeys db id).events
      ∧ (deleteEventRows foreignKeys db id).registrations.filter (fun r => r.event_id == e.id)
        = db.registrations.filter (fun r => r.event_id == e.id) := by
  constructor
  · simp only [deleteEventRows, List.mem_filter]
    exact ⟨he, by simpa using hne⟩
  · cases foreignKeys
    · rfl
    · simp only [deleteEventRows, if_true, List.filter_filter]
      apply List.filter_congr
      intro r _
      by_cases hr : r.event_id = e.id
      · simp [hr, hne]
      · simp [hr]

theorem sweep_fold_keeps (foreignKeys : Int → Bool) (deleteFails : Int → Bool)
    (ids : List Int) (db : Store) (e : EventRow)
    (hnot : e.id ∉ ids) (he : e ∈ db.events) :
    e ∈ (ids.foldl
        (fun s id => if deleteFails id then s else deleteEventRows (foreignKeys id) s id)
        db).events
      ∧ (ids.foldl
          (fun s id => if deleteFails id then s else deleteEventRows (foreignKeys id) s id)
          db).registrations.filter (fun r => r.event_id == e.id)
        = db.registrations.filter (fun r => r.event_id == e.id) := by
  induction ids generalizing db with
  | nil => exact ⟨he, rfl⟩
  | cons a t ih =>
    simp only [List.foldl_cons]
    have hne : e.id ≠ a := fun h => hnot (by rw [h]; exact List.mem_cons_self _ _)
    have hnt : e.id ∉ t := fun h => hnot (List.mem_cons_of_mem _ h)
    cases hf : deleteFails a
    · have hk := deleteEventRows_keeps (foreignKeys a) db a e hne he
      have := ih (deleteEventRows (foreignKeys a) db a) hnt hk.1
      simp only [Bool.false_eq_true, if_false]
      exact ⟨this.1, this.2.trans hk.2⟩
    · simp only [if_true]
      exact ih db hnt he

theorem sweep_fold_drops (foreignKeys : Int → Bool) (deleteFails : Int → Bool) (id : Int)
    (hok : deleteFails id = false) (ids : List Int) :
    ∀ s : Store, id ∈ ids ∨ (∀ e ∈ s.events, e.id ≠ id) →
      ∀ e ∈ (ids.foldl
          (fun s id => if deleteFails id then s else deleteEventRows (foreignKeys id) s id)
          s).events, e.id ≠ id := by
  induction ids with
  | nil =>
    intro s h
    rcases h with h | h
    · cases h
    · exact h
  | cons a t ih =>
    intro s h
    simp only [List.foldl_cons]
    apply ih
    by_cases ha : a = id
    · right
      subst ha
      rw [hok]
      simp only [Bool.false_eq_true, if_false]
      intro e he
      simp only [deleteEventRows, List.mem_filter] at he
      simpa using he.2
    · rcases h with h | h
      · left
        rcases List.mem_cons.mp h with h | h
        · exact absurd h.symm ha
        · exact h
      · right
        cases deleteFails a
        · simp only [Bool.false_eq_true, if_false]
          intro e he
          simp only [deleteEventRows, List.mem_filter] at he
          exact h e he.1
        · simpa using h

theorem sweep_fold_events_any_connection (foreignKeys1 foreignKeys2 : Int → Bool)
    (deleteFails : Int → Bool) (ids : List Int) :
    ∀ s1 s2 : Store, s1.events = s2.events →
      (ids.foldl
        (fun s id => if deleteFails id then s else deleteEventRows (foreignKeys1 id) s id)
        s1).events
      = (ids.foldl
        (fun s id => if deleteFails id then s else deleteEventRows (foreignKeys2 id) s id)
        s2).events := by
  induction ids with
  | nil => exact fun _ _ h => h
  | cons a t ih =>
    intro s1 s2 h
    simp only [List.foldl_cons]
    apply ih
    cases deleteFails a
    · simp only [Bool.false_eq_true, if_false, deleteEventRows, h]
    · simpa using h

/-- The events left by the sweep do not depend on the connections serving its deletes. -/
theorem sweep_events_any_connection (foreignKeys1 foreignKeys2 : Int → Bool)
    (deleteFails : Int → Bool) (db : Store) (now : Time) :
    (DeleteExpiredEventsWith foreignKeys1 deleteFails db now).2.events
      = (DeleteExpiredEventsWith foreignKeys2 deleteFails db now).2.events := by
  unfold DeleteExpiredEventsWith
  dsimp only
  by_cases hlen : (confirmExpired (selectExpired db now) now).length = 0
  · rw [if_pos hlen, if_pos hlen]
  · rw [if_neg hlen, if_neg hlen]
    exact sweep_fold_events_any_connection foreignKeys1 foreignKeys2 deleteFails _ db db rfl

/-- C10: the sweep never deletes an event whose stored date fails to parse or whose
parsed date is not strictly before the current time: with the primary key of `events`
in force, such an event is still stored after `DeleteExpiredEvents`, whichever deletes
fail and whichever connections serve them (with or without the `foreign_keys` pragma),
and the registrations referring to it are those stored before. -/
theorem sweep_keeps_unexpired (foreignKeys : Int → Bool) (deleteFails : Int → Bool)
    (db : Store) (now : Time) (e : EventRow)
    (hpk : UniqueEventIds db)
    (he : e ∈ db.events)
    (hkeep : ∀ d, parseRFC3339 e.event_date = some d → d.Before now = false) :
    e ∈ (DeleteExpiredEventsWith foreignKeys deleteFails db now).2.events
      ∧ (DeleteExpiredEventsWith foreignKeys deleteFails db now).2.registrations.filter
          (fun r => r.event_id == e.id)
        = db.registrations.filter (fun r => r.event_id == e.id) := by
  have hnot : e.id ∉ confirmExpired (selectExpired db now) now := by
    intro hmem
    rw [mem_confirmExpired] at hmem
    obtain ⟨e2, he2, d, hp, hb, hid⟩ := hmem
    have he2mem : e2 ∈ db.events := by
      unfold selectExpired at he2
      exact (List.mem_filter.mp he2).1
    have : e2 = e := eq_of_same_id db hpk e2 e he2mem he hid
    subst this
    rw [hkeep d hp] at hb
    cases hb
  unfold DeleteExpiredEventsWith
  dsimp only
  split
  · exact ⟨he, rfl⟩
  · exact sweep_fold_keeps foreignKeys deleteFails _ db e hnot he

/-- Witness of C10: in `sweepScenarioStore`, swept at `oneHourLater`, event 2 is
scheduled an hour later; it and the registration of account 2 are kept. -/
theorem sweep_keeps_unexpired_witness :
    laterEventRow ∈
        (DeleteExpiredEventsWith pragmaOn (fun _ => false) sweepScenarioStore
          oneHourLater).2.events
      ∧ (DeleteExpiredEventsWith pragmaOn (fun _ => false) sweepScenarioStore
            oneHourLater).2.registrations.filter (fun r => r.event_id == laterEventRow.id)
        = sweepScenarioStore.registrations.filter (fun r => r.event_id == laterEventRow.id) :=
  sweep_keeps_unexpired pragmaOn (fun _ => false) sweepScenarioStore oneHourLater laterEventRow
    (by unfold UniqueEventIds; decide) (by decide)
    (by
      intro d hd
      have hp : parseRFC3339 laterEventRow.event_date = some twoHoursLater := by decide
      rw [hp] at hd
      cases hd
      decide)

/-- The scenario of the specification, served by connections with the pragma: swept at
`oneHourLater`, `sweepScenarioStore` loses exactly event 1 (scheduled a second earlier)
with its registration and keeps event 2 (scheduled an hour later) with its
registration. -/
theorem sweep_scenario :
    (DeleteExpiredEvents pragmaOn sweepScenarioStore oneHourLater).1 = none
      ∧ (DeleteExpiredEvents pragmaOn sweepScenarioStore oneHourLater).2.events
          = [laterEventRow]
      ∧ (DeleteExpiredEvents pragmaOn sweepScenarioStore oneHourLater).2.registrations.map
          (fun r => (r.id, r.event_id, r.user_id)) = [(2, 2, some 2)] := by
  refine ⟨by decide, by decide, by decide⟩

/-- The same scenario served by a connection without the pragma: event 1 is removed
and its registration stays behind. -/
theorem sweep_scenario_without_pragma :
    (DeleteExpiredEvents pragmaOff sweepScenarioStore oneHourLater).1 = none
      ∧ (DeleteExpiredEvents pragmaOff sweepScenarioStore oneHourLater).2.events
          = [laterEventRow]
      ∧ (DeleteExpiredEvents pragmaOff sweepScenarioStore oneHourLater).2.registrations.map
          (fun r => (r.id, r.event_id, r.user_id)) = [(1, 1, some 1), (2, 2, some 2)] := by
  refine ⟨by decide, by decide, by decide⟩

/-- What the sweep does remove: an event whose stored date text sorts before the
current time written as RFC 3339 text, parses, and is before the current time, is
absent after a sweep in which no delete fails, on whatever connections the deletes are
served; where the delete of that event is served with the pragma in force, so are its
registrations. -/
theorem sweep_removes_selected (foreignKeys : Int → Bool) (db : Store) (now : Time)
    (e : EventRow) (d : Time)
    (he : e ∈ db.events)
    (htext : textLt e.event_date (formatRFC3339 now) = true)
    (hparse : parseRFC3339 e.event_date = some d)
    (hpast : d.Before now = true) :
    (∀ e2 ∈ (DeleteExpiredEvents foreignKeys db now).2.events, e2.id ≠ e.id)
      ∧ (foreignKeys e.id = true →
          ∀ r ∈ (DeleteExpiredEvents foreignKeys db now).2.registrations, r.event_id ≠ e.id) := by
  have hmem : e.id ∈ confirmExpired (selectExpired db now) now := by
    rw [mem_confirmExpired]
    refine ⟨e, ?_, d, hparse, hpast, rfl⟩
    unfold selectExpired
    exact List.mem_filter.mpr ⟨he, htext⟩
  have hfold : ∀ (ids : List Int) (s : Store), e.id ∈ ids ∨
      ((∀ e2 ∈ s.events, e2.id ≠ e.id)
        ∧ (foreignKeys e.id = true → ∀ r ∈ s.registrations, r.event_id ≠ e.id)) →
      (∀ e2 ∈ (ids.foldl (fun s id => if (fun _ => false) id = true then s
          else deleteEventRows (foreignKeys id) s id) s).events, e2.id ≠ e.id)
        ∧ (foreignKeys e.id = true →
          ∀ r ∈ (ids.foldl (fun s id => if (fun _ => false) id = true then s
          else deleteEventRows (foreignKeys id) s id) s).registrations, r.event_id ≠ e.id) := by
    intro ids
    induction ids with
    | nil =>
      intro s h
      rcases h with h | h
      · cases h
      · exact h
    | cons a t ih =>
      intro s h
      simp only [List.foldl_cons, Bool.false_eq_true, if_false]
      apply ih
      by_cases ha : a = e.id
      · right
        subst ha
        constructor
        · intro e2 he2
          simp only [deleteEventRows, List.mem_filter] at he2
          simpa using he2.2
        · intro hfk r hr
          simp only [deleteEventRows, hfk, if_true, List.mem_filter] at hr
          simpa using hr.2
      · rcases h with h | h
        · left
          rcases List.mem_cons.mp h with h | h
          · exact absurd h.symm ha
          · exact h
        · right
          constructor
          · intro e2 he2
            simp only [deleteEventRows, List.mem_filter] at he2
            exact h.1 e2 he2.1
          · intro hfk r hr
            exact h.2 hfk r (registrations_deleteEventRows (foreignKeys a) s a r hr)
  unfold DeleteExpiredEvents DeleteExpiredEventsWith
  dsimp only
  split
  · rename_i hlen
    rw [List.length_eq_zero] at hlen
    rw [hlen] at hmem
    cases hmem
  · exact hfold _ db (Or.inl hmem)

/-! ## `EventRequest.Validate` and `CreateEvent` -/

/-- C11: `EventRequest.Validate` returns no error exactly when the title is non-empty,
the event type is non-empty, the seats are positive and the scheduled date is not more
than 24 hours before the current time (a date exactly 24 hours before it is accepted);
and when `Validate` returns an error, `CreateEvent` returns that error and the store is
the store before the call. -/
theorem eventRequest_validate_iff (db : Store) (now : Time) (req : EventRequest)
    (userID : Int) :
    (req.Validate now = none ↔
        (req.Title ≠ "" ∧ req.EventType ≠ "" ∧ 0 < req.Seats
          ∧ now.unixNano - 24 * hour ≤ req.EventDate.unixNano))
      ∧ (req.EventDate.unixNano = now.unixNano - 24 * hour →
          req.EventDate.Before (now.Add (-24 * hour)) = false)
      ∧ (∀ err, req.Validate now = some err →
          CreateEvent db now req userID = (.error err, db)) := by
  have hb : req.EventDate.Before (now.Add (-24 * hour)) = true ↔
      req.EventDate.unixNano < now.unixNano - 24 * hour := by
    unfold Time.Before Time.Add
    simp only [decide_eq_true_eq]
    constructor <;> intro h <;> omega
  refine ⟨?_, ?_, ?_⟩
  · unfold EventRequest.Validate
    by_cases h1 : req.Title = ""
    · rw [if_pos h1]
      exact ⟨fun h => (by cases h), fun h => absurd h1 h.1⟩
    · rw [if_neg h1]
      by_cases h2 : req.EventType = ""
      · rw [if_pos h2]
        exact ⟨fun h => (by cases h), fun h => absurd h2 h.2.1⟩
      · rw [if_neg h2]
        by_cases h3 : req.EventDate.Before (now.Add (-24 * hour)) = true
        · rw [if_pos h3]
          have := hb.mp h3
          exact ⟨fun h => (by cases h), fun h => (by omega)⟩
        · rw [if_neg h3]
          have h3' : ¬ (req.EventDate.unixNano < now.unixNano - 24 * hour) :=
            fun h => h3 (hb.mpr h)
          by_cases h4 : req.Seats ≤ 0
          · rw [if_pos h4]
            exact ⟨fun h => (by cases h), fun h => (by omega)⟩
          · rw [if_neg h4]
            exact ⟨fun _ => ⟨h1, h2, by omega, by omega⟩, fun _ => rfl⟩
  · intro h
    unfold Time.Before Time.Add
    simp only [decide_eq_false_iff_not]
    omega
  · intro err herr
    unfold CreateEvent
    rw [herr]

/-! ## Available seats as reported by the handlers -/

theorem wrapInt64_eq (x : Int) (h1 : -2 ^ 63 ≤ x) (h2 : x < 2 ^ 63) : wrapInt64 x = x := by
  unfold wrapInt64
  omega

theorem find_of_mem_unique (db : Store) (hpk : UniqueEventIds db) (e : EventRow)
    (he : e ∈ db.events) : db.events.find? (fun r => r.id == e.id) = some e := by
  cases hf : db.events.find? (fun r => r.id == e.id) with
  | none =>
    rw [List.find?_eq_none] at hf
    exact absurd (by simp) (hf e he)
  | some e2 =>
    have hmem : e2 ∈ db.events := List.mem_of_find?_eq_some hf
    have hid : e2.id = e.id := by simpa using List.find?_some hf
    rw [eq_of_same_id db hpk e2 e hmem he hid]

theorem createRegistration_events (db : Store) (now : Time) (req : RegistrationRequest)
    (userID : Option Int) :
    (CreateRegistration db now req userID).2.events = db.events := by
  rw [createRegistration_eq_spec]
  cases firstFailure (specChecks db now req userID) with
  | some err => rfl
  | none =>
    dsimp only
    unfold insertRegistration
    split <;> rfl

theorem events_run_registrations (ops : List Op) (db : Store)
    (hops : ∀ op ∈ ops, op.isRegistrationCreateOrDelete = true) :
    (run db ops).events = db.events := by
  induction ops generalizing db with
  | nil => rfl
  | cons op rest ih =>
    unfold run
    simp only [List.foldl_cons]
    have hrest := ih (step db op) (fun o ho => hops o (List.mem_cons_of_mem _ ho))
    unfold run at hrest
    rw [hrest]
    have hop := hops op (List.mem_cons_self _ _)
    cases op with
    | createRegistration now req userID => exact createRegistration_events db now req userID
    | deleteRegistration id userID =>
      simp only [step]
      rcases deleteRegistration_store db id userID with hs | hs <;> rw [hs]
      rfl
    | register now req hashed => cases hop
    | createEvent now req userID => cases hop
    | updateEvent now id req userID => cases hop
    | deleteEvent foreignKeys id userID => cases hop
    | deleteExpiredEvents foreignKeys now => cases hop
    | updateRegistration id req userID => cases hop

theorem countRegistrations_le_length (db : Store) (id : Int) :
    countRegistrations db id ≤ ((db.registrations.length : Nat) : Int) := by
  unfold countRegistrations
  exact_mod_cast List.countP_le_length _

theorem countRegistrations_nonneg (db : Store) (id : Int) : 0 ≤ countRegistrations db id := by
  unfold countRegistrations
  exact Int.natCast_nonneg _

theorem events_sweep (foreignKeys : Int → Bool) (deleteFails : Int → Bool) (ids : List Int)
    (db : Store) :
    ∀ e ∈ (ids.foldl
      (fun s id => if deleteFails id then s else deleteEventRows (foreignKeys id) s id)
      db).events, e ∈ db.events := by
  induction ids generalizing db with
  | nil => exact fun e he => he
  | cons a t ih =>
    intro e he
    simp only [List.foldl_cons] at he
    have h1 := ih _ e he
    cases hf : deleteFails a
    · rw [hf] at h1
      simp only [Bool.false_eq_true, if_false, deleteEventRows, List.mem_filter] at h1
      exact h1.1
    · rw [hf] at h1
      simpa using h1

theorem length_sweep (foreignKeys : Int → Bool) (deleteFails : Int → Bool) (ids : List Int)
    (db : Store) :
    (ids.foldl (fun s id => if deleteFails id then s else deleteEventRows (foreignKeys id) s id)
      db).registrations.length ≤ db.registrations.length := by
  induction ids generalizing db with
  | nil => exact Nat.le_refl _
  | cons a t ih =>
    simp only [List.foldl_cons]
    refine Nat.le_trans (ih _) ?_
    cases deleteFails a
    · simp only [Bool.false_eq_true, if_false]
      exact (deleteEventRows_registrations_sublist (foreignKeys a) db a).length_le
    · simp

theorem seatsFit_deleteExpired (foreignKeys : Int → Bool) (db : Store) (now : Time)
    (h : SeatsFitInt64 db) :
    SeatsFitInt64 (DeleteExpiredEvents foreignKeys db now).2 := by
  unfold DeleteExpiredEvents DeleteExpiredEventsWith
  dsimp only
  split
  · exact h
  · refine ⟨fun e he => h.1 e (events_sweep _ _ _ db e he), ?_⟩
    have hl := length_sweep foreignKeys (fun _ => false)
      (confirmExpired (selectExpired db now) now) db
    have := h.2
    exact lt_of_le_of_lt (Int.ofNat_le.mpr hl) this

theorem sweep_listed (foreignKeys : Int → Bool) (db : Store) (now : Time) (e : EventRow)
    (he : e ∈ (DeleteExpiredEvents foreignKeys db now).2.events) :
    e ∈ db.events
      ∧ countRegistrations (DeleteExpiredEvents foreignKeys db now).2 e.id
        = countRegistrations db e.id := by
  unfold DeleteExpiredEvents DeleteExpiredEventsWith at he ⊢
  dsimp only at he ⊢
  by_cases hlen : (confirmExpired (selectExpired db now) now).length = 0
  · rw [if_pos hlen] at he ⊢
    exact ⟨he, rfl⟩
  · rw [if_neg hlen] at he ⊢
    have hm : e ∈ db.events := events_sweep _ _ _ db e he
    have hnot : e.id ∉ confirmExpired (selectExpired db now) now := fun hin =>
      sweep_fold_drops foreignKeys (fun _ => false) e.id rfl _ db (Or.inl hin) e he rfl
    have hk := sweep_fold_keeps foreignKeys (fun _ => false) _ db e hnot hm
    refine ⟨hm, ?_⟩
    unfold countRegistrations
    rw [List.countP_eq_length_filter, List.countP_eq_length_filter, hk.2]

theorem sweep_lists_unexpired (foreignKeys : Int → Bool) (db : Store) (now : Time)
    (e : EventRow) (hpk : UniqueEventIds db) (he : e ∈ db.events)
    (hkeep : ∀ d, parseRFC3339 e.event_date = some d → d.Before now = false) :
    e ∈ (DeleteExpiredEvents foreignKeys db now).2.events := by
  have hnot : e.id ∉ confirmExpired (selectExpired db now) now := by
    intro hmem
    rw [mem_confirmExpired] at hmem
    obtain ⟨e2, he2, d, hp, hb, hid⟩ := hmem
    have he2mem : e2 ∈ db.events := by
      unfold selectExpired at he2
      exact (List.mem_filter.mp he2).1
    have : e2 = e := eq_of_same_id db hpk e2 e he2mem he hid
    subst this
    rw [hkeep d hp] at hb
    cases hb
  unfold DeleteExpiredEvents DeleteExpiredEventsWith
  dsimp only
  split
  · exact he
  · exact (sweep_fold_keeps foreignKeys _ _ db e hnot he).1

theorem getEvents_views (foreignKeys : Int → Bool) (db : Store) (now : Time) :
    (Controllers.GetEvents foreignKeys db now).1
        = .json 200 ((orderByEventDate (DeleteExpiredEvents foreignKeys db now).2.events).map
            (fun row => eventView (scanEvent row)
              (countRegistrations (DeleteExpiredEvents foreignKeys db now).2 row.id)))
      ∧ (Controllers.GetEvents foreignKeys db now).2
        = (DeleteExpiredEvents foreignKeys db now).2 := by
  refine ⟨?_, rfl⟩
  unfold Controllers.GetEvents GetAllEvents GetRegistrationsCountForEvent
  simp only [List.map_map]
  rfl

theorem eventView_available (db : Store) (h : SeatsFitInt64 db) (e : EventRow)
    (he : e ∈ db.events) :
    (eventView (scanEvent e) (countRegistrations db e.id)).available_seats
        = e.seats - countRegistrations db e.id
      ∧ (eventView (scanEvent e) (countRegistrations db e.id)).seats = e.seats
      ∧ (eventView (scanEvent e) (countRegistrations db e.id)).id = e.id := by
  have hs := h.1 e he
  have hc := countRegistrations_le_length db e.id
  have h0 := countRegistrations_nonneg db e.id
  have hl := h.2
  refine ⟨?_, rfl, rfl⟩
  show wrapInt64 (e.seats - countRegistrations db e.id) = _
  apply wrapInt64_eq <;> omega

/-- C12: after any sequence of `CreateRegistration` and `DeleteRegistration` calls, with
seats and counts that are Go `int` values, the `available_seats` written for an event `E`
by the `GetEvent` handler and the value of `Event.AvailableSeats` at the count just read
equal the event's seats minus the number of registrations stored with its id at that
read. The `GetEvents` handler, on whatever connections its sweep is served, replies with
one object for each event stored after its sweep and no other, in the order of the
listing, each built from the stored row and the count read for it: its `seats` are the
row's seats and its `available_seats` the row's seats minus the number of registrations
stored with the row's id at that read, which is also the number stored before the
listing. Every object listed under the id of `E` is the one `GetEvent` writes, with
`available_seats` equal to the seats of `E` minus its stored registrations; `E` is
listed whenever it is stored after the sweep, and it is stored after the sweep whenever
its date does not parse or is not before the clock reading. -/
theorem available_seats_live (foreignKeys : Int → Bool) (db : Store) (ops : List Op)
    (e : EventRow) (now : Time)
    (hops : ∀ op ∈ ops, op.isRegistrationCreateOrDelete = true)
    (hpk : UniqueEventIds db)
    (he : e ∈ db.events)
    (hfit : SeatsFitInt64 (run db ops)) :
    Controllers.GetEvent (run db ops) e.id
        = .json 200 (eventView (scanEvent e) (countRegistrations (run db ops) e.id))
      ∧ (eventView (scanEvent e) (countRegistrations (run db ops) e.id)).available_seats
        = e.seats - countRegistrations (run db ops) e.id
      ∧ (scanEvent e).AvailableSeats (GetRegistrationsCountForEvent (run db ops) e.id)
        = e.seats - countRegistrations (run db ops) e.id
      ∧ (∃ views, (Controllers.GetEvents foreignKeys (run db ops) now).1 = .json 200 views
          ∧ views
            = (orderByEventDate
                (Controllers.GetEvents foreignKeys (run db ops) now).2.events).map
              (fun row => eventView (scanEvent row)
                (countRegistrations
                  (Controllers.GetEvents foreignKeys (run db ops) now).2 row.id))
          ∧ (∀ v ∈ views, v.available_seats
              = v.seats
                - countRegistrations (Controllers.GetEvents foreignKeys (run db ops) now).2 v.id)
          ∧ (∀ v ∈ views,
              ∃ row ∈ (Controllers.GetEvents foreignKeys (run db ops) now).2.events,
                row ∈ (run db ops).events
                  ∧ v.id = row.id
                  ∧ v.seats = row.seats
                  ∧ v.available_seats
                    = row.seats
                      - countRegistrations
                          (Controllers.GetEvents foreignKeys (run db ops) now).2 row.id
                  ∧ countRegistrations
                      (Controllers.GetEvents foreignKeys (run db ops) now).2 row.id
                    = countRegistrations (run db ops) row.id)
          ∧ (∀ v ∈ views, v.id = e.id →
              v = eventView (scanEvent e) (countRegistrations (run db ops) e.id)
                ∧ v.seats = e.seats
                ∧ v.available_seats = e.seats - countRegistrations (run db ops) e.id)
          ∧ (e ∈ (Controllers.GetEvents foreignKeys (run db ops) now).2.events →
              eventView (scanEvent e) (countRegistrations (run db ops) e.id) ∈ views)
          ∧ ((∀ d, parseRFC3339 e.event_date = some d → d.Before now = false) →
              e ∈ (Controllers.GetEvents foreignKeys (run db ops) now).2.events)) := by
  have hev := events_run_registrations ops db hops
  have hpk2 : UniqueEventIds (run db ops) := by
    unfold UniqueEventIds
    rw [hev]
    exact hpk
  have he2 : e ∈ (run db ops).events := by rw [hev]; exact he
  have hview := eventView_available (run db ops) hfit e he2
  have hfit2 := seatsFit_deleteExpired foreignKeys (run db ops) now hfit
  have hget := getEvents_views foreignKeys (run db ops) now
  refine ⟨?_, hview.1, hview.1, ?_⟩
  · unfold Controllers.GetEvent GetEventByID GetRegistrationsCountForEvent
    rw [find_of_mem_unique (run db ops) hpk2 e he2]
  · rw [hget.2]
    have hrows : ∀ v ∈ (orderByEventDate
          (DeleteExpiredEvents foreignKeys (run db ops) now).2.events).map
        (fun row => eventView (scanEvent row)
          (countRegistrations (DeleteExpiredEvents foreignKeys (run db ops) now).2 row.id)),
        ∃ row ∈ (DeleteExpiredEvents foreignKeys (run db ops) now).2.events,
          v = eventView (scanEvent row)
            (countRegistrations (DeleteExpiredEvents foreignKeys (run db ops) now).2 row.id) := by
      intro v hv
      rw [List.mem_map] at hv
      obtain ⟨row, hrow, hv⟩ := hv
      refine ⟨row, ?_, hv.symm⟩
      unfold orderByEventDate at hrow
      exact (List.perm_insertionSort _ _).mem_iff.mp hrow
    refine ⟨_, hget.1, rfl, ?_, ?_, ?_, ?_, ?_⟩
    · intro v hv
      obtain ⟨row, hrow, rfl⟩ := hrows v hv
      exact (eventView_available _ hfit2 row hrow).1
    · intro v hv
      obtain ⟨row, hrow, rfl⟩ := hrows v hv
      have hl := sweep_listed foreignKeys (run db ops) now row hrow
      exact ⟨row, hrow, hl.1, rfl, rfl, (eventView_available _ hfit2 row hrow).1, hl.2⟩
    · intro v hv hid
      obtain ⟨row, hrow, rfl⟩ := hrows v hv
      have hl := sweep_listed foreignKeys (run db ops) now row hrow
      have hrow_eq : row = e := eq_of_same_id (run db ops) hpk2 row e hl.1 he2 hid
      subst hrow_eq
      rw [hl.2]
      exact ⟨rfl, rfl, hview.1⟩
    · intro hmem
      have hl := sweep_listed foreignKeys (run db ops) now e hmem
      rw [List.mem_map]
      refine ⟨e, ?_, by rw [hl.2]⟩
      unfold orderByEventDate
      exact (List.perm_insertionSort _ _).mem_iff.mpr hmem
    · intro hkeep
      exact sweep_lists_unexpired foreignKeys (run db ops) now e hpk2 he2 hkeep

/-- Witness of C12: on `oneSeatStore`, after the calls of `seatTradeCalls`, event 1 has
one seat and one registration, and zero seats are reported as available. -/
theorem available_seats_live_witness :
    Controllers.GetEvent (run oneSeatStore seatTradeCalls) singleSeatRow.id
        = .json 200 (eventView (scanEvent singleSeatRow)
            (countRegistrations (run oneSeatStore seatTradeCalls) singleSeatRow.id))
      ∧ (eventView (scanEvent singleSeatRow)
          (countRegistrations (run oneSeatStore seatTradeCalls) singleSeatRow.id)).available_seats
        = singleSeatRow.seats - countRegistrations (run oneSeatStore seatTradeCalls) singleSeatRow.id
      ∧ (scanEvent singleSeatRow).AvailableSeats
          (GetRegistrationsCountForEvent (run oneSeatStore seatTradeCalls) singleSeatRow.id)
        = singleSeatRow.seats - countRegistrations (run oneSeatStore seatTradeCalls) singleSeatRow.id
      ∧ (∃ views,
          (Controllers.GetEvents pragmaOn (run oneSeatStore seatTradeCalls) newYearMorning).1
            = .json 200 views
          ∧ views
            = (orderByEventDate
                (Controllers.GetEvents pragmaOn (run oneSeatStore seatTradeCalls)
                  newYearMorning).2.events).map
              (fun row => eventView (scanEvent row)
                (countRegistrations
                  (Controllers.GetEvents pragmaOn (run oneSeatStore seatTradeCalls)
                    newYearMorning).2 row.id))
          ∧ (∀ v ∈ views, v.available_seats
              = v.seats
                - countRegistrations
                    (Controllers.GetEvents pragmaOn (run oneSeatStore seatTradeCalls)
                      newYearMorning).2 v.id)
          ∧ (∀ v ∈ views,
              ∃ row ∈ (Controllers.GetEvents pragmaOn (run oneSeatStore seatTradeCalls)
                  newYearMorning).2.events,
                row ∈ (run oneSeatStore seatTradeCalls).events
                  ∧ v.id = row.id
                  ∧ v.seats = row.seats
                  ∧ v.available_seats
                    = row.seats
                      - countRegistrations
                          (Controllers.GetEvents pragmaOn (run oneSeatStore seatTradeCalls)
                            newYearMorning).2 row.id
                  ∧ countRegistrations
                      (Controllers.GetEvents pragmaOn (run oneSeatStore seatTradeCalls)
                        newYearMorning).2 row.id
                    = countRegistrations (run oneSeatStore seatTradeCalls) row.id)
          ∧ (∀ v ∈ views, v.id = singleSeatRow.id →
              v = eventView (scanEvent singleSeatRow)
                    (countRegistrations (run oneSeatStore seatTradeCalls) singleSeatRow.id)
                ∧ v.seats = singleSeatRow.seats
                ∧ v.available_seats
                  = singleSeatRow.seats
                    - countRegistrations (run oneSeatStore seatTradeCalls) singleSeatRow.id)
          ∧ (singleSeatRow ∈ (Controllers.GetEvents pragmaOn (run oneSeatStore seatTradeCalls)
                newYearMorning).2.events →
              eventView (scanEvent singleSeatRow)
                (countRegistrations (run oneSeatStore seatTradeCalls) singleSeatRow.id) ∈ views)
          ∧ ((∀ d, parseRFC3339 singleSeatRow.event_date = some d →
                d.Before newYearMorning = false) →
              singleSeatRow ∈ (Controllers.GetEvents pragmaOn (run oneSeatStore seatTradeCalls)
                newYearMorning).2.events)) :=
  available_seats_live pragmaOn oneSeatStore seatTradeCalls singleSeatRow newYearMorning
    (by decide) (by unfold UniqueEventIds; decide) (by decide)
    (by unfold SeatsFitInt64; decide)

/-- The listing of C12 on its example: after the calls of `seatTradeCalls` on
`oneSeatStore`, `GetEvents` at `newYearMorning` lists event 1 with one seat, one
registration and no seat available. -/
theorem available_seats_live_example :
    (Controllers.GetEvents pragmaOn (run oneSeatStore seatTradeCalls) newYearMorning).1
      = .json 200
          [eventView (scanEvent singleSeatRow) 1]
      ∧ (eventView (scanEvent singleSeatRow) 1).seats = 1
      ∧ (eventView (scanEvent singleSeatRow) 1).registrations = 1
      ∧ (eventView (scanEvent singleSeatRow) 1).available_seats = 0 := by
  refine ⟨by decide, by decide, by decide, by decide⟩

/-! ## Filling an event seat by seat -/

/-- The store after an accepted insert of a registration. -/
theorem createRegistration_admitted (db : Store) (now : Time) (req : RegistrationRequest)
    (a : Int) (e : EventRow)
    (hid : 0 < req.EventID)
    (hfind : db.events.find? (fun r => r.id == req.EventID) = some e)
    (hseats : countRegistrations db req.EventID < e.seats)
    (hdate : (scanEvent e).EventDate.Before now = false)
    (hnew : hasRegistration db req.EventID a = false)
    (hknown : userExists db a = true) :
    CreateRegistration db now req (some a)
      = (.ok (nextId db.registrationSeq (db.registrations.map (fun r => r.id))),
          { db with
            registrations := db.registrations ++
              [{ id := nextId db.registrationSeq (db.registrations.map (fun r => r.id))
                 event_id := req.EventID
                 user_id := some a
                 first_name := req.FirstName
                 last_name := req.LastName
                 created_at := formatRFC3339 now }]
            registrationSeq := nextId db.registrationSeq (db.registrations.map (fun r => r.id)) }) := by
  have hany : db.events.any (fun e => e.id == req.EventID) = true := by
    rw [List.any_eq_true]
    exact ⟨e, List.mem_of_find?_eq_some hfind, by simpa using List.find?_some hfind⟩
  have h1 : specEventReferencePresent req = true := by
    unfold specEventReferencePresent
    exact decide_eq_true hid
  have h3 : specSeatsAvailable db req = true := by
    unfold specSeatsAvailable
    rw [hfind]
    exact decide_eq_true (by omega)
  have h4 : specDateNotPast db now req = true := by
    unfold specDateNotPast
    rw [hfind]
    unfold Time.Before at hdate
    have : ¬ ((scanEvent e).EventDate.unixNano < now.unixNano) := by simpa using hdate
    exact decide_eq_true (by omega)
  have h5 : specNotRegistered db req (some a) = true := by
    unfold specNotRegistered
    unfold hasRegistration at hnew
    rw [List.all_eq_true]
    intro r hr
    have := (List.any_eq_false.mp hnew) r hr
    simp only [Bool.not_eq_true, Bool.not_eq_eq_eq_not, Bool.not_true] at this ⊢
    exact this
  rw [createRegistration_eq_spec]
  have hff : firstFailure (specChecks db now req (some a)) = none := by
    unfold firstFailure specChecks specEventExists
    simp [h1, hany, h3, h4, h5]
  rw [hff]
  dsimp only
  have hacc : accountKnown db (some a) = true := hknown
  unfold insertRegistration eventExists
  rw [hany, hacc]
  rfl

theorem registerEach_fills (e : EventRow) (eid : Int) (hid : 0 < eid) (calls : List JoinCall) :
    ∀ db : Store,
      db.events.find? (fun r => r.id == eid) = some e →
      countRegistrations db eid + ((calls.length : Nat) : Int) = e.seats →
      (∀ c ∈ calls, c.req.EventID = eid ∧ (scanEvent e).EventDate.Before c.now = false
          ∧ userExists db c.account = true ∧ hasRegistration db eid c.account = false) →
      (calls.map (fun c => c.account)).Nodup →
      (∀ r ∈ (registerEach db calls).1, ∃ id, r = .ok id)
        ∧ (registerEach db calls).1.length = calls.length
        ∧ (registerEach db calls).2.events.find? (fun r => r.id == eid) = some e
        ∧ countRegistrations (registerEach db calls).2 eid = e.seats := by
  induction calls with
  | nil =>
    intro db hfind hcount _ _
    simp only [registerEach]
    refine ⟨by simp, rfl, hfind, ?_⟩
    simpa using hcount
  | cons c rest ih =>
    intro db hfind hcount hcalls hnodup
    obtain ⟨htarget, hfuture, hknown, hnew⟩ := hcalls c (List.mem_cons_self _ _)
    have hlen : (((c :: rest).length : Nat) : Int) = ((rest.length : Nat) : Int) + 1 := by
      simp
    have hadm := createRegistration_admitted db c.now c.req c.account e
      (by rw [htarget]; exact hid) (by rw [htarget]; exact hfind)
      (by rw [htarget]; have := Int.natCast_nonneg rest.length; omega) hfuture
      (by rw [htarget]; exact hnew) hknown
    simp only [registerEach]
    rw [hadm]
    dsimp only
    simp only [List.map_cons, List.nodup_cons] at hnodup
    have hstep := ih
      { db with
        registrations := db.registrations ++
          [{ id := nextId db.registrationSeq (db.registrations.map (fun r => r.id))
             event_id := c.req.EventID
             user_id := some c.account
             first_name := c.req.FirstName
             last_name := c.req.LastName
             created_at := formatRFC3339 c.now }]
        registrationSeq := nextId db.registrationSeq (db.registrations.map (fun r => r.id)) }
      hfind
      (by
        unfold countRegistrations at hcount ⊢
        simp only [List.countP_append, List.countP_cons, List.countP_nil, htarget,
          beq_self_eq_true, if_true]
        push_cast
        omega)
      (by
        intro c2 hc2
        obtain ⟨ht2, hf2, hk2, hn2⟩ := hcalls c2 (List.mem_cons_of_mem _ hc2)
        refine ⟨ht2, hf2, hk2, ?_⟩
        unfold hasRegistration at hn2 ⊢
        simp only [List.any_append, hn2, Bool.false_or, List.any_cons, List.any_nil,
          Bool.or_false, Bool.and_eq_false_imp, beq_iff_eq]
        intro _
        have hne : c.account ≠ c2.account := by
          intro heq
          exact hnodup.1 (by rw [heq]; exact List.mem_map_of_mem _ hc2)
        simpa using hne)
      hnodup.2
    obtain ⟨hok, hl, hf, hc⟩ := hstep
    refine ⟨?_, ?_, hf, hc⟩
    · intro r hr
      rcases List.mem_cons.mp hr with rfl | hr
      · exact ⟨_, rfl⟩
      · exact hok r hr
    · simp [hl]

/-- C13: on an event with `n` seats, a date that is not past at any of the calls and
no registration, `n` successive `CreateRegistration` calls by pairwise distinct known
accounts each return an id, and the next `CreateRegistration` for the event fails with
"event is fully booked" and leaves the store as the `n` calls left it. -/
theorem seats_fill_then_refuse (db : Store) (e : EventRow) (calls : List JoinCall)
    (last : JoinCall)
    (hid : 0 < e.id)
    (hfind : db.events.find? (fun r => r.id == e.id) = some e)
    (hn : ((calls.length : Nat) : Int) = e.seats)
    (hempty : countRegistrations db e.id = 0)
    (htargets : ∀ c ∈ calls ++ [last], c.req.EventID = e.id)
    (hfuture : ∀ c ∈ calls, (scanEvent e).EventDate.Before c.now = false)
    (hknown : ∀ c ∈ calls, userExists db c.account = true)
    (hdistinct : ((calls ++ [last]).map (fun c => c.account)).Nodup) :
    (∀ r ∈ (registerEach db calls).1, ∃ id, r = .ok id)
      ∧ (registerEach db calls).1.length = calls.length
      ∧ CreateRegistration (registerEach db calls).2 last.now last.req (some last.account)
        = (.error (.msg "event is fully booked"), (registerEach db calls).2) := by
  have hnone : ∀ c ∈ calls, hasRegistration db e.id c.account = false := by
    intro c _
    unfold hasRegistration
    rw [List.any_eq_false]
    intro r hr hp
    unfold countRegistrations at hempty
    have h0 : db.registrations.countP (fun r => r.event_id == e.id) = 0 := by
      exact_mod_cast hempty
    rw [List.countP_eq_zero] at h0
    have := h0 r hr
    simp only [Bool.and_eq_true] at hp
    exact this hp.1
  have hnodup : (calls.map (fun c => c.account)).Nodup := by
    rw [List.map_append, List.nodup_append] at hdistinct
    exact hdistinct.1
  obtain ⟨hok, hl, hf, hc⟩ := registerEach_fills e e.id hid calls db hfind
    (by rw [hempty]; omega)
    (fun c hc => ⟨htargets c (List.mem_append_left _ hc), hfuture c hc, hknown c hc,
      hnone c hc⟩)
    hnodup
  refine ⟨hok, hl, ?_⟩
  have htl : last.req.EventID = e.id :=
    htargets last (List.mem_append_right _ (List.mem_singleton.mpr rfl))
  have hval : last.req.Validate = none := by
    unfold RegistrationRequest.Validate
    rw [htl, if_neg (by omega)]
  have hget : GetEventByID (registerEach db calls).2 last.req.EventID = .ok (scanEvent e) := by
    unfold GetEventByID
    rw [htl, hf]
  have hfull : ¬ ((scanEvent e).Seats
      > countRegistrations (registerEach db calls).2 last.req.EventID) := by
    rw [htl, hc]
    show ¬ (e.seats > e.seats)
    omega
  simp [CreateRegistration, hval, hget, HasAvailableSeats, GetRegistrationsCountForEvent,
    hfull]

/-- Witness of C13, the scenario of the specification: event 1 of `oneSeatStore` has one
seat and is scheduled an hour after the calls; the registration of account 1 returns
an id and that of account 2 is refused as fully booked. -/
theorem seats_fill_then_refuse_witness :
    (∀ r ∈ (registerEach oneSeatStore [aliceJoins]).1, ∃ id, r = .ok id)
      ∧ (registerEach oneSeatStore [aliceJoins]).1.length = [aliceJoins].length
      ∧ CreateRegistration (registerEach oneSeatStore [aliceJoins]).2 bobJoins.now bobJoins.req
          (some bobJoins.account)
        = (.error (.msg "event is fully booked"), (registerEach oneSeatStore [aliceJoins]).2) :=
  seats_fill_then_refuse oneSeatStore singleSeatRow [aliceJoins] bobJoins
    (by decide) (by decide) (by decide) (by decide) (by decide) (by decide) (by decide)
    (by decide)

/-! ## Names derived by the `CreateRegistration` handler -/

theorem getRegistrationByID_ok (db : Store) (id : Int) (registration : Registration)
    (h : GetRegistrationByID db id = .ok registration) :
    ∃ r, db.registrations.find? (fun r => r.id == id) = some r
      ∧ registration = scanRegistration r ∧ r ∈ db.registrations ∧ r.id = id := by
  unfold GetRegistrationByID at h
  cases hf : db.registrations.find? (fun r => r.id == id) with
  | none => rw [hf] at h; cases h
  | some r =>
    rw [hf] at h
    refine ⟨r, rfl, ?_, List.mem_of_find?_eq_some hf, ?_⟩
    · cases h; rfl
    · simpa using List.find?_some hf

/-- C15: for an existing registration owned by the caller and a valid request naming an
existing event, `UpdateRegistration` returns no error and the registration then refers
to the requested event, with the request's names. No hypothesis restricts the seats,
the date or the other registrations of that event: the capacity, schedule and duplicate
checks are not run. -/
theorem updateRegistration_skips_checks (db : Store) (id : Int) (req : RegistrationRequest)
    (userID : Int) (registration : Registration) (event : Event)
    (hvalid : req.Validate = none)
    (hreg : GetRegistrationByID db id = .ok registration)
    (howner : registration.UserID = userID)
    (hevent : GetEventByID db req.EventID = .ok event) :
    (UpdateRegistration db id req userID).1 = none
      ∧ (UpdateRegistration db id req userID).2 = updateRegistrationRows db id req
      ∧ GetRegistrationByID (UpdateRegistration db id req userID).2 id
        = .ok { registration with
                EventID := req.EventID, FirstName := req.FirstName, LastName := req.LastName } := by
  obtain ⟨r, hfind, hscan, hmem, hid⟩ := getRegistrationByID_ok db id registration hreg
  have hpos : 0 < db.registrations.countP (fun r => r.id == id) := by
    rw [List.countP_pos_iff]
    exact ⟨r, hmem, by simp [hid]⟩
  have hne : db.registrations.countP (fun r => r.id == id) ≠ 0 := by omega
  have h : UpdateRegistration db id req userID = (none, updateRegistrationRows db id req) := by
    simp [UpdateRegistration, hvalid, hreg, howner, hevent, hne]
  rw [h]
  refine ⟨rfl, rfl, ?_⟩
  unfold GetRegistrationByID updateRegistrationRows
  dsimp only
  rw [List.find?_map]
  have hcomp : ((fun r : RegistrationRow => r.id == id) ∘ fun r : RegistrationRow =>
      if (r.id == id) = true then
        { r with event_id := req.EventID, first_name := req.FirstName, last_name := req.LastName }
      else r) = fun r => r.id == id := by
    funext x
    simp only [Function.comp]
    split <;> rfl
  rw [hcomp, hfind]
  simp only [Option.map_some']
  rw [if_pos (by simp [hid]), hscan]
  rfl

/-- Witness of C15: in `crowdedStore` event 1 has its single seat taken, is in the past
at `twoHoursLater` and already has a registration of account 1; account 1 still moves
its registration 3 onto event 1. -/
theorem updateRegistration_skips_checks_witness :
    HasAvailableSeats crowdedStore 1 = .ok false
      ∧ (∃ event, GetEventByID crowdedStore 1 = .ok event
          ∧ event.EventDate.Before twoHoursLater = true)
      ∧ hasRegistration crowdedStore 1 1 = true
      ∧ (UpdateRegistration crowdedStore 3 (joinRequest 1) 1).1 = none
      ∧ (UpdateRegistration crowdedStore 3 (joinRequest 1) 1).2
        = updateRegistrationRows crowdedStore 3 (joinRequest 1)
      ∧ GetRegistrationByID (UpdateRegistration crowdedStore 3 (joinRequest 1) 1).2 3
        = .ok { ID := 3, EventID := 1, UserID := 1, FirstName := "alice", LastName := "alice",
                CreatedAt := newYearMorning } :=
  ⟨by decide, ⟨_, rfl, by decide⟩, by decide,
    updateRegistration_skips_checks crowdedStore 3 (joinRequest 1) 1
      { ID := 3, EventID := 3, UserID := 1, FirstName := "alice", LastName := "alice",
        CreatedAt := newYearMorning }
      (scanEvent singleSeatRow) (by decide) (by decide) (by decide) (by decide)⟩

/-- C16: with a valid request, for an existing event whose creator differs from the
caller, `UpdateEvent` and `DeleteEvent` fail with their permission errors and leave the
store unchanged; for an absent event id both fail with `sql.ErrNoRows` and leave the
store unchanged. `DeleteEvent` does so on every connection, with or without the
`foreign_keys` pragma. -/
theorem event_permission_and_absence (foreignKeys : Bool) (db : Store) (now : Time) (id : Int)
    (req : EventRequest) (userID : Int) (hvalid : req.Validate now = none) :
    (∀ event, GetEventByID db id = .ok event → event.CreatorID ≠ userID →
        UpdateEvent db now id req userID
            = (some (.msg "you don't have permission to update this event"), db)
          ∧ DeleteEvent foreignKeys db id userID
            = (some (.msg "you don't have permission to delete this event"), db))
      ∧ (GetEventByID db id = .error .noRows →
          UpdateEvent db now id req userID = (some .noRows, db)
            ∧ DeleteEvent foreignKeys db id userID = (some .noRows, db)) := by
  constructor
  · intro event hevent hother
    constructor
    · simp [UpdateEvent, hvalid, hevent, hother]
    · simp [DeleteEvent, hevent, hother]
  · intro habsent
    constructor
    · simp [UpdateEvent, hvalid, habsent]
    · simp [DeleteEvent, habsent]

/-- Witness of C16: event 1 of `twoBookedStore` was created by account 1 and account 2
may neither update nor delete it; there is no event 99. -/
theorem event_permission_and_absence_witness :
    (UpdateEvent twoBookedStore newYearMorning 1 renameRequest 2
          = (some (.msg "you don't have permission to update this event"), twoBookedStore)
        ∧ DeleteEvent true twoBookedStore 1 2
          = (some (.msg "you don't have permission to delete this event"), twoBookedStore))
      ∧ (UpdateEvent twoBookedStore newYearMorning 99 renameRequest 2
            = (some .noRows, twoBookedStore)
          ∧ DeleteEvent true twoBookedStore 99 2 = (some .noRows, twoBookedStore)) :=
  ⟨(event_permission_and_absence true twoBookedStore newYearMorning 1 renameRequest 2
      (by decide)).1
      (scanEvent
        { id := 1, title := "talk", description := some "", location := some "",
          event_type := "meetup", event_date := "2026-01-01T07:00:00Z", seats := 5,
          creator_id := some 1, created_at := "2026-01-01 06:00:00" })
      (by decide) (by decide),
    (event_permission_and_absence true twoBookedStore newYearMorning 99 renameRequest 2
      (by decide)).2 (by decide)⟩

/-- C17, counterexample: registration 1 of `registeredStore` belongs to account 1;
`UpdateRegistration` by account 2 with a request whose event reference is negative
fails with "event ID is required", not with the permission error. -/
theorem updateRegistration_validates_first :
    GetRegistrationByID registeredStore 1 = .ok (scanRegistration aliceRegistrationRow)
      ∧ (scanRegistration aliceRegistrationRow).UserID ≠ 2
      ∧ (UpdateRegistration registeredStore 1 negativeJoinRequest 2).1
        = some (.msg "event ID is required")
      ∧ (UpdateRegistration registeredStore 1 negativeJoinRequest 2).1
        ≠ some (.msg "you don't have permission to update this registration") := by
  refine ⟨by decide, by decide, by decide, by decide⟩

theorem length_filter_unique (rows : List RegistrationRow) (id : Int)
    (hpk : (rows.map (fun r => r.id)).Nodup) (r : RegistrationRow) (hr : r ∈ rows)
    (hid : r.id = id) :
    (rows.filter (fun r => r.id != id)).length + 1 = rows.length := by
  have hcount : rows.countP (fun r => r.id == id) = 1 := by
    have h1 : (rows.map (fun r => r.id)).count id = 1 :=
      List.count_eq_one_of_mem hpk (by rw [← hid]; exact List.mem_map_of_mem _ hr)
    rw [List.count, List.countP_map] at h1
    exact h1
  have hsplit := List.length_eq_countP_add_countP (fun r : RegistrationRow => r.id == id) rows
  have hneg : rows.countP (fun a => ¬ (a.id == id) = true)
      = (rows.filter (fun r => r.id != id)).length := by
    rw [List.countP_eq_length_filter]
    congr 1
    apply List.filter_congr
    intro x _
    by_cases hx : x.id = id <;> simp [hx]
  omega

/-- The order of `UpdateRegistration`: a request that fails `Validate` fails with the
validation error and leaves the store unchanged, whoever the caller is and whether or
not the registration exists. -/
theorem updateRegistration_invalid_request (db : Store) (id : Int) (req : RegistrationRequest)
    (userID : Int) (err : Err) (hinvalid : req.Validate = some err) :
    UpdateRegistration db id req userID = (some err, db) := by
  unfold UpdateRegistration
  rw [hinvalid]

/-- C17, amended: for an existing registration whose account id differs from the caller
id, `UpdateRegistration` with a valid request and `DeleteRegistration` fail with their
permission errors and leave the store unchanged; when the caller is the owning account,
`DeleteRegistration` returns no error and removes the rows with that id and no other,
which under the primary key of `registrations` is exactly one row. -/
theorem registration_permission (db : Store) (id : Int) (req : RegistrationRequest)
    (userID : Int) (registration : Registration)
    (hreg : GetRegistrationByID db id = .ok registration) :
    (registration.UserID ≠ userID →
        (req.Validate = none → UpdateRegistration db id req userID
            = (some (.msg "you don't have permission to update this registration"), db))
          ∧ DeleteRegistration db id userID
            = (some (.msg "you don't have permission to delete this registration"), db))
      ∧ (registration.UserID = userID →
          (DeleteRegistration db id userID).1 = none
            ∧ (∀ r, r ∈ (DeleteRegistration db id userID).2.registrations
                ↔ (r ∈ db.registrations ∧ r.id ≠ id))
            ∧ (DeleteRegistration db id userID).2.events = db.events
            ∧ (DeleteRegistration db id userID).2.users = db.users
            ∧ (UniqueRegistrationIds db →
                (DeleteRegistration db id userID).2.registrations.length + 1
                  = db.registrations.length)) := by
  obtain ⟨r, _, _, hmem, hid⟩ := getRegistrationByID_ok db id registration hreg
  constructor
  · intro hother
    constructor
    · intro hvalid
      simp [UpdateRegistration, hvalid, hreg, hother]
    · simp [DeleteRegistration, hreg, hother]
  · intro howner
    have hpos : 0 < db.registrations.countP (fun r => r.id == id) := by
      rw [List.countP_pos_iff]
      exact ⟨r, hmem, by simp [hid]⟩
    have hne : db.registrations.countP (fun r => r.id == id) ≠ 0 := by omega
    have h : DeleteRegistration db id userID = (none, deleteRegistrationRows db id) := by
      simp [DeleteRegistration, hreg, howner, hne]
    rw [h]
    refine ⟨rfl, ?_, rfl, rfl, ?_⟩
    · intro x
      simp [deleteRegistrationRows, List.mem_filter]
    · intro hpk
      exact length_filter_unique db.registrations id hpk r hmem hid

/-- Witness of C17 as amended: registration 1 of `registeredStore` belongs to account 1;
account 2 may neither update nor delete it, and account 1 deletes it, which empties the
table. -/
theorem registration_permission_witness :
    (UpdateRegistration registeredStore 1 (joinRequest 1) 2
          = (some (.msg "you don't have permission to update this registration"),
              registeredStore)
        ∧ DeleteRegistration registeredStore 1 2
          = (some (.msg "you don't have permission to delete this registration"),
              registeredStore))
      ∧ (DeleteRegistration registeredStore 1 1).1 = none
      ∧ (DeleteRegistration registeredStore 1 1).2.registrations = [] :=
  ⟨⟨((registration_permission registeredStore 1 (joinRequest 1) 2
        (scanRegistration aliceRegistrationRow) (by decide)).1 (by decide)).1 (by decide),
      ((registration_permission registeredStore 1 (joinRequest 1) 2
        (scanRegistration aliceRegistrationRow) (by decide)).1 (by decide)).2⟩,
    ((registration_permission registeredStore 1 (joinRequest 1) 1
        (scanRegistration aliceRegistrationRow) (by decide)).2 (by decide)).1,
    by decide⟩

/-! ## Listing events and reading a registration with its event -/

theorem getAllEvents_of_none_selected (foreignKeys : Int → Bool) (db : Store) (now : Time)
    (h : selectExpired db now = []) :
    GetAllEvents foreignKeys db now = ((orderByEventDate db.events).map scanEvent, db) := by
  unfold GetAllEvents DeleteExpiredEvents DeleteExpiredEventsWith
  rw [h]
  rfl

theorem getEventsByUser_of_none_selected (foreignKeys : Int → Bool) (db : Store) (now : Time)
    (userID : Int) (h : selectExpired db now = []) :
    GetEventsByUser foreignKeys db now userID
      = ((orderByEventDate
            (db.events.filter (fun e => e.creator_id == some userID))).map scanEvent, db) := by
  unfold GetEventsByUser DeleteExpiredEvents DeleteExpiredEventsWith
  rw [h]
  rfl

/-- C18, the code at the failing input: event 1 of `offsetEventStore` is stored as
`2026-01-01T10:00:00+05:00`, the instant 05:00 UTC. `GetAllEvents` and `GetEventsByUser`
called at 06:00 UTC run the sweep, which compares date texts and deletes nothing, and
both return the event, whose scheduled date is before the current time. -/
theorem listing_returns_past_event (foreignKeys : Int → Bool) :
    (GetAllEvents foreignKeys offsetEventStore newYearMorning).2 = offsetEventStore
      ∧ (GetAllEvents foreignKeys offsetEventStore newYearMorning).1.map
          (fun e => (e.ID, e.EventDate)) = [(1, tenOClockPlusFive)]
      ∧ (GetEventsByUser foreignKeys offsetEventStore newYearMorning 1).1.map
          (fun e => (e.ID, e.EventDate)) = [(1, tenOClockPlusFive)]
      ∧ tenOClockPlusFive.Before newYearMorning = true
      ∧ (∃ e ∈ (GetAllEvents foreignKeys offsetEventStore newYearMorning).1,
          e.EventDate.Before newYearMorning = true)
      ∧ (∃ e ∈ (GetEventsByUser foreignKeys offsetEventStore newYearMorning 1).1,
          e.EventDate.Before newYearMorning = true) := by
  have hsel : selectExpired offsetEventStore newYearMorning = [] := by decide
  rw [getAllEvents_of_none_selected foreignKeys _ _ hsel,
    getEventsByUser_of_none_selected foreignKeys _ _ _ hsel]
  refine ⟨rfl, by decide, by decide, by decide, ?_, ?_⟩
  · exact ⟨_, List.mem_singleton.mpr rfl, by decide⟩
  · exact ⟨_, List.mem_singleton.mpr rfl, by decide⟩

/-- C19, the code at the failing input: in `mixedOffsetStore` event 1 is stored as
`2026-01-01T08:00:00Z` and event 2 as `2026-01-01T10:00:00+05:00`, the instant 05:00
UTC. `GetAllEvents` sorts on the text and returns event 1 before event 2, although the
scheduled instant of event 1 is after that of event 2. -/
theorem listing_out_of_order (foreignKeys : Int → Bool) :
    mixedOffsetStore.events.map (fun e => (e.id, e.event_date))
        = [(1, "2026-01-01T08:00:00Z"), (2, "2026-01-01T10:00:00+05:00")]
      ∧ (GetAllEvents foreignKeys mixedOffsetStore newYearMidnight).1.map
          (fun e => (e.ID, e.EventDate))
        = [(1, eightOClockUtc), (2, tenOClockPlusFive)]
      ∧ tenOClockPlusFive.Before eightOClockUtc = true := by
  have hsel : selectExpired mixedOffsetStore newYearMidnight = [] := by decide
  rw [getAllEvents_of_none_selected foreignKeys _ _ hsel]
  refine ⟨by decide, by decide, by decide⟩

/-- C20, the code at the failing input: event 1 of `workshopStore` has the description
"Proofs by hand" and the location "Room 1"; `GetRegistrationWithEventDetails` for its
registration 1 returns the event's title, type and date, and an empty description and
an empty location. -/
theorem details_omit_description_and_location :
    (∃ event, GetEventByID workshopStore 1 = .ok event
        ∧ event.Description = "Proofs by hand" ∧ event.Location = "Room 1")
      ∧ (∃ response, GetRegistrationWithEventDetails workshopStore 1 = .ok response
          ∧ response.Registration.EventID = 1
          ∧ response.EventTitle = "workshop"
          ∧ response.EventType = "course"
          ∧ response.EventDate = oneHourLater
          ∧ response.EventDescription = ""
          ∧ response.EventLocation = "") := by
  refine ⟨⟨_, rfl, by decide, by decide⟩, ⟨_, rfl, ?_⟩⟩
  refine ⟨by decide, by decide, by decide, by decide, by decide, by decide⟩

/-- What `GetRegistrationWithEventDetails` does return: for an existing registration
whose event exists, the registration with the event's title, type and date; for an
absent registration id, `sql.ErrNoRows`. -/
theorem details_title_type_date (db : Store) (id : Int) :
    (∀ registration event, GetRegistrationByID db id = .ok registration →
        GetEventByID db registration.EventID = .ok event →
        ∃ response, GetRegistrationWithEventDetails db id = .ok response
          ∧ response.Registration = registration
          ∧ response.EventTitle = event.Title
          ∧ response.EventType = event.EventType
          ∧ response.EventDate = event.EventDate)
      ∧ (GetRegistrationByID db id = .error .noRows →
          GetRegistrationWithEventDetails db id = .error .noRows) := by
  constructor
  · intro registration event hreg hevent
    refine ⟨{ Registration := registration, EventTitle := event.Title, EventDescription := "",
              EventLocation := "", EventDate := event.EventDate, EventType := event.EventType },
      ?_, rfl, rfl, rfl, rfl⟩
    unfold GetRegistrationWithEventDetails
    rw [hreg]
    dsimp only
    rw [hevent]
  · intro habsent
    unfold GetRegistrationWithEventDetails
    rw [habsent]

/-- What the sweep before the read does ensure: no event returned by `GetAllEvents` has
a stored date text that sorts before the current time written as RFC 3339 text and
parses to an instant before the current time. -/
theorem listing_drops_selected (foreignKeys : Int → Bool) (db : Store) (now : Time) :
    ∃ rows : List EventRow, (GetAllEvents foreignKeys db now).1 = rows.map scanEvent
      ∧ ∀ e ∈ rows, ∀ d, textLt e.event_date (formatRFC3339 now) = true →
          parseRFC3339 e.event_date = some d → d.Before now = false := by
  refine ⟨orderByEventDate (DeleteExpiredEvents foreignKeys db now).2.events, rfl, ?_⟩
  intro e he d htext hparse
  have hmem : e ∈ (DeleteExpiredEvents foreignKeys db now).2.events := by
    unfold orderByEventDate at he
    exact (List.perm_insertionSort _ _).mem_iff.mp he
  have horig : e ∈ db.events := by
    unfold DeleteExpiredEvents DeleteExpiredEventsWith at hmem
    dsimp only at hmem
    split at hmem
    · exact hmem
    · exact events_sweep _ _ _ db e hmem
  cases hb : d.Before now with
  | false => rfl
  | true =>
    exact absurd rfl
      ((sweep_removes_selected foreignKeys db now e d horig htext hparse hb).1 e hmem)

theorem textLe_total : ∀ a b : List Char, textLtChars b a = false ∨ textLtChars a b = false
  | [], b => Or.inl (by cases b <;> rfl)
  | _ :: _, [] => Or.inr rfl
  | x :: a, y :: b => by
    unfold textLtChars
    rcases textLe_total a b with h | h
    · by_cases h1 : y.toNat < x.toNat
      · right
        rw [if_neg (by omega), if_pos h1]
      · by_cases h2 : x.toNat < y.toNat
        · left
          rw [if_neg h1, if_pos h2]
        · left
          rw [if_neg h1, if_neg h2]
          exact h
    · by_cases h1 : x.toNat < y.toNat
      · left
        rw [if_neg (by omega), if_pos h1]
      · by_cases h2 : y.toNat < x.toNat
        · right
          rw [if_neg h1, if_pos h2]
        · right
          rw [if_neg h1, if_neg h2]
          exact h

theorem textLe_trans : ∀ a b c : List Char,
    textLtChars b a = false → textLtChars c b = false → textLtChars c a = false
  | [], _, c, _, _ => by cases c <;> rfl
  | _ :: _, [], _, h1, _ => by simp [textLtChars] at h1
  | _ :: _, _ :: _, [], _, h2 => by simp [textLtChars] at h2
  | x :: a, y :: b, z :: c, h1, h2 => by
    unfold textLtChars at h1 h2 ⊢
    by_cases hyx : y.toNat < x.toNat
    · rw [if_pos hyx] at h1
      cases h1
    · rw [if_neg hyx] at h1
      by_cases hzy : z.toNat < y.toNat
      · rw [if_pos hzy] at h2
        cases h2
      · rw [if_neg hzy] at h2
        by_cases hxy : x.toNat < y.toNat
        · rw [if_neg (by omega), if_pos (by omega)]
        · rw [if_neg hxy] at h1
          by_cases hyz : y.toNat < z.toNat
          · rw [if_neg (by omega), if_pos (by omega)]
          · rw [if_neg hyz] at h2
            rw [if_neg (by omega), if_neg (by omega)]
            exact textLe_trans a b c h1 h2

/-- The order `GetAllEvents` does produce: the returned events are the rows left by the
sweep, arranged so that the stored date texts ascend in SQLite's TEXT order. -/
theorem listing_sorted_by_text (foreignKeys : Int → Bool) (db : Store) (now : Time) :
    ∃ rows : List EventRow, (GetAllEvents foreignKeys db now).1 = rows.map scanEvent
      ∧ rows.Perm (GetAllEvents foreignKeys db now).2.events
      ∧ rows.Sorted (fun a b => textLt b.event_date a.event_date = false) := by
  refine ⟨orderByEventDate (DeleteExpiredEvents foreignKeys db now).2.events, rfl, ?_, ?_⟩
  · exact List.perm_insertionSort _ _
  · exact @List.sorted_insertionSort EventRow
      (fun a b => textLt b.event_date a.event_date = false) _
      ⟨fun a b => textLe_total a.event_date.data b.event_date.data⟩
      ⟨fun a b c h1 h2 =>
        textLe_trans a.event_date.data b.event_date.data c.event_date.data h1 h2⟩ _



/-! ## The effect of a successful `CreateRegistration` -/

theorem createRegistration_ok_store (db : Store) (now : Time) (req : RegistrationRequest)
    (userID : Option Int) (id : Int)
    (h : (CreateRegistration db now req userID).1 = .ok id) :
    id = nextId db.registrationSeq (db.registrations.map (fun r => r.id))
      ∧ (CreateRegistration db now req userID).2
        = { db with
            registrations := db.registrations ++
              [{ id := id, event_id := req.EventID, user_id := userID,
                 first_name := req.FirstName, last_name := req.LastName,
                 created_at := formatRFC3339 now }]
            registrationSeq := id } := by
  rw [createRegistration_eq_spec] at h ⊢
  cases hff : firstFailure (specChecks db now req userID) with
  | some err => rw [hff] at h; cases h
  | none =>
    rw [hff] at h
    dsimp only at h ⊢
    unfold insertRegistration at h ⊢
    by_cases hc : (eventExists db req.EventID && accountKnown db userID) = true
    · rw [if_pos hc] at h ⊢
      dsimp only at h ⊢
      have hid : nextId db.registrationSeq (db.registrations.map (fun r => r.id)) = id := by
        cases h
        rfl
      rw [hid]
      exact ⟨rfl, rfl⟩
    · rw [if_neg hc] at h
      cases h

/-- C21: whenever `CreateRegistration` returns an id, the store after the call is the
store before it with one registration appended, whose id is the returned id and whose
event id, account reference (NULL when no account was given) and names are those of
the call; the returned id differs from every id stored before; the registration count
of the target event grows by exactly one and that of every other event stays; and the
events, the users and all earlier registrations are unchanged. -/
theorem createRegistration_effect (db : Store) (now : Time) (req : RegistrationRequest)
    (userID : Option Int) (id : Int)
    (h : (CreateRegistration db now req userID).1 = .ok id) :
    (CreateRegistration db now req userID).2.registrations
        = db.registrations ++
            [{ id := id, event_id := req.EventID, user_id := userID,
               first_name := req.FirstName, last_name := req.LastName,
               created_at := formatRFC3339 now }]
      ∧ (∀ r ∈ db.registrations, r.id ≠ id)
      ∧ countRegistrations (CreateRegistration db now req userID).2 req.EventID
        = countRegistrations db req.EventID + 1
      ∧ (∀ other, other ≠ req.EventID →
          countRegistrations (CreateRegistration db now req userID).2 other
            = countRegistrations db other)
      ∧ (CreateRegistration db now req userID).2.events = db.events
      ∧ (CreateRegistration db now req userID).2.users = db.users := by
  obtain ⟨hid, hstore⟩ := createRegistration_ok_store db now req userID id h
  rw [hstore]
  refine ⟨rfl, ?_, ?_, ?_, rfl, rfl⟩
  · intro r hr heq
    have hlt := lt_nextId db.registrationSeq (db.registrations.map (fun r => r.id)) r.id
      (List.mem_map_of_mem _ hr)
    omega
  · unfold countRegistrations
    simp only [List.countP_append, List.countP_cons, List.countP_nil, beq_self_eq_true, if_true]
    push_cast
    omega
  · intro other hother
    unfold countRegistrations
    have hne : (req.EventID == other) = false := by
      simp only [beq_eq_false_iff_ne, ne_eq]
      exact fun hh => hother hh.symm
    simp only [List.countP_append, List.countP_cons, List.countP_nil, hne]
    simp

/-- Witness of C21: account 1 takes the seat of event 1 in `oneSeatStore` and is given
registration id 1. -/
theorem createRegistration_effect_witness :
    (CreateRegistration oneSeatStore newYearMorning (joinRequest 1) (some 1)).2.registrations
        = oneSeatStore.registrations ++
            [{ id := 1, event_id := (joinRequest 1).EventID, user_id := some 1,
               first_name := (joinRequest 1).FirstName, last_name := (joinRequest 1).LastName,
               created_at := formatRFC3339 newYearMorning }]
      ∧ (∀ r ∈ oneSeatStore.registrations, r.id ≠ 1)
      ∧ countRegistrations (CreateRegistration oneSeatStore newYearMorning (joinRequest 1)
          (some 1)).2 (joinRequest 1).EventID
        = countRegistrations oneSeatStore (joinRequest 1).EventID + 1
      ∧ (∀ other, other ≠ (joinRequest 1).EventID →
          countRegistrations (CreateRegistration oneSeatStore newYearMorning (joinRequest 1)
            (some 1)).2 other = countRegistrations oneSeatStore other)
      ∧ (CreateRegistration oneSeatStore newYearMorning (joinRequest 1) (some 1)).2.events
        = oneSeatStore.events
      ∧ (CreateRegistration oneSeatStore newYearMorning (joinRequest 1) (some 1)).2.users
        = oneSeatStore.users :=
  createRegistration_effect oneSeatStore newYearMorning (joinRequest 1) (some 1) 1 (by decide)

/-- C22: for a request with a non-empty title and event type whose scheduled date is
more than 24 hours before the current time, `CreateEvent` fails with "event date must
be no more than one day in the past", whatever the seats, and the store is unchanged. -/
theorem createEvent_too_old (db : Store) (now : Time) (req : EventRequest) (userID : Int)
    (htitle : req.Title ≠ "")
    (htype : req.EventType ≠ "")
    (hold : req.EventDate.unixNano < now.unixNano - 24 * hour) :
    CreateEvent db now req userID
        = (.error (.msg "event date must be no more than one day in the past"), db)
      ∧ (CreateEvent db now req userID).2.events = db.events := by
  have hb : req.EventDate.Before (now.Add (-24 * hour)) = true := by
    unfold Time.Before Time.Add
    simp only [decide_eq_true_eq]
    omega
  have hv : req.Validate now
      = some (.msg "event date must be no more than one day in the past") := by
    unfold EventRequest.Validate
    rw [if_neg htitle, if_neg htype, if_pos hb]
  have h : CreateEvent db now req userID
      = (.error (.msg "event date must be no more than one day in the past"), db) := by
    unfold CreateEvent
    rw [hv]
  rw [h]
  exact ⟨rfl, rfl⟩

/-- Witness of C22, the scenario of the specification: a request dated 36 hours before
`newYearMorning`, here with zero seats, is refused for its date. -/
theorem createEvent_too_old_witness :
    CreateEvent accountsStore newYearMorning (talkRequest thirtySixHoursEarlier 0) 1
        = (.error (.msg "event date must be no more than one day in the past"), accountsStore)
      ∧ (CreateEvent accountsStore newYearMorning (talkRequest thirtySixHoursEarlier 0) 1).2.events
        = accountsStore.events :=
  createEvent_too_old accountsStore newYearMorning (talkRequest thirtySixHoursEarlier 0) 1
    (by decide) (by decide) (by decide)

/-! ## Failing deletes in the sweep, unparsable creation times, and 64-bit seats -/

theorem sweep_fold_removes (foreignKeys : Int → Bool) (deleteFails : Int → Bool) (id : Int)
    (hok : deleteFails id = false) (hfk : foreignKeys id = true) (ids : List Int) :
    ∀ s : Store, id ∈ ids ∨ (∀ r ∈ s.registrations, r.event_id ≠ id) →
      ∀ r ∈ (ids.foldl
          (fun s id => if deleteFails id then s else deleteEventRows (foreignKeys id) s id)
          s).registrations, r.event_id ≠ id := by
  induction ids with
  | nil =>
    intro s h
    rcases h with h | h
    · cases h
    · exact h
  | cons a t ih =>
    intro s h
    simp only [List.foldl_cons]
    apply ih
    by_cases ha : a = id
    · right
      subst ha
      rw [hok]
      simp only [Bool.false_eq_true, if_false]
      intro r hr
      simp only [deleteEventRows, hfk, if_true, List.mem_filter] at hr
      simpa using hr.2
    · rcases h with h | h
      · left
        rcases List.mem_cons.mp h with h | h
        · exact absurd h.symm ha
        · exact h
      · right
        cases deleteFails a
        · simp only [Bool.false_eq_true, if_false]
          intro r hr
          exact h r (registrations_deleteEventRows (foreignKeys a) s a r hr)
        · simpa using h

/-- The sweep returns no error to its caller, whichever deletes fail and whichever
connections serve them. -/
theorem sweep_returns_nil (foreignKeys : Int → Bool) (deleteFails : Int → Bool) (db : Store)
    (now : Time) :
    (DeleteExpiredEventsWith foreignKeys deleteFails db now).1 = none := by
  unfold DeleteExpiredEventsWith
  dsimp only
  split <;> rfl

/-- C23: in `DeleteExpiredEvents`, whichever deletes fail and whichever connections serve
them, every confirmed-expired candidate whose own delete does not fail is removed, and
the sweep returns no error; where the candidate's delete is served with the
`foreign_keys` pragma in force, its registrations are removed with it. -/
theorem sweep_survives_failed_deletes (foreignKeys : Int → Bool) (deleteFails : Int → Bool)
    (db : Store) (now : Time) (id : Int)
    (hcand : id ∈ confirmExpired (selectExpired db now) now)
    (hok : deleteFails id = false) :
    (DeleteExpiredEventsWith foreignKeys deleteFails db now).1 = none
      ∧ (∀ e ∈ (DeleteExpiredEventsWith foreignKeys deleteFails db now).2.events, e.id ≠ id)
      ∧ (foreignKeys id = true →
          ∀ r ∈ (DeleteExpiredEventsWith foreignKeys deleteFails db now).2.registrations,
            r.event_id ≠ id) := by
  unfold DeleteExpiredEventsWith
  dsimp only
  split
  · rename_i hlen
    rw [List.length_eq_zero] at hlen
    rw [hlen] at hcand
    cases hcand
  · exact ⟨rfl, sweep_fold_drops foreignKeys deleteFails id hok _ db (Or.inl hcand),
      fun hfk => sweep_fold_removes foreignKeys deleteFails id hok hfk _ db (Or.inl hcand)⟩

/-- Witness of C23: at `twoHoursLater` events 1 and 2 of `crowdedStore` are the
candidates; the delete of event 1 fails, and event 2 is removed with its registration
while events 1 and 3 stay. -/
theorem sweep_survives_failed_deletes_witness :
    confirmExpired (selectExpired crowdedStore twoHoursLater) twoHoursLater = [1, 2]
      ∧ firstDeleteFails 1 = true
      ∧ (DeleteExpiredEventsWith pragmaOn firstDeleteFails crowdedStore
            twoHoursLater).2.events.map (fun e => e.id) = [1, 3]
      ∧ (DeleteExpiredEventsWith pragmaOn firstDeleteFails crowdedStore twoHoursLater).1 = none
      ∧ (∀ e ∈ (DeleteExpiredEventsWith pragmaOn firstDeleteFails crowdedStore
            twoHoursLater).2.events, e.id ≠ 2)
      ∧ (∀ r ∈ (DeleteExpiredEventsWith pragmaOn firstDeleteFails crowdedStore
            twoHoursLater).2.registrations, r.event_id ≠ 2) :=
  ⟨by decide, by decide, by decide,
    (sweep_survives_failed_deletes pragmaOn firstDeleteFails crowdedStore twoHoursLater 2
      (by decide) (by decide)).1,
    (sweep_survives_failed_deletes pragmaOn firstDeleteFails crowdedStore twoHoursLater 2
      (by decide) (by decide)).2.1,
    (sweep_survives_failed_deletes pragmaOn firstDeleteFails crowdedStore twoHoursLater 2
      (by decide) (by decide)).2.2 rfl⟩

/-- C24, the code at the failing input: registration 1 of `legacyStampStore` has the
creation time `2026-01-01 06:00:00`, which does not parse as RFC 3339. Read at
`twoHoursLater`, `GetUserRegistrations` yields the current time as `CreatedAt`, while
`GetRegistrationByID` and `GetAllRegistrations` yield Go's zero time, which is not the
current time. None of the reads fails. -/
theorem unparsable_created_at_reads :
    parseRFC3339 "2026-01-01 06:00:00" = none
      ∧ (GetUserRegistrations legacyStampStore twoHoursLater 1).map
          (fun p => p.Registration.CreatedAt) = [twoHoursLater]
      ∧ (∃ registration, GetRegistrationByID legacyStampStore 1 = .ok registration
          ∧ registration.CreatedAt = zeroTime)
      ∧ (GetAllRegistrations legacyStampStore none).map (fun r => r.CreatedAt) = [zeroTime]
      ∧ (GetAllRegistrations legacyStampStore (some 1)).map (fun r => r.CreatedAt) = [zeroTime]
      ∧ zeroTime ≠ twoHoursLater := by
  refine ⟨by decide, by decide, ⟨_, rfl, by decide⟩, by decide, by decide, by decide⟩

/-- What the three reads do with a creation time that does not parse: none fails;
`GetRegistrationByID` and `GetAllRegistrations` yield the zero time, and
`GetUserRegistrations` the current time. -/
theorem unparsable_created_at_general (db : Store) (now : Time) (r : RegistrationRow)
    (hparse : parseRFC3339 r.created_at = none) :
    (scanRegistration r).CreatedAt = zeroTime
      ∧ (db.registrations.find? (fun x => x.id == r.id) = some r →
          GetRegistrationByID db r.id = .ok (scanRegistration r))
      ∧ (∀ e userID, (r, e) ∈ joinUserRegistrations db userID →
          ∃ p ∈ GetUserRegistrations db now userID,
            p.Registration.ID = r.id ∧ p.Registration.CreatedAt = now) := by
  refine ⟨?_, ?_, ?_⟩
  · unfold scanRegistration
    rw [hparse]
    rfl
  · intro hfind
    unfold GetRegistrationByID
    rw [hfind]
  · intro e userID hmem
    unfold GetUserRegistrations
    refine ⟨_, List.mem_map_of_mem _ hmem, rfl, ?_⟩
    dsimp only
    rw [hparse]
    rfl

/-- C25, counterexample: with `minInt64` seats and a count of 1, `HasAvailableSeats`
answers false (seats > count fails), while `Event.AvailableSeats` wraps around to
2^63 - 1, which is greater than 0. -/
theorem availableSeats_wraps :
    HasAvailableSeats overdrawnStore 1 = .ok false
      ∧ countRegistrations overdrawnStore 1 = 1
      ∧ (∃ event, GetEventByID overdrawnStore 1 = .ok event ∧ event.Seats = minInt64
          ∧ event.AvailableSeats (countRegistrations overdrawnStore 1) = 9223372036854775807
          ∧ 0 < event.AvailableSeats (countRegistrations overdrawnStore 1)) := by
  refine ⟨by decide, by decide, ⟨_, rfl, by decide, by decide, by decide⟩⟩

/-- C25, amended: for seats `s` and a count `c >= 0` that are Go 64-bit ints whose
difference does not overflow (`-2^63 <= s - c`, which holds for every `s >= 0`),
`HasAvailableSeats` answers true exactly when `Event.AvailableSeats` at the count is
greater than 0. -/
theorem hasAvailableSeats_iff_available (db : Store) (id : Int) (event : Event)
    (hevent : GetEventByID db id = .ok event)
    (hseats : event.Seats < 2 ^ 63)
    (hcount : 0 ≤ countRegistrations db id)
    (hfit : -2 ^ 63 ≤ event.Seats - countRegistrations db id) :
    HasAvailableSeats db id = .ok (decide (event.Seats > countRegistrations db id))
      ∧ (HasAvailableSeats db id = .ok true
          ↔ 0 < event.AvailableSeats (GetRegistrationsCountForEvent db id)) := by
  have hhas : HasAvailableSeats db id
      = .ok (decide (event.Seats > countRegistrations db id)) := by
    unfold HasAvailableSeats GetRegistrationsCountForEvent
    rw [hevent]
  have hwrap : event.AvailableSeats (GetRegistrationsCountForEvent db id)
      = event.Seats - countRegistrations db id := by
    unfold Event.AvailableSeats GetRegistrationsCountForEvent
    apply wrapInt64_eq <;> omega
  refine ⟨hhas, ?_⟩
  rw [hhas, hwrap]
  constructor
  · intro h
    have : decide (event.Seats > countRegistrations db id) = true := by
      injection h
    have := of_decide_eq_true this
    omega
  · intro h
    have : event.Seats > countRegistrations db id := by omega
    rw [decide_eq_true this]

/-- Witness of C25 as amended: event 1 of `twoBookedStore` has five seats and two
registrations; both tests say that seats are available. -/
theorem hasAvailableSeats_iff_available_witness :
    HasAvailableSeats twoBookedStore 1 = .ok (decide ((5 : Int) > countRegistrations twoBookedStore 1))
      ∧ (HasAvailableSeats twoBookedStore 1 = .ok true
          ↔ 0 < (scanEvent { singleSeatRow with seats := 5 }).AvailableSeats
              (GetRegistrationsCountForEvent twoBookedStore 1)) :=
  hasAvailableSeats_iff_available twoBookedStore 1 (scanEvent { singleSeatRow with seats := 5 })
    (by decide) (by decide) (by decide) (by decide)

/-! ## Create then delete -/

/-- C26: when `CreateRegistration` for account `a` returns the id `r`, the
`DeleteRegistration` of `r` by `a` that follows returns no error and leaves exactly the
registrations stored before the create; the events are unchanged, so every event's
registration count and available seats are what they were. -/
theorem create_then_delete (db : Store) (now : Time) (req : RegistrationRequest) (a r : Int)
    (h : (CreateRegistration db now req (some a)).1 = .ok r) :
    (DeleteRegistration (CreateRegistration db now req (some a)).2 r a).1 = none
      ∧ (DeleteRegistration (CreateRegistration db now req (some a)).2 r a).2.registrations
        = db.registrations
      ∧ (DeleteRegistration (CreateRegistration db now req (some a)).2 r a).2.events = db.events
      ∧ (∀ id, countRegistrations
            (DeleteRegistration (CreateRegistration db now req (some a)).2 r a).2 id
          = countRegistrations db id)
      ∧ (∀ event : Event, ∀ id, event.AvailableSeats (countRegistrations
            (DeleteRegistration (CreateRegistration db now req (some a)).2 r a).2 id)
          = event.AvailableSeats (countRegistrations db id)) := by
  obtain ⟨hid, hstore⟩ := createRegistration_ok_store db now req (some a) r h
  have hfresh : ∀ x ∈ db.registrations, x.id ≠ r := by
    intro x hx heq
    have hlt := lt_nextId db.registrationSeq (db.registrations.map (fun r => r.id)) x.id
      (List.mem_map_of_mem _ hx)
    omega
  have hnone : db.registrations.find? (fun x => x.id == r) = none := by
    rw [List.find?_eq_none]
    intro x hx
    simpa using hfresh x hx
  have hkeep : db.registrations.filter (fun x => x.id != r) = db.registrations := by
    rw [List.filter_eq_self]
    intro x hx
    simpa using hfresh x hx
  rw [hstore]
  have hdel : DeleteRegistration
      { db with
        registrations := db.registrations ++
          [{ id := r, event_id := req.EventID, user_id := some a,
             first_name := req.FirstName, last_name := req.LastName,
             created_at := formatRFC3339 now }]
        registrationSeq := r } r a
      = (none, { db with registrations := db.registrations, registrationSeq := r }) := by
    unfold DeleteRegistration GetRegistrationByID
    simp only [List.find?_append, hnone, Option.none_or, List.find?_cons, beq_self_eq_true]
    simp only [scanRegistration, Option.getD_some, bne_self_eq_false, Bool.false_eq_true,
      if_false, List.countP_append, List.countP_cons, List.countP_nil, beq_self_eq_true,
      if_true]
    rw [if_neg (by omega)]
    simp only [deleteRegistrationRows, List.filter_append, hkeep, List.filter_cons,
      bne_self_eq_false, Bool.false_eq_true, if_false, List.filter_nil, List.append_nil]
  rw [hdel]
  exact ⟨rfl, rfl, rfl, fun _ => rfl, fun _ _ => rfl⟩

/-- Witness of C26: in `registeredStore` account 2 registers for event 1, is given
registration id 2, and deletes it again. -/
theorem create_then_delete_witness :
    (DeleteRegistration (CreateRegistration registeredStore newYearMorning (joinRequest 1)
        (some 2)).2 2 2).1 = none
      ∧ (DeleteRegistration (CreateRegistration registeredStore newYearMorning (joinRequest 1)
          (some 2)).2 2 2).2.registrations = registeredStore.registrations :=
  ⟨(create_then_delete registeredStore newYearMorning (joinRequest 1) 2 2 (by decide)).1,
    (create_then_delete registeredStore newYearMorning (joinRequest 1) 2 2 (by decide)).2.1⟩

/-! ## Validation against expiry -/

theorem createRegistration_fails_of_date (db : Store) (now : Time) (req : RegistrationRequest)
    (userID : Option Int) (h : specDateNotPast db now req = false) :
    ∃ err, CreateRegistration db now req userID = (.error err, db) := by
  rw [createRegistration_eq_spec]
  cases hff : firstFailure (specChecks db now req userID) with
  | some err => exact ⟨err, rfl⟩
  | none =>
    exfalso
    unfold firstFailure specChecks at hff
    cases h1 : specEventReferencePresent req <;> cases h2 : specEventExists db req <;>
      cases h3 : specSeatsAvailable db req <;> simp [h1, h2, h3, h] at hff

/-- C27: `newYearMorning` and a talk dated one hour before it show the disagreement.
`Validate` accepts the request, whose date is within the last 24 hours and before the
current time; `CreateEvent` returns id 1; `GetAllEvents` called at the same time, on
whatever connections its sweep is served, does not contain event 1, which its sweep has
deleted; and at no time from then on does a `CreateRegistration` for event 1 return an
id, neither on the store `CreateEvent` left nor on the store the listing left. -/
theorem validation_and_expiry_disagree (foreignKeys : Int → Bool) :
    (talkRequest oneHourEarlier 5).Validate newYearMorning = none
      ∧ oneHourEarlier.Before newYearMorning = true
      ∧ oneHourEarlier.Before (newYearMorning.Add (-24 * hour)) = false
      ∧ CreateEvent accountsStore newYearMorning (talkRequest oneHourEarlier 5) 1
        = (.ok 1, pastEventStore)
      ∧ eventExists pastEventStore 1 = true
      ∧ (∀ e ∈ (GetAllEvents foreignKeys pastEventStore newYearMorning).1, e.ID ≠ 1)
      ∧ eventExists (GetAllEvents foreignKeys pastEventStore newYearMorning).2 1 = false
      ∧ (∀ (t : Time) (req : RegistrationRequest) (userID : Option Int) (id : Int),
          newYearMorning.unixNano ≤ t.unixNano → req.EventID = 1 →
            (CreateRegistration pastEventStore t req userID).1 ≠ .ok id
              ∧ (CreateRegistration (GetAllEvents foreignKeys pastEventStore newYearMorning).2
                  t req userID).1 ≠ .ok id) := by
  have hev : (DeleteExpiredEvents foreignKeys pastEventStore newYearMorning).2.events = [] := by
    unfold DeleteExpiredEvents
    rw [sweep_events_any_connection foreignKeys pragmaOn]
    decide
  have hev2 : (GetAllEvents foreignKeys pastEventStore newYearMorning).2.events = [] := hev
  have hlist : (GetAllEvents foreignKeys pastEventStore newYearMorning).1 = [] := by
    unfold GetAllEvents
    dsimp only
    rw [hev]
    rfl
  refine ⟨by decide, by decide, by decide, by decide, by decide, ?_, ?_, ?_⟩
  · rw [hlist]
    intro e he
    cases he
  · unfold eventExists
    rw [hev2]
    rfl
  intro t req userID id ht hreq
  have hnow : newYearMorning.unixNano = 1767247200000000000 := by decide
  have hfind : pastEventStore.events.find? (fun e => e.id == 1) = some pastEventRow := by
    decide
  have hdate : (scanEvent pastEventRow).EventDate.unixNano = 1767243600000000000 := by decide
  have h1 : specDateNotPast pastEventStore t req = false := by
    unfold specDateNotPast
    rw [hreq, hfind]
    exact decide_eq_false (by omega)
  have h2 : specDateNotPast (GetAllEvents foreignKeys pastEventStore newYearMorning).2 t req
      = false := by
    unfold specDateNotPast
    rw [hev2]
    rfl
  obtain ⟨err1, he1⟩ := createRegistration_fails_of_date pastEventStore t req userID h1
  obtain ⟨err2, he2⟩ := createRegistration_fails_of_date
    (GetAllEvents foreignKeys pastEventStore newYearMorning).2 t req userID h2
  rw [he1, he2]
  exact ⟨fun h => (by cases h), fun h => (by cases h)⟩

/-! ## Registrations without an account -/

theorem createRegistration_anonymous_never_duplicate (db : Store) (now : Time)
    (req : RegistrationRequest) :
    (CreateRegistration db now req none).1
      ≠ .error (.msg "you have already registered for this event") := by
  rw [createRegistration_eq_spec]
  have h5 : specNotRegistered db req none = true := rfl
  unfold firstFailure specChecks
  cases h1 : specEventReferencePresent req <;> cases h2 : specEventExists db req <;>
    cases h3 : specSeatsAvailable db req <;> cases h4 : specDateNotPast db now req <;>
    simp [h5]
  unfold insertRegistration
  split
  · simp
  · simp [fkFailed]

/-- C28, counterexample: registration 1 of `anonymousStore` has no account reference
and is read back with `UserID` 0; `UpdateRegistration` by caller 2 with a request whose
event reference is negative fails with "event ID is required", not with the permission
error. -/
theorem anonymous_update_validates_first :
    GetRegistrationByID anonymousStore 1 = .ok (scanRegistration anonymousRow)
      ∧ (scanRegistration anonymousRow).UserID = 0
      ∧ (UpdateRegistration anonymousStore 1 negativeJoinRequest 2).1
        = some (.msg "event ID is required")
      ∧ (UpdateRegistration anonymousStore 1 negativeJoinRequest 2).1
        ≠ some (.msg "you don't have permission to update this registration") := by
  refine ⟨by decide, by decide, by decide, by decide⟩

/-- C28, amended: a registration stored without an account reference is read back with
`UserID` 0. For every caller id other than 0, `UpdateRegistration` with a valid request
and `DeleteRegistration` on it fail with their permission errors and leave the store
unchanged, while caller id 0 passes the ownership check: its `DeleteRegistration`
returns no error, and so does its `UpdateRegistration` with a valid request naming an
existing event. `CreateRegistration` with no account id never fails with the
duplicate-registration error, and the row it stores has no account reference. -/
theorem anonymous_registration_owner (db : Store) (id : Int) (req : RegistrationRequest)
    (caller : Int) (r : RegistrationRow)
    (hfind : db.registrations.find? (fun x => x.id == id) = some r)
    (hanon : r.user_id = none) :
    (GetRegistrationByID db id = .ok (scanRegistration r) ∧ (scanRegistration r).UserID = 0)
      ∧ (caller ≠ 0 →
          (req.Validate = none → UpdateRegistration db id req caller
              = (some (.msg "you don't have permission to update this registration"), db))
            ∧ DeleteRegistration db id caller
              = (some (.msg "you don't have permission to delete this registration"), db))
      ∧ (DeleteRegistration db id 0 = (none, deleteRegistrationRows db id))
      ∧ (req.Validate = none → (∃ event, GetEventByID db req.EventID = .ok event) →
          UpdateRegistration db id req 0 = (none, updateRegistrationRows db id req))
      ∧ (∀ (db2 : Store) (now : Time) (req2 : RegistrationRequest),
          (CreateRegistration db2 now req2 none).1
              ≠ .error (.msg "you have already registered for this event")
            ∧ ∀ newId, (CreateRegistration db2 now req2 none).1 = .ok newId →
                ∃ row ∈ (CreateRegistration db2 now req2 none).2.registrations,
                  row.id = newId ∧ row.user_id = none) := by
  have hget : GetRegistrationByID db id = .ok (scanRegistration r) := by
    unfold GetRegistrationByID
    rw [hfind]
  have hzero : (scanRegistration r).UserID = 0 := by
    unfold scanRegistration
    rw [hanon]
    rfl
  have hmem : r ∈ db.registrations := List.mem_of_find?_eq_some hfind
  have hid : r.id = id := by simpa using List.find?_some hfind
  have hpos : 0 < db.registrations.countP (fun r => r.id == id) := by
    rw [List.countP_pos_iff]
    exact ⟨r, hmem, by simp [hid]⟩
  have hne : db.registrations.countP (fun r => r.id == id) ≠ 0 := by omega
  refine ⟨⟨hget, hzero⟩, ?_, ?_, ?_, ?_⟩
  · intro hcaller
    have hother : (scanRegistration r).UserID ≠ caller := by
      rw [hzero]
      exact fun h => hcaller h.symm
    constructor
    · intro hvalid
      simp [UpdateRegistration, hvalid, hget, hother]
    · simp [DeleteRegistration, hget, hother]
  · simp [DeleteRegistration, hget, hzero, hne]
  · rintro hvalid ⟨event, hevent⟩
    simp [UpdateRegistration, hvalid, hget, hzero, hevent, hne]
  · intro db2 now req2
    refine ⟨createRegistration_anonymous_never_duplicate db2 now req2, ?_⟩
    intro newId hok
    obtain ⟨_, hstore⟩ := createRegistration_ok_store db2 now req2 none newId hok
    rw [hstore]
    exact ⟨_, List.mem_append_right _ (List.mem_singleton.mpr rfl), rfl, rfl⟩

/-- Witness of C28 as amended: registration 1 of `anonymousStore` has no account
reference; caller 2 may neither update nor delete it, and caller 0 deletes it. -/
theorem anonymous_registration_owner_witness :
    (GetRegistrationByID anonymousStore 1 = .ok (scanRegistration anonymousRow)
        ∧ (scanRegistration anonymousRow).UserID = 0)
      ∧ (UpdateRegistration anonymousStore 1 (joinRequest 1) 2
            = (some (.msg "you don't have permission to update this registration"),
                anonymousStore)
          ∧ DeleteRegistration anonymousStore 1 2
            = (some (.msg "you don't have permission to delete this registration"),
                anonymousStore))
      ∧ DeleteRegistration anonymousStore 1 0 = (none, deleteRegistrationRows anonymousStore 1) :=
  ⟨(anonymous_registration_owner anonymousStore 1 (joinRequest 1) 2 anonymousRow
      (by decide) (by decide)).1,
    ⟨((anonymous_registration_owner anonymousStore 1 (joinRequest 1) 2 anonymousRow
        (by decide) (by decide)).2.1 (by decide)).1 (by decide),
      ((anonymous_registration_owner anonymousStore 1 (joinRequest 1) 2 anonymousRow
        (by decide) (by decide)).2.1 (by decide)).2⟩,
    (anonymous_registration_owner anonymousStore 1 (joinRequest 1) 2 anonymousRow
      (by decide) (by decide)).2.2.1⟩

end EventPoster
